import Mathlib

/-!
# care-pet (C++ server): hourly aggregation cache, codec and query executor

A shallow embedding of `src/cpp/src/server/handlers.cpp` (the handler
`handle_get_sensor_avg` with its helpers `get_day_time_range`,
`get_hour_from_timestamp`, `get_hour_from_time_point`, `group_by_hour`,
`save_aggregated_data`, `aggregate_missing_hours`, and the lookups
`handle_get_owner`, `handle_get_pets`, `handle_get_sensors`,
`handle_get_measurements` with `parse_iso_datetime`) and of
`src/cpp/src/common/database.hpp` and `database.cpp` (`bind_to_statement`,
`deserialize_cass_value`, `Database::execute`, `Rows`).

Modelling conventions.

* A `std::chrono::year_month_day` that passed `ok()` is represented by its day
  number `sys_days{date}.time_since_epoch().count()` (days since 1970-01-01);
  the conversion is a bijection on valid dates, so `now_date == date` is the
  equality of the day numbers.
* A `system_clock::time_point` is its tick count since the epoch, one tick
  being one nanosecond (the period of `system_clock` in libstdc++).
* `int` is 32 bits wide and `size_t` 64 bits wide; the conversions between
  them that the source performs are written out (`int_of_size_t`,
  `size_t_of_int`).  The counter `HourlyAvg::total` is an unbounded integer:
  an hour bucket holds fewer than `2^31` measurements.
* `float` and `double` are abstract types with the operations the source uses
  (`FloatArith`); the rationals give an exact instance for concrete runs.
* The column store is an external collaborator.  For the aggregation cache its
  state is the measurement table and the hourly-average table, the latter as
  one clustering-ordered row list per partition `(sensor_id, date)`, the date
  being the value the statement binds (`bound_date`, what `bind_to_statement`
  computes for a `year_month_day`), so two dates bound to one value address one
  partition; a range read returns the rows with `from <= ts <= to`, a point
  insert overwrites the row with the same key.  Every statement handed to `Database.execute` is
  logged in `sent`; the store answers the `n`-th statement with the error
  message `fault n` when there is one, and a statement that fails has no
  effect.  `Database.execute` stands for `Database::execute` followed by
  `QueryResult::rows` and the reading of the rows, whose columns have the
  types of the fixed query.
* The library parsers (`cass_uuid_from_string`, `std::chrono::parse`) are
  parameters of the handlers.
-/

namespace CarePet

/-! ## Machine integers -/

/-- Conversion `size_t -> int` (two's complement wrap to 32 bits), as in
`int start_hour = data.size()` and `(int)data.size()`. -/
def int_of_size_t (n : Nat) : Int :=
  if n % 4294967296 < 2147483648 then ((n % 4294967296 : Nat) : Int)
  else ((n % 4294967296 : Nat) : Int) - 4294967296

/-- Conversion `int -> size_t` of the usual arithmetic conversions, as in
`hour != data.size()`. -/
def size_t_of_int (i : Int) : Nat :=
  (i % 18446744073709551616).toNat

/-! ## Floating point -/

/-- The operations on `float` (`F`) and `double` (`D`) used by `group_by_hour`. -/
class FloatArith (F : Type) (D : outParam Type) where
  /-- The `double` literal `0.0`. -/
  zero : D
  /-- Addition of two `double`s. -/
  add : D → D → D
  /-- Division of a `double` by an `int` (converted to `double`). -/
  div_int : D → Int → D
  /-- Promotion `float -> double`. -/
  widen : F → D
  /-- Narrowing `double -> float`, as in `data.push_back(double)`. -/
  narrow : D → F

/-- Exact arithmetic: both `float` and `double` read as rationals. -/
instance : FloatArith ℚ ℚ where
  zero := 0
  add := fun a b => a + b
  div_int := fun a n => a / (n : ℚ)
  widen := fun x => x
  narrow := fun x => x

/-! ## Data model (`model.hpp`) -/

/-- A `CassUuid`: two 64-bit words. -/
structure CassUuid where
  time_and_version : Nat
  clock_seq_and_node : Nat
deriving DecidableEq, Repr

/-- A `Measure`: one raw measurement. -/
structure Measure (F : Type) where
  sensor_id : CassUuid
  ts : Int
  value : F
deriving DecidableEq, Repr

/-- A `SensorAvg`: one entry of the response. -/
structure SensorAvg (F : Type) where
  sensor_id : CassUuid
  date : String
  value : F
deriving DecidableEq, Repr

/-! ## Time helpers -/

/-- Nanoseconds in a day. -/
def ns_per_day : Int := 86400000000000

/-- Nanoseconds in an hour. -/
def ns_per_hour : Int := 3600000000000

/-- Milliseconds in a day. -/
def ms_per_day : Int := 86400000

/-- Milliseconds in an hour. -/
def ms_per_hour : Int := 3600000

/-- The value `std::chrono::floor<std::chrono::days>(now)` as a day number
(`/` on `Int` rounds down for a positive divisor). -/
def floor_days (now : Int) : Int := now / ns_per_day

/-- The function `get_day_time_range`.  `start_of_day` is a `sys_days`, so its
`time_since_epoch().count()` counts days; `end_of_day` has been widened to
milliseconds by the additions, so its count is in milliseconds. -/
def get_day_time_range (date : Int) : Int × Int :=
  let start_of_day := date
  let end_of_day := start_of_day * ms_per_day + 23 * ms_per_hour + 59 * 60000 + 59 * 1000 + 999
  (start_of_day, end_of_day)

/-- The function `get_hour_from_timestamp`. -/
def get_hour_from_timestamp (timestamp_ms : Int) : Int :=
  let dp := timestamp_ms / ms_per_day
  let time_of_day := timestamp_ms - dp * ms_per_day
  time_of_day / ms_per_hour

/-- The function `get_hour_from_time_point`. -/
def get_hour_from_time_point (now : Int) : Int :=
  let dp := now / ns_per_day
  let time_of_day := now - dp * ns_per_day
  time_of_day / ns_per_hour

/-! ## `group_by_hour` -/

/-- The local struct `HourlyAvg` of `group_by_hour`. -/
structure HourlyAvg (D : Type) where
  value : D
  total : Int
deriving DecidableEq, Repr

/-- The array `HourlyAvg hourly_agg[24]` after default initialisation. -/
def hourly_agg_init (F : Type) {D : Type} [FloatArith F D] : List (HourlyAvg D) :=
  List.replicate 24 { value := FloatArith.zero F, total := 0 }

/-- One iteration of the aggregation loop of `group_by_hour`:
`a = hourly_agg[hour]; a.total++; a.value += m.value`.  An index outside the
array (undefined behaviour in the source) leaves the array as it is. -/
def aggregate_measure {F D : Type} [FloatArith F D]
    (hourly_agg : List (HourlyAvg D)) (m : Measure F) : List (HourlyAvg D) :=
  let hour := get_hour_from_timestamp m.ts
  match hourly_agg[hour.toNat]? with
  | some a =>
    hourly_agg.set hour.toNat
      { total := a.total + 1, value := FloatArith.add F a.value (FloatArith.widen m.value) }
  | none => hourly_agg

/-- The value pushed for one bucket: `a.value / a.total` when `a.total > 0`,
else `0.0`, narrowed to `float`. -/
def bucket_average {F D : Type} [FloatArith F D] (a : HourlyAvg D) : F :=
  if a.total > 0 then FloatArith.narrow (FloatArith.div_int F a.value a.total)
  else FloatArith.narrow (FloatArith.zero F)

/-- The fill loop of `group_by_hour`,
`for (hour = start_hour; hour < 24 && (!same_date || hour <= current_hour); hour++)`,
with the iteration count bounded by the first argument.  A negative index
(undefined behaviour in the source) reads an empty bucket. -/
def fill_averages {F D : Type} [FloatArith F D] (hourly_agg : List (HourlyAvg D))
    (current_hour : Int) (same_date : Bool) : Nat → Int → List F → List F
  | 0, _, data => data
  | fuel + 1, hour, data =>
    if hour < 24 ∧ (same_date = false ∨ hour ≤ current_hour) then
      let a := hourly_agg.getD hour.toNat { value := FloatArith.zero F, total := 0 }
      fill_averages hourly_agg current_hour same_date fuel (hour + 1) (data ++ [bucket_average a])
    else data

/-- The function `RequestHandler::Impl::group_by_hour`; the result is the
vector `data` after the call.  The fill loop runs at most `24 - start_hour`
times, which is the bound handed to `fill_averages`. -/
def group_by_hour {F D : Type} [FloatArith F D] (data : List F) (measures : List (Measure F))
    (current_hour : Int) (same_date : Bool) : List F :=
  let start_hour := int_of_size_t data.length
  let hourly_agg := measures.foldl aggregate_measure (hourly_agg_init F)
  fill_averages hourly_agg current_hour same_date (24 - start_hour).toNat start_hour data

/-! ## The store and `Database::execute` -/

/-- The driver function `cass_date_from_epoch` (`cassandra.h`):
`(epoch_secs / 86400) + 2^31` with the integer division of C++ (towards zero),
returned as a `cass_uint32_t`. -/
def cass_date_from_epoch (epoch_secs : Int) : Nat :=
  ((Int.tdiv epoch_secs 86400 + 2147483648) % 4294967296).toNat

/-- The value `bind_to_statement` hands to the driver for a `year_month_day`
(noon of the day in seconds, through `cass_date_from_epoch`): the `date` key a
statement on `carepet.sensor_avg` is executed with. -/
def bound_date (date : Int) : Nat := cass_date_from_epoch ((date * 24 + 12) * 3600)

/-- The statements this handler sends; the bound parameters are the arguments. -/
inductive Statement (F : Type) where
  /-- `SELECT hour, value FROM carepet.sensor_avg WHERE sensor_id = ? AND date = ?` -/
  | fetch_avg (sensor_id : CassUuid) (date : Int)
  /-- `SELECT ts, value FROM carepet.measurement WHERE sensor_id = ? AND ts >= ? AND ts <= ?` -/
  | fetch_measurements (sensor_id : CassUuid) (from_ts to_ts : Int)
  /-- `INSERT INTO carepet.sensor_avg (sensor_id, date, hour, value) VALUES (?, ?, ?, ?)` -/
  | insert_sensor_avg (sensor_id : CassUuid) (date : Int) (hour : Int) (value : F)
deriving DecidableEq, Repr

/-- Point insert into a partition of `sensor_avg` kept in clustering order
(`hour` ascending): a row with the same key is overwritten. -/
def upsert_row {F : Type} (hour : Int) (value : F) : List (Int × F) → List (Int × F)
  | [] => [(hour, value)]
  | (h, v) :: rest =>
    if hour < h then (hour, value) :: (h, v) :: rest
    else if hour = h then (hour, value) :: rest
    else (h, v) :: upsert_row hour value rest

/-- The connection together with the state of the store behind it. -/
structure Database (F : Type) where
  /-- Table `carepet.measurement`. -/
  measurement : List (Measure F)
  /-- Table `carepet.sensor_avg`: the `(hour, value)` rows of each partition
  `(sensor_id, date)`, the date as the store holds it (the bound `cass_uint32_t`). -/
  sensor_avg : CassUuid → Nat → List (Int × F)
  /-- Every statement sent so far, oldest first. -/
  sent : List (Statement F)
  /-- The error the store reports for the `n`-th statement sent, if any. -/
  fault : Nat → Option String

/-- The effect of a statement on the store and the rows it returns; a statement
on `carepet.sensor_avg` addresses the partition of its bound date. -/
def Database.apply {F : Type} (db : Database F) : Statement F → List (Int × F) × Database F
  | .fetch_avg sensor_id date => (db.sensor_avg sensor_id (bound_date date), db)
  | .fetch_measurements sensor_id from_ts to_ts =>
    (((db.measurement.filter
        (fun m => decide (m.sensor_id = sensor_id ∧ from_ts ≤ m.ts ∧ m.ts ≤ to_ts))).map
        (fun m => (m.ts, m.value))), db)
  | .insert_sensor_avg sensor_id date hour value =>
    ([], { db with
      sensor_avg := fun s d =>
        if s = sensor_id ∧ d = bound_date date then upsert_row hour value (db.sensor_avg s d)
        else db.sensor_avg s d })

/-- The method `Database::execute` on a prepared statement followed by
`QueryResult::rows`: the statement is sent; a store error is thrown as a
`std::runtime_error` and the statement then has no effect. -/
def Database.execute {F : Type} (db : Database F) (stmt : Statement F) :
    Except String (List (Int × F)) × Database F :=
  let db1 := { db with sent := db.sent ++ [stmt] }
  match db.fault db.sent.length with
  | some message => (.error message, db1)
  | none => (.ok (db1.apply stmt).1, (db1.apply stmt).2)

/-! ## The handler `handle_get_sensor_avg` -/

/-- The responses of `ResponseFactory`, with the value serialised into the body
of an API response (for `handle_get_sensor_avg` the vector `sensor_avgs`). -/
inductive Response (β : Type) where
  | serverError (why : String)
  | badRequest (why : String)
  | notFound (target : String)
  | apiResponse (body : β)
deriving DecidableEq, Repr

/-- The loop of `handle_get_sensor_avg` over the cached rows: `none` when a row
fails `hour != data.size()`, else the vector `data`. -/
def read_cached {F : Type} : List (Int × F) → List F → Option (List F)
  | [], data => some data
  | (hour, avg) :: rest, data =>
    if size_t_of_int hour ≠ data.length then none
    else read_cached rest (data ++ [avg])

/-- The loop of `save_aggregated_data`,
`for (hour = prev_avg_size; hour < (int)data.size(); hour++)`, with the
iteration count bounded by the first argument.  An exception of
`db.execute` leaves the loop. -/
def save_loop {F D : Type} [FloatArith F D] (sensor_id : CassUuid) (date : Int) (data : List F)
    (same_date : Bool) (current_hour : Int) :
    Nat → Int → Database F → Except String Unit × Database F
  | 0, _, db => (.ok (), db)
  | fuel + 1, hour, db =>
    if hour < int_of_size_t data.length then
      if same_date = true ∧ hour ≥ current_hour then (.ok (), db)
      else
        let value := data.getD hour.toNat (FloatArith.narrow (FloatArith.zero F))
        match db.execute (.insert_sensor_avg sensor_id date hour value) with
        | (.error message, db1) => (.error message, db1)
        | (.ok _, db1) => save_loop sensor_id date data same_date current_hour fuel (hour + 1) db1
    else (.ok (), db)

/-- The function `RequestHandler::Impl::save_aggregated_data`. -/
def save_aggregated_data {F D : Type} [FloatArith F D] (db : Database F) (sensor_id : CassUuid)
    (date : Int) (data : List F) (prev_avg_size : Int) (same_date : Bool) (current_hour : Int) :
    Except String Unit × Database F :=
  save_loop sensor_id date data same_date current_hour
    (int_of_size_t data.length - prev_avg_size).toNat prev_avg_size db

/-- The function `RequestHandler::Impl::aggregate_missing_hours`; the result is
the vector `data` after the call, or the exception thrown. -/
def aggregate_missing_hours {F D : Type} [FloatArith F D] (db : Database F)
    (sensor_id : CassUuid) (now : Int) (date : Int) (data : List F) :
    Except String (List F) × Database F :=
  let now_date := floor_days now
  let range := get_day_time_range date
  match db.execute (.fetch_measurements sensor_id range.1 range.2) with
  | (.error message, db1) => (.error message, db1)
  | (.ok rows, db1) =>
    let measures : List (Measure F) :=
      rows.map (fun row => { sensor_id := sensor_id, ts := row.1, value := row.2 })
    let prev_avg_size := int_of_size_t data.length
    let current_hour := get_hour_from_time_point now
    let same_day := decide (now_date = date)
    let data1 := group_by_hour data measures current_hour same_day
    match save_aggregated_data db1 sensor_id date data1 prev_avg_size same_day current_hour with
    | (.error message, db2) => (.error message, db2)
    | (.ok _, db2) => (.ok data1, db2)

/-- The function `RequestHandler::Impl::handle_get_sensor_avg`.  The library
parsers behind `parse_uuid` and `parse_date` are parameters, and `now` is the
value read from `system_clock::now()`.  The result is the response, or the
exception that leaves the handler, with the database afterwards. -/
def handle_get_sensor_avg {F D : Type} [FloatArith F D]
    (parse_uuid : String → Option CassUuid) (parse_date : String → Option Int)
    (db : Database F) (now : Int) (sensor_id_str date_str : String) :
    Except String (Response (List (SensorAvg F))) × Database F :=
  match parse_uuid sensor_id_str with
  | none => (.ok (.badRequest "Invalid sensor id"), db)
  | some sensor_id =>
    match parse_date date_str with
    | none => (.ok (.badRequest "Invalid date or request into the future"), db)
    | some requested_date =>
      if requested_date > floor_days now then
        (.ok (.badRequest "Can't get avearges for date in the future"), db)
      else
        match db.execute (.fetch_avg sensor_id requested_date) with
        | (.error message, db1) => (.error message, db1)
        | (.ok rows, db1) =>
          match read_cached rows [] with
          | none =>
            (.ok (.serverError
              ("Invalid cached averages data. Please drop avg data for this " ++
               "date in order to recalculate")), db1)
          | some data =>
            let to_avgs := fun (values : List F) =>
              values.map (fun v => ({ sensor_id := sensor_id, date := date_str, value := v } : SensorAvg F))
            if data.length ≠ 24 then
              match aggregate_missing_hours db1 sensor_id now requested_date data with
              | (.error message, db2) => (.error message, db2)
              | (.ok data1, db2) => (.ok (.apiResponse (to_avgs data1)), db2)
            else (.ok (.apiResponse (to_avgs data)), db1)

/-- The sequence of averages carried by a response (empty for an error response). -/
def Response.averages {F : Type} : Response (List (SensorAvg F)) → List F
  | .apiResponse body => body.map (fun a => a.value)
  | _ => []

/-! ## Specification-side definitions -/

/-- Where the fill loop of `group_by_hour` stops: one past the last hour it appends. -/
def fill_end (current_hour : Int) (same_date : Bool) : Nat :=
  if same_date then min 24 (current_hour + 1).toNat else 24

/-- Spec-side: the UTC hour of day of a millisecond timestamp. -/
def utc_hour_of_day (ts : Int) : Int := (ts % 86400000) / 3600000

/-- Spec-side: the arithmetic mean (sum divided by count). -/
def spec_hour_mean {F D : Type} [FloatArith F D] (measures : List (Measure F)) (h : Nat) : F :=
  let values := (measures.filter (fun m => decide (utc_hour_of_day m.ts = (h : Int)))).map
    (fun m => m.value)
  if values.length = 0 then FloatArith.narrow (FloatArith.zero F)
  else
    FloatArith.narrow (FloatArith.div_int F
      (values.foldl (fun acc v => FloatArith.add F acc (FloatArith.widen v)) (FloatArith.zero F))
      (values.length : Int))

/-- The hour column of the cached rows of the partition a request for `date` addresses. -/
def cached_hours {F : Type} (db : Database F) (sensor_id : CassUuid) (date : Int) : List Int :=
  (db.sensor_avg sensor_id (bound_date date)).map Prod.fst

/-- The hours `0, 1, ..., k - 1`. -/
def hours_upto (k : Nat) : List Int := (List.range k).map (fun (i : Nat) => (i : Int))

/-- The hours `k, k + 1, ..., k + n - 1`. -/
def hours_from (k n : Nat) : List Int := (List.range' k n).map (fun (i : Nat) => (i : Int))

/-- One past the last hour `save_aggregated_data` inserts, for `data` of length `len`. -/
def save_end (len : Nat) (current_hour : Int) (same_date : Bool) : Nat :=
  if same_date then min len current_hour.toNat else len

/-- The inserts for the hours `k, ..., k + n - 1` with the values of `data`. -/
def insert_statements {F D : Type} [FloatArith F D] (sensor_id : CassUuid) (date : Int)
    (data : List F) (k n : Nat) : List (Statement F) :=
  (List.range' k n).map (fun (h : Nat) =>
    Statement.insert_sensor_avg sensor_id date (h : Int)
      (data.getD h (FloatArith.narrow (FloatArith.zero F))))

/-- The rows for the hours `k, ..., k + n - 1` with the values of `data`. -/
def inserted_rows {F D : Type} [FloatArith F D] (data : List F) (k n : Nat) : List (Int × F) :=
  (List.range' k n).map (fun (h : Nat) => ((h : Int), data.getD h (FloatArith.narrow (FloatArith.zero F))))

/-- The scan statement of `aggregate_missing_hours` for a date. -/
def scan_statement {F : Type} (sensor_id : CassUuid) (date : Int) : Statement F :=
  .fetch_measurements sensor_id (get_day_time_range date).1 (get_day_time_range date).2

/-- The vector `measures` that `aggregate_missing_hours` builds from its scan. -/
def scan_measures {F : Type} (db : Database F) (sensor_id : CassUuid) (date : Int) :
    List (Measure F) :=
  (db.apply (scan_statement sensor_id date)).1.map
    (fun row => { sensor_id := sensor_id, ts := row.1, value := row.2 })

/-- The vector `data` after `group_by_hour` in `aggregate_missing_hours`. -/
def backfilled {F D : Type} [FloatArith F D] (db : Database F) (sensor_id : CassUuid) (now : Int)
    (date : Int) (data : List F) : List F :=
  group_by_hour data (scan_measures db sensor_id date) (get_hour_from_time_point now)
    (decide (floor_days now = date))

/-- Spec-side: `last_closeable_hour + 1`, that is 24 for a past date and
`current_hour_of(now)` for today. -/
def closeable_end (now : Int) (date : Int) : Nat :=
  if floor_days now = date then (get_hour_from_time_point now).toNat else 24

/-- One past the last hour of the response: 24 for a past date and
`current_hour_of(now) + 1` for today. -/
def response_end (now : Int) (date : Int) : Nat :=
  if floor_days now = date then (get_hour_from_time_point now).toNat + 1 else 24

/-- The vector `sensor_avgs` that `handle_get_sensor_avg` builds from `data`. -/
def sensor_avgs {F : Type} (sensor_id : CassUuid) (date_str : String) (data : List F) :
    List (SensorAvg F) :=
  data.map (fun v => { sensor_id := sensor_id, date := date_str, value := v })

/-- The cached values of the partition a request for `date` addresses, in row order. -/
def cached_values {F : Type} (db : Database F) (sensor_id : CassUuid) (date : Int) : List F :=
  (db.sensor_avg sensor_id (bound_date date)).map Prod.snd

/-- The averages a request is answered with: the cached values, then the mean
of every hour from the cached length up to the current hour of today (up to
hour 23 of a past date) over the measures the scan returns. -/
def served_averages {F D : Type} [FloatArith F D] (db : Database F) (sensor_id : CassUuid)
    (now : Int) (date : Int) : List F :=
  cached_values db sensor_id date ++
    (List.range' (cached_values db sensor_id date).length
      (response_end now date - (cached_values db sensor_id date).length)).map
      (spec_hour_mean (scan_measures db sensor_id date))

deriving instance DecidableEq for Except

/-- Example sensor. -/
def example_sensor : CassUuid := { time_and_version := 1, clock_seq_and_node := 2 }

/-- Example parser for sensor ids: every string is the id of the example sensor. -/
def example_parse_uuid : String → Option CassUuid := fun _ => some example_sensor

/-- Example parser for dates: the day numbers of 2024-01-01 and 2024-01-02. -/
def example_parse_date : String → Option Int := fun s =>
  if s = "2024-01-01" then some 19723 else if s = "2024-01-02" then some 19724 else none

/-- The instant 2024-01-02T05:30Z in nanoseconds since the epoch. -/
def example_now : Int := 19724 * ns_per_day + 5 * ns_per_hour + 30 * 60 * 1000000000

/-- A healthy store over exact arithmetic: the measurement table and the cached
rows of the example sensor for one date. -/
def example_db (measurement : List (Measure ℚ)) (date : Int) (rows : List (Int × ℚ)) :
    Database ℚ :=
  { measurement := measurement,
    sensor_avg := fun s d => if s = example_sensor ∧ d = bound_date date then rows else [],
    sent := [],
    fault := fun _ => none }

/-- The measurements of the scenario of 2024-01-01: values 10 and 20 in hour 0
and value 5 in hour 2. -/
def example_measures : List (Measure ℚ) :=
  [{ sensor_id := example_sensor, ts := 19723 * 86400000 + 5, value := 10 },
   { sensor_id := example_sensor, ts := 19723 * 86400000 + 3000000, value := 20 },
   { sensor_id := example_sensor, ts := 19723 * 86400000 + 2 * 3600000 + 1, value := 5 }]

/-- A measurement of the example sensor on 2023-12-31 (the day before the
scenario date), in hour 1, with value 7. -/
def example_earlier_measure : Measure ℚ :=
  { sensor_id := example_sensor, ts := 19722 * 86400000 + 3600000 + 1, value := 7 }

/-- The body of the server error of the integrity check. -/
def invalid_cached_message : String :=
  "Invalid cached averages data. Please drop avg data for this date in order to recalculate"

/-- Twenty-four cached rows for the hours 0..23, row `h` with value `h`. -/
def example_rows_full : List (Int × ℚ) :=
  (List.range 24).map (fun (h : Nat) => ((h : Int), (h : ℚ)))

/-- A store whose fourth statement (the second insert of a call on a fresh
connection) fails. -/
def example_faulty_db (rows : List (Int × ℚ)) : Database ℚ :=
  { measurement := [],
    sensor_avg := fun s d => if s = example_sensor ∧ d = bound_date 19723 then rows else [],
    sent := [],
    fault := fun n => if n = 3 then some "write timeout" else none }

/-- Twenty-five cached rows for the hours 0..24, row `h` with value `h`. -/
def example_rows_twenty_five : List (Int × ℚ) :=
  (List.range 25).map (fun (h : Nat) => ((h : Int), (h : ℚ)))

/-! ## The typed value codec and the query executor (`database.hpp`, `database.cpp`)

The driver is an external collaborator.  A statement records the parameters
bound to it and every bind call made on it; the driver's verdict on a bind
call (index out of bounds, type mismatch) is a field of the statement.  A
session answers a statement from its query text and bound parameters and logs
every statement sent.  Exceptions are values of `Thrown`; `Thrown.what` is the
message of the `std::runtime_error`. -/

/-- A `CassError` as far as the code looks at it: `CASS_OK`, or another code
together with its `cass_error_desc`. -/
inductive CassError where
  | CASS_OK
  | failure (desc : String)
deriving DecidableEq, Repr

/-- The semantic types of the codec. -/
inductive SemType where
  | int32 | int64 | float | double | string | uuid | date
deriving DecidableEq, Repr

/-- A value of the driver: what a bound parameter or a column holds. -/
inductive CassValue (F D : Type) where
  | int32 (v : Int)
  | int64 (v : Int)
  | float (v : F)
  | double (v : D)
  | string (v : String)
  | uuid (v : CassUuid)
  | uint32 (v : Nat)
  | null
deriving DecidableEq, Repr

/-- The arguments of `bind_to_statement`: one constructor for each explicit
specialisation in `database.cpp`. -/
inductive BindArg (F : Type) where
  | int32 (v : Int)
  | int64 (v : Int)
  | float (v : F)
  | string (v : String)
  | uuid (v : CassUuid)
  | year_month_day (days : Int)
deriving DecidableEq, Repr

/-- The result types of `deserialize_cass_value`: one constructor for each
explicit specialisation in `database.cpp`. -/
inductive ColumnType where
  | int32 | int64 | float | double | uuid | string
deriving DecidableEq, Repr

/-- A value returned by `deserialize_cass_value`. -/
inductive Decoded (F D : Type) where
  | int32 (v : Int)
  | int64 (v : Int)
  | float (v : F)
  | double (v : D)
  | uuid (v : CassUuid)
  | string (v : String)
deriving DecidableEq, Repr

/-- The semantic type an argument of `bind_to_statement` encodes. -/
def BindArg.sem_type {F : Type} : BindArg F → SemType
  | .int32 _ => .int32
  | .int64 _ => .int64
  | .float _ => .float
  | .string _ => .string
  | .uuid _ => .uuid
  | .year_month_day _ => .date

/-- The semantic type a specialisation of `deserialize_cass_value` decodes. -/
def ColumnType.sem_type : ColumnType → SemType
  | .int32 => .int32
  | .int64 => .int64
  | .float => .float
  | .double => .double
  | .uuid => .uuid
  | .string => .string

/-- The type name handed to `assert_ser_success` (`typeid(args).name()`, demangled). -/
def BindArg.type_name {F : Type} : BindArg F → String
  | .int32 _ => "int"
  | .int64 _ => "long"
  | .float _ => "float"
  | .string _ => "std::string"
  | .uuid _ => "CassUuid_"
  | .year_month_day _ => "std::chrono::year_month_day"

/-- The type name handed to `assert_deser_success`. -/
def ColumnType.type_name : ColumnType → String
  | .int32 => "int32"
  | .int64 => "int64"
  | .float => "float"
  | .double => "double"
  | .uuid => "uuid"
  | .string => "std::string"

/-- The function `cass_value_type_name` applied to `cass_value_type(value)`. -/
def cass_value_type_name {F D : Type} : CassValue F D → String
  | .int32 _ => "int"
  | .int64 _ => "bigint"
  | .float _ => "float"
  | .double _ => "double"
  | .string _ => "varchar"
  | .uuid _ => "uuid"
  | .uint32 _ => "date"
  | .null => "unknown"

/-- The exceptions of the query layer. -/
inductive Thrown where
  /-- Thrown by `assert_ser_success`. -/
  | serialize (type_name desc : String)
  /-- Thrown by `assert_deser_success`. -/
  | deserialize (type_name desc value_type : String)
  /-- Thrown by `assert_deser_column_non_null`. -/
  | column_out_of_bounds
  /-- Thrown by the constructor of `Rows`. -/
  | invalid_column_count (expected found : Nat)
  /-- Thrown by `execute_raw` with the message of the future. -/
  | store (message : String)
  /-- A `std::ios_base::failure` thrown by a stream. -/
  | ios_failure
deriving DecidableEq, Repr

/-- The message of an exception (`what()`). -/
def Thrown.what : Thrown → String
  | .serialize type_name desc =>
    "Failed to serialize value of type " ++ type_name ++ ". Error: " ++ desc
  | .deserialize type_name desc value_type =>
    "Can't deserialize value to " ++ type_name ++ ": " ++ desc ++ ". Value type: " ++ value_type
  | .column_out_of_bounds =>
    "Column for deserialization out of bounds. This should be prevented by check in `Rows` " ++
      "constructor, so a bug is likely."
  | .invalid_column_count expected found =>
    "Invalid column count in response expected " ++ toString expected ++ " found " ++
      toString found
  | .store message => message
  | .ios_failure => "basic_ios::clear: iostream error"

/-- The function `assert_ser_success`. -/
def assert_ser_success (error : CassError) (name : String) : Except Thrown Unit :=
  match error with
  | .CASS_OK => .ok ()
  | .failure desc => .error (.serialize name desc)

/-- A `CassStatement`. -/
structure CassStatement (F D : Type) where
  query : String
  /-- The number of parameters the statement has room for. -/
  parameter_count : Nat
  /-- The driver's verdict on binding a value at an index of a statement with
  the given parameter count. -/
  verdict : Nat → Nat → CassValue F D → CassError
  /-- The parameters bound so far, in binding order. -/
  bound : List (Nat × CassValue F D)
  /-- Every bind call made on the statement, in call order. -/
  bind_calls : List (Nat × CassValue F D)

/-- A `CassPrepared`. -/
structure CassPrepared (F D : Type) where
  query : String
  parameter_count : Nat
  verdict : Nat → Nat → CassValue F D → CassError

/-- The driver functions `cass_statement_bind_int32`, `..._int64`, `..._float`,
`..._string_n`, `..._uuid` and `..._uint32`: the value is stored when the
driver accepts it. -/
def cass_statement_bind {F D : Type} (statement : CassStatement F D) (index : Nat)
    (value : CassValue F D) : CassError × CassStatement F D :=
  match statement.verdict statement.parameter_count index value with
  | .CASS_OK =>
    (.CASS_OK, { statement with
      bound := statement.bound ++ [(index, value)],
      bind_calls := statement.bind_calls ++ [(index, value)] })
  | .failure desc =>
    (.failure desc, { statement with bind_calls := statement.bind_calls ++ [(index, value)] })

/-- The specialisations of `bind_to_statement`. -/
def bind_to_statement {F D : Type} (statement : CassStatement F D) (index : Nat) :
    BindArg F → CassError × CassStatement F D
  | .int32 value => cass_statement_bind statement index (.int32 value)
  | .int64 value => cass_statement_bind statement index (.int64 value)
  | .float value => cass_statement_bind statement index (.float value)
  | .string value => cass_statement_bind statement index (.string value)
  | .uuid value => cass_statement_bind statement index (.uuid value)
  | .year_month_day value =>
    let tp_midnight := value
    let tp_noon := tp_midnight * 24 + 12
    let timestamp := tp_noon * 3600
    let cass_date_value := cass_date_from_epoch timestamp
    cass_statement_bind statement index (.uint32 cass_date_value)

/-- The fold `(assert_ser_success(bind_to_statement(c_statement, bind_idx++, args), ...), ...)`
of `Database::execute`: the arguments are bound from left to right and the
first error is thrown. -/
def bind_args {F D : Type} :
    List (BindArg F) → Nat → CassStatement F D → Except Thrown Unit × CassStatement F D
  | [], _, statement => (.ok (), statement)
  | arg :: args, bind_idx, statement =>
    match bind_to_statement statement bind_idx arg with
    | (error, statement1) =>
      match assert_ser_success error arg.type_name with
      | .error e => (.error e, statement1)
      | .ok _ => bind_args args (bind_idx + 1) statement1

/-- A `CassResult`. -/
structure CassResult (F D : Type) where
  column_count : Nat
  rows : List (List (CassValue F D))
deriving DecidableEq, Repr

/-- The session behind a `Database` object. -/
structure CassSession (F D : Type) where
  /-- The answer of the store to a query text with its bound parameters: a
  result, or the error message of the future. -/
  respond : String → List (Nat × CassValue F D) → Except String (CassResult F D)
  /-- Every statement sent with `cass_session_execute`, oldest first. -/
  executed : List (String × List (Nat × CassValue F D))

/-- The method `Database::execute_raw`. -/
def CassSession.execute_raw {F D : Type} (session : CassSession F D)
    (statement : CassStatement F D) : Except Thrown (CassResult F D) × CassSession F D :=
  let session1 :=
    { session with executed := session.executed ++ [(statement.query, statement.bound)] }
  match session.respond statement.query statement.bound with
  | .error message => (.error (.store message), session1)
  | .ok cass_result => (.ok cass_result, session1)

/-- The driver function `cass_statement_reset_parameters`. -/
def cass_statement_reset_parameters {F D : Type} (statement : CassStatement F D) (count : Nat) :
    CassStatement F D :=
  { statement with parameter_count := count, bound := [] }

/-- The driver function `cass_prepared_bind`. -/
def cass_prepared_bind {F D : Type} (prepared : CassPrepared F D) : CassStatement F D :=
  { query := prepared.query, parameter_count := prepared.parameter_count,
    verdict := prepared.verdict, bound := [], bind_calls := [] }

/-- The method `Database::execute(Statement&, Args...)`; the statement after
the call is returned as well. -/
def CassSession.execute {F D : Type} (session : CassSession F D)
    (statement : CassStatement F D) (args : List (BindArg F)) :
    Except Thrown (CassResult F D) × CassSession F D × CassStatement F D :=
  let c_statement := cass_statement_reset_parameters statement args.length
  match bind_args args 0 c_statement with
  | (.error e, c_statement1) => (.error e, session, c_statement1)
  | (.ok _, c_statement1) =>
    ((session.execute_raw c_statement1).1, (session.execute_raw c_statement1).2, c_statement1)

/-- The method `Database::execute(const PreparedStatement&, Args...)`; the
statement built by the call is returned as well. -/
def CassSession.execute_prepared {F D : Type} (session : CassSession F D)
    (prepared : CassPrepared F D) (args : List (BindArg F)) :
    Except Thrown (CassResult F D) × CassSession F D × CassStatement F D :=
  let c_statement := cass_prepared_bind prepared
  match bind_args args 0 c_statement with
  | (.error e, c_statement1) => (.error e, session, c_statement1)
  | (.ok _, c_statement1) =>
    ((session.execute_raw c_statement1).1, (session.execute_raw c_statement1).2, c_statement1)

/-- The driver function `cass_value_get_int32`. -/
def cass_value_get_int32 {F D : Type} : CassValue F D → Except String Int
  | .int32 v => .ok v
  | .null => .error "NULL value returned"
  | _ => .error "Invalid value type"

/-- The driver function `cass_value_get_int64`. -/
def cass_value_get_int64 {F D : Type} : CassValue F D → Except String Int
  | .int64 v => .ok v
  | .null => .error "NULL value returned"
  | _ => .error "Invalid value type"

/-- The driver function `cass_value_get_float`. -/
def cass_value_get_float {F D : Type} : CassValue F D → Except String F
  | .float v => .ok v
  | .null => .error "NULL value returned"
  | _ => .error "Invalid value type"

/-- The driver function `cass_value_get_double`. -/
def cass_value_get_double {F D : Type} : CassValue F D → Except String D
  | .double v => .ok v
  | .null => .error "NULL value returned"
  | _ => .error "Invalid value type"

/-- The driver function `cass_value_get_uuid`. -/
def cass_value_get_uuid {F D : Type} : CassValue F D → Except String CassUuid
  | .uuid v => .ok v
  | .null => .error "NULL value returned"
  | _ => .error "Invalid value type"

/-- The driver function `cass_value_get_string`. -/
def cass_value_get_string {F D : Type} : CassValue F D → Except String String
  | .string v => .ok v
  | .null => .error "NULL value returned"
  | _ => .error "Invalid value type"

/-- The function `assert_deser_success` around a getter of the driver. -/
def assert_deser_success {F D α : Type} (err : Except String α) (type_name : String)
    (value : CassValue F D) : Except Thrown α :=
  match err with
  | .ok v => .ok v
  | .error desc => .error (.deserialize type_name desc (cass_value_type_name value))

/-- The specialisations of `deserialize_cass_value`; `none` is the null
pointer, which `assert_deser_column_non_null` rejects. -/
def deserialize_cass_value {F D : Type} (T : ColumnType) (value : Option (CassValue F D)) :
    Except Thrown (Decoded F D) :=
  match value with
  | none => .error .column_out_of_bounds
  | some value =>
    match T with
    | .int32 => (assert_deser_success (cass_value_get_int32 value) "int32" value).map .int32
    | .int64 => (assert_deser_success (cass_value_get_int64 value) "int64" value).map .int64
    | .float => (assert_deser_success (cass_value_get_float value) "float" value).map .float
    | .double => (assert_deser_success (cass_value_get_double value) "double" value).map .double
    | .uuid => (assert_deser_success (cass_value_get_uuid value) "uuid" value).map .uuid
    | .string =>
      (assert_deser_success (cass_value_get_string value) "std::string" value).map .string

/-- The driver function `cass_row_get_column`: the null pointer for an index
outside the row. -/
def cass_row_get_column {F D : Type} (row : List (CassValue F D)) (index : Nat) :
    Option (CassValue F D) :=
  row[index]?

/-- The function `next_row_impl`: column `Is` is decoded at type `Types[Is]`;
the second argument is the first index of the remaining index sequence. -/
def next_row_impl {F D : Type} (row : List (CassValue F D)) :
    List ColumnType → Nat → Except Thrown (List (Decoded F D))
  | [], _ => .ok []
  | T :: types, index =>
    match deserialize_cass_value T (cass_row_get_column row index) with
    | .error e => .error e
    | .ok v =>
      match next_row_impl row types (index + 1) with
      | .error e => .error e
      | .ok vs => .ok (v :: vs)

/-- The class `Rows<Types...>`: the expected types and the iterator, as the
rows `cass_iterator_next` has not visited yet. -/
structure Rows (F D : Type) where
  types : List ColumnType
  iterator : List (List (CassValue F D))
deriving DecidableEq, Repr

/-- The constructor of `Rows<Types...>` (called by `QueryResult::rows`). -/
def Rows.construct {F D : Type} (result : CassResult F D) (types : List ColumnType) :
    Except Thrown (Rows F D) :=
  if result.column_count ≠ types.length then
    .error (.invalid_column_count types.length result.column_count)
  else .ok { types := types, iterator := result.rows }

/-- The method `Rows::next_row`, with the cursor after the call. -/
def Rows.next_row {F D : Type} (rows : Rows F D) :
    Except Thrown (Option (List (Decoded F D))) × Rows F D :=
  match rows.iterator with
  | [] => (.ok none, rows)
  | row :: rest =>
    ((next_row_impl row rows.types 0).map some, { rows with iterator := rest })

/-- The results of `n` successive calls of `Rows::next_row`; an exception
leaves the cursor where the call left it. -/
def Rows.next_rows {F D : Type} :
    Nat → Rows F D → List (Except Thrown (Option (List (Decoded F D))))
  | 0, _ => []
  | n + 1, rows => rows.next_row.1 :: Rows.next_rows n rows.next_row.2

/-- The value `bind_to_statement` hands to the driver for an argument. -/
def BindArg.wire {F : Type} (D : Type) : BindArg F → CassValue F D
  | .int32 v => .int32 v
  | .int64 v => .int64 v
  | .float v => .float v
  | .string v => .string v
  | .uuid v => .uuid v
  | .year_month_day days => .uint32 (cass_date_from_epoch ((days * 24 + 12) * 3600))

/-- The bind calls for the arguments `args` at the positions `idx, idx + 1, ...`. -/
def bind_calls_of {F : Type} (D : Type) (idx : Nat) (args : List (BindArg F)) :
    List (Nat × CassValue F D) :=
  (args.enumFrom idx).map (fun p => (p.1, p.2.wire D))

/-- A prepared statement with two parameters: the driver accepts a value at
index 0 or 1 and reports an index out of bounds elsewhere. -/
def example_prepared : CassPrepared ℚ ℚ :=
  { query := "SELECT hour, value FROM carepet.sensor_avg WHERE sensor_id = ? AND date = ?",
    parameter_count := 2,
    verdict := fun count index _ =>
      if index < count then .CASS_OK else .failure "Index out of bounds" }

/-- An ad-hoc statement on which the driver accepts every bind call. -/
def example_statement : CassStatement ℚ ℚ :=
  { query := "INSERT INTO carepet.measurement (sensor_id, ts, value) VALUES (?, ?, ?)",
    parameter_count := 0,
    verdict := fun _ _ _ => .CASS_OK,
    bound := [],
    bind_calls := [] }

/-- A session whose store answers every statement with an empty two-column result. -/
def example_session : CassSession ℚ ℚ :=
  { respond := fun _ _ => .ok { column_count := 2, rows := [] }, executed := [] }

/-- A result with two columns and two rows of an hour and a value. -/
def example_result : CassResult ℚ ℚ :=
  { column_count := 2, rows := [[.int32 0, .float 15], [.int32 1, .float 0]] }

/-- The tuples the rows of the example result decode to. -/
def example_tuples : List (List (Decoded ℚ ℚ)) :=
  [[.int32 0, .float 15], [.int32 1, .float 0]]

/-- The cursor over the example result at the types `int32_t, float`. -/
def example_rows : Rows ℚ ℚ :=
  { types := [.int32, .float], iterator := example_result.rows }

/-! ## The other lookups of `handlers.cpp` -/

/-- An `Owner` (`model.hpp`). -/
structure Owner where
  id : CassUuid
  name : String
  address : String
deriving DecidableEq, Repr

/-- A `Pet` (`model.hpp`). -/
structure Pet (F : Type) where
  id : CassUuid
  owner_id : CassUuid
  chip_id : String
  species : String
  breed : String
  color : String
  gender : String
  age : Int
  weight : F
  address : String
  name : String
deriving DecidableEq, Repr

/-- A `Sensor` (`model.hpp`). -/
structure Sensor where
  id : CassUuid
  pet_id : CassUuid
  type : String
deriving DecidableEq, Repr

/-- The structured binding of a row of `rows<CassUuid, std::string, std::string>()`
into an `Owner`; a tuple of another shape does not come out of `next_row_impl`
at these types. -/
def Owner.of_tuple {F D : Type} : List (Decoded F D) → Option Owner
  | [.uuid selected_owner_id, .string name, .string address] =>
    some { id := selected_owner_id, name := name, address := address }
  | _ => none

/-- The structured binding of a row of the pets query into a `Pet`. -/
def Pet.of_tuple {F D : Type} : List (Decoded F D) → Option (Pet F)
  | [.uuid pet_id, .uuid owner_id, .string chip_id, .string species, .string breed,
      .string color, .string gender, .int32 age, .float weight, .string address,
      .string name] =>
    some { id := pet_id, owner_id := owner_id, chip_id := chip_id, species := species,
           breed := breed, color := color, gender := gender, age := age, weight := weight,
           address := address, name := name }
  | _ => none

/-- The structured binding of a row of the sensors query into a `Sensor`. -/
def Sensor.of_tuple {F D : Type} : List (Decoded F D) → Option Sensor
  | [.uuid sensor_id, .uuid pet_id, .string type] =>
    some { id := sensor_id, pet_id := pet_id, type := type }
  | _ => none

/-- The structured binding of a row of the measurements query into a `Measure`. -/
def Measure.of_tuple {F D : Type} (sensor_id : CassUuid) : List (Decoded F D) → Option (Measure F)
  | [.int64 ts, .float value] => some { sensor_id := sensor_id, ts := ts, value := value }
  | _ => none

/-- The loop `for (auto row = rows.next_row(); row; row = rows.next_row())`:
the tuples read until the empty optional, or the exception of `next_row`.  The
first argument bounds the number of calls; one more than the number of rows
left is enough. -/
def Rows.read_all {F D : Type} :
    Nat → Rows F D → List (List (Decoded F D)) → Except Thrown (List (List (Decoded F D)))
  | 0, _, acc => .ok acc
  | fuel + 1, rows, acc =>
    match rows.next_row with
    | (.error e, _) => .error e
    | (.ok none, _) => .ok acc
    | (.ok (some row), rows1) => Rows.read_all fuel rows1 (acc ++ [row])

/-- The part of a `std::istringstream` that `parse_iso_datetime` depends on. -/
structure IStream where
  str : String
  failbit : Bool
  exceptions_failbit : Bool
deriving DecidableEq, Repr

/-- The extraction `in >> std::chrono::parse(fmt, tp)`, with the library parser
as a parameter: on success the parsed time point; on failure
`setstate(failbit)`, which throws `std::ios_base::failure` when `failbit` is in
the exception mask of the stream. -/
def IStream.extract (chrono_parse : String → String → Option Int) (fmt : String)
    (stream : IStream) : Except Thrown (IStream × Option Int) :=
  match (if stream.failbit then none else chrono_parse fmt stream.str) with
  | some tp => .ok (stream, some tp)
  | none =>
    if stream.exceptions_failbit then .error .ios_failure
    else .ok ({ stream with failbit := true }, none)

/-- The function `parse_iso_datetime`. -/
def parse_iso_datetime (chrono_parse : String → String → Option Int) (iso_date : String) :
    Except Thrown (Option Int) :=
  let in0 : IStream := { str := iso_date, failbit := false, exceptions_failbit := false }
  match in0.extract chrono_parse "%FT%TZ" with
  | .error e => .error e
  | .ok (in1, tp1) =>
    let second :=
      if in1.failbit then
        ({ in1 with failbit := false, exceptions_failbit := true, str := iso_date } :
          IStream).extract chrono_parse "%FT%T%Ez"
      else .ok (in1, tp1)
    match second with
    | .error e => .error e
    | .ok (in2, tp2) => if in2.failbit then .ok none else .ok tp2

/-- The function `RequestHandler::Impl::handle_get_owner`. -/
def handle_get_owner {F D : Type} (parse_uuid : String → Option CassUuid)
    (session : CassSession F D) (fetch_owner : CassPrepared F D) (owner_id_str : String) :
    Except Thrown (Response Owner) × CassSession F D :=
  match parse_uuid owner_id_str with
  | none => (.ok (.badRequest "Invalid owner id"), session)
  | some owner_id =>
    match session.execute_prepared fetch_owner [.uuid owner_id] with
    | (.error e, session1, _) => (.error e, session1)
    | (.ok result, session1, _) =>
      match Rows.construct result [.uuid, .string, .string] with
      | .error e => (.error e, session1)
      | .ok rows =>
        match rows.next_row.1 with
        | .error e => (.error e, session1)
        | .ok none => (.ok (.badRequest "No owner with this id found"), session1)
        | .ok (some row) =>
          match Owner.of_tuple row with
          | some owner => (.ok (.apiResponse owner), session1)
          | none => (.error .column_out_of_bounds, session1)

/-- The function `RequestHandler::Impl::handle_get_pets`. -/
def handle_get_pets {F D : Type} (parse_uuid : String → Option CassUuid)
    (session : CassSession F D) (fetch_pets : CassPrepared F D) (owner_id_str : String) :
    Except Thrown (Response (List (Pet F))) × CassSession F D :=
  match parse_uuid owner_id_str with
  | none => (.ok (.badRequest "Invalid owner id"), session)
  | some owner_id =>
    match session.execute_prepared fetch_pets [.uuid owner_id] with
    | (.error e, session1, _) => (.error e, session1)
    | (.ok query_result, session1, _) =>
      match Rows.construct query_result
          [.uuid, .uuid, .string, .string, .string, .string, .string, .int32, .float, .string,
            .string] with
      | .error e => (.error e, session1)
      | .ok rows =>
        match Rows.read_all (rows.iterator.length + 1) rows [] with
        | .error e => (.error e, session1)
        | .ok tuples => (.ok (.apiResponse (tuples.filterMap Pet.of_tuple)), session1)

/-- The function `RequestHandler::Impl::handle_get_sensors`. -/
def handle_get_sensors {F D : Type} (parse_uuid : String → Option CassUuid)
    (session : CassSession F D) (fetch_sensors : CassPrepared F D) (pet_id_str : String) :
    Except Thrown (Response (List Sensor)) × CassSession F D :=
  match parse_uuid pet_id_str with
  | none => (.ok (.badRequest "Invalid pet id"), session)
  | some pet_id =>
    match session.execute_prepared fetch_sensors [.uuid pet_id] with
    | (.error e, session1, _) => (.error e, session1)
    | (.ok result, session1, _) =>
      match Rows.construct result [.uuid, .uuid, .string] with
      | .error e => (.error e, session1)
      | .ok rows =>
        match Rows.read_all (rows.iterator.length + 1) rows [] with
        | .error e => (.error e, session1)
        | .ok tuples => (.ok (.apiResponse (tuples.filterMap Sensor.of_tuple)), session1)

/-- The function `RequestHandler::Impl::handle_get_measurements`. -/
def handle_get_measurements {F D : Type} (parse_uuid : String → Option CassUuid)
    (chrono_parse : String → String → Option Int) (session : CassSession F D)
    (fetch_measurements : CassPrepared F D) (sensor_id_str from_str to_str : String) :
    Except Thrown (Response (List (Measure F))) × CassSession F D :=
  match parse_uuid sensor_id_str with
  | none => (.ok (.badRequest "Invalid sensor id"), session)
  | some sensor_id =>
    match parse_iso_datetime chrono_parse from_str with
    | .error e => (.error e, session)
    | .ok none => (.ok (.badRequest "Invalid `from` date"), session)
    | .ok (some from_ts) =>
      match parse_iso_datetime chrono_parse to_str with
      | .error e => (.error e, session)
      | .ok none => (.ok (.badRequest "Invalid `to` date"), session)
      | .ok (some to_ts) =>
        match session.execute_prepared fetch_measurements
            [.uuid sensor_id, .int64 from_ts, .int64 to_ts] with
        | (.error e, session1, _) => (.error e, session1)
        | (.ok query_result, session1, _) =>
          match Rows.construct query_result [.int64, .float] with
          | .error e => (.error e, session1)
          | .ok rows =>
            match Rows.read_all (rows.iterator.length + 1) rows [] with
            | .error e => (.error e, session1)
            | .ok tuples =>
              (.ok (.apiResponse (tuples.filterMap (Measure.of_tuple sensor_id))), session1)

/-- Example parser for ids that rejects the string `not-a-uuid`. -/
def example_strict_parse_uuid : String → Option CassUuid := fun s =>
  if s = "not-a-uuid" then none else some example_sensor

/-- Example library parser: only `2024-01-01T00:00:00Z` parses, at the first format. -/
def example_chrono_parse : String → String → Option Int := fun fmt s =>
  if fmt = "%FT%TZ" ∧ s = "2024-01-01T00:00:00Z" then some 1704067200000 else none

/-- Reduction of an integer to `int64_t` (two's complement). -/
def wrap_int64 (x : Int) : Int :=
  if x % 18446744073709551616 < 9223372036854775808 then x % 18446744073709551616
  else x % 18446744073709551616 - 18446744073709551616

/-- The function `get_hour_from_timestamp` with the conversion of `dp` to
milliseconds and the difference `tp - dp` reduced to 64 bits: for a timestamp
within a day of the least `int64_t` the product `dp * 86400000` leaves the
range of `int64_t`. -/
def get_hour_from_timestamp_int64 (timestamp_ms : Int) : Int :=
  let dp := timestamp_ms / ms_per_day
  let dp_ms := wrap_int64 (dp * ms_per_day)
  let time_of_day := wrap_int64 (timestamp_ms - dp_ms)
  time_of_day / ms_per_hour

/-! ## Request routing (`RequestHandler::handle_request`) and the session loop (`server.cpp`) -/

/-- The request methods (`http::verb`); the routing only tells `get` from the rest. -/
inductive Verb where
  | get
  | head
  | post
  | put
  | other
deriving DecidableEq, Repr

/-- The parts of an `http::request<http::string_body>` the server reads. -/
structure Request where
  method : Verb
  target : String
  version : Nat
  keep_alive : Bool
deriving DecidableEq, Repr

/-- The parts of a `boost::url_view` the routing reads: the decoded path
segments and the query parameters, in order. -/
structure Url where
  segments : List String
  params : List (String × String)
deriving DecidableEq, Repr

/-- The call `params.find(key)`: the first parameter with this key, `none` for `params.end()`. -/
def Url.find (url : Url) (key : String) : Option (String × String) :=
  url.params.find? (fun p => p.1 == key)

/-- The fields of an `http::response<http::string_body>` the server sets, apart
from the `Server` header (a constant of the library). -/
structure HttpResponse where
  status : Nat
  version : Nat
  content_type : String
  keep_alive : Bool
  body : String
deriving DecidableEq, Repr

/-- The method `need_eof` of a response whose payload was prepared: the
connection is closed after it exactly when it is not kept alive. -/
def HttpResponse.need_eof (response : HttpResponse) : Bool := !response.keep_alive

/-- The method `ResponseFactory::serverError`. -/
def ResponseFactory.serverError (req : Request) (why : String) : HttpResponse :=
  { status := 500, version := req.version, content_type := "text/html",
    keep_alive := req.keep_alive, body := why }

/-- The method `ResponseFactory::badRequest`. -/
def ResponseFactory.badRequest (req : Request) (why : String) : HttpResponse :=
  { status := 400, version := req.version, content_type := "text/html",
    keep_alive := req.keep_alive, body := why }

/-- The method `ResponseFactory::notFound`. -/
def ResponseFactory.notFound (req : Request) (target : String) : HttpResponse :=
  { status := 404, version := req.version, content_type := "text/html",
    keep_alive := req.keep_alive, body := "The resource '" ++ target ++ "' was not found." }

/-- The method `ResponseFactory::apiResponse`, on the serialised value. -/
def ResponseFactory.apiResponse (req : Request) (body : String) : HttpResponse :=
  { status := 200, version := req.version, content_type := "application/json",
    keep_alive := req.keep_alive, body := body }

/-- The values the handlers pass to `boost::json::value_from`. -/
inductive ApiBody (F : Type) where
  | owner (value : Owner)
  | pets (value : List (Pet F))
  | sensors (value : List Sensor)
  | measurements (value : List (Measure F))
  | sensor_avgs (value : List (SensorAvg F))

/-- The message a handler builds through the `ResponseFactory` of the request. -/
def Response.to_http {β : Type} (req : Request) (to_json : β → String) :
    Response β → HttpResponse
  | .serverError why => ResponseFactory.serverError req why
  | .badRequest why => ResponseFactory.badRequest req why
  | .notFound target => ResponseFactory.notFound req target
  | .apiResponse body => ResponseFactory.apiResponse req (to_json body)

/-- What the `try` block of `do_session` can catch: an exception derived from
`std::exception`, with its `what()`, or any other object. -/
inductive Raised where
  | std_exception (what : String)
  | other
deriving DecidableEq, Repr

/-- The way out of a handler: the message it returns, or the exception that
leaves it (every exception of the query layer derives from `std::exception`). -/
def leave_handler {β : Type} (req : Request) (to_json : β → String) :
    Except Thrown (Response β) → Except Raised HttpResponse
  | .error e => .error (.std_exception e.what)
  | .ok response => .ok (response.to_http req to_json)

/-- The library functions the request handler calls. -/
structure Library (F : Type) where
  /-- The driver function `cass_uuid_from_string`. -/
  parse_uuid : String → Option CassUuid
  /-- The extraction of a `year_month_day` at the format `%F`, as a day number. -/
  parse_date : String → Option Int
  /-- The extraction `std::chrono::parse(fmt, tp)`. -/
  chrono_parse : String → String → Option Int
  /-- The constructor `boost::url_view(target)`: the view, or the message of
  the `boost::system::system_error` it throws on a malformed target. -/
  url_view : String → Except String Url
  /-- The composition `boost::json::serialize(boost::json::value_from(body))`. -/
  serialize : ApiBody F → String

/-- The members of `RequestHandler::Impl`: the connection, as the driver session
the four lookups run on and as the store `handle_get_sensor_avg` runs on, and
the prepared statements of the lookups. -/
structure Impl (F D : Type) where
  session : CassSession F D
  db : Database F
  fetch_owner : CassPrepared F D
  fetch_pets : CassPrepared F D
  fetch_sensors : CassPrepared F D
  fetch_measurements : CassPrepared F D

/-- The method `RequestHandler::handle_request`; `now` is the value
`handle_get_sensor_avg` reads from the clock.  The result is the response, or
the exception that leaves the call, with the handler state afterwards. -/
def handle_request {F D : Type} [FloatArith F D] (lib : Library F) (now : Int)
    (rh : Impl F D) (req : Request) : Except Raised HttpResponse × Impl F D :=
  if req.method ≠ Verb.get then
    (.ok (ResponseFactory.badRequest req "Unknown HTTP-method"), rh)
  else
    match lib.url_view req.target with
    | .error what => (.error (.std_exception what), rh)
    | .ok url =>
      if url.segments.length = 2 ∧ url.segments[0]? = some "owner" then
        match handle_get_owner lib.parse_uuid rh.session rh.fetch_owner
            (url.segments.getD 1 "") with
        | (result, session1) =>
          (leave_handler req (fun v => lib.serialize (.owner v)) result,
            { rh with session := session1 })
      else if url.segments.length = 3 ∧ url.segments[0]? = some "owner" ∧
          url.segments[2]? = some "pets" then
        match handle_get_pets lib.parse_uuid rh.session rh.fetch_pets
            (url.segments.getD 1 "") with
        | (result, session1) =>
          (leave_handler req (fun v => lib.serialize (.pets v)) result,
            { rh with session := session1 })
      else if url.segments.length = 3 ∧ url.segments[0]? = some "pet" ∧
          url.segments[2]? = some "sensors" then
        match handle_get_sensors lib.parse_uuid rh.session rh.fetch_sensors
            (url.segments.getD 1 "") with
        | (result, session1) =>
          (leave_handler req (fun v => lib.serialize (.sensors v)) result,
            { rh with session := session1 })
      else if url.segments.length = 3 ∧ url.segments[0]? = some "sensors" ∧
          url.segments[2]? = some "values" then
        match url.find "from" with
        | none => (.ok (ResponseFactory.badRequest req "No value for \"to\" parameter"), rh)
        | some from_param =>
          match url.find "to" with
          | none =>
            (.ok (ResponseFactory.badRequest req "No value for \"from\" parameter"), rh)
          | some to_param =>
            match handle_get_measurements lib.parse_uuid lib.chrono_parse rh.session
                rh.fetch_measurements (url.segments.getD 1 "") from_param.2 to_param.2 with
            | (result, session1) =>
              (leave_handler req (fun v => lib.serialize (.measurements v)) result,
                { rh with session := session1 })
      else if url.segments.length = 5 ∧ url.segments[0]? = some "sensors" ∧
          url.segments[2]? = some "values" ∧ url.segments[3]? = some "day" then
        match handle_get_sensor_avg lib.parse_uuid lib.parse_date rh.db now
            (url.segments.getD 1 "") (url.segments.getD 4 "") with
        | (.error message, db1) => (.error (.std_exception message), { rh with db := db1 })
        | (.ok response, db1) =>
          (.ok (response.to_http req (fun v => lib.serialize (.sensor_avgs v))),
            { rh with db := db1 })
      else (.ok (ResponseFactory.notFound req req.target), rh)

/-- The `try` block of `do_session` with its two `catch` clauses: the message
sent for a request, given how `handle_request` ended. -/
def do_session_response (req : Request) : Except Raised HttpResponse → HttpResponse
  | .ok response => response
  | .error (.std_exception what) =>
    { status := 500, version := req.version, content_type := "text/html",
      keep_alive := req.keep_alive,
      body := "Internal error (unhandled exception thrown): " ++ what }
  | .error .other =>
    { status := 500, version := req.version, content_type := "text/html",
      keep_alive := req.keep_alive,
      body := "Internal server error - unknown unhandled exception " }

/-- The function `do_session` on a stream without transport errors: the
requests read until the end of the stream, each with the value of the clock
while it is handled.  The result is the sequence of messages written and the
handler state afterwards; the loop ends after a message that needs the
connection closed. -/
def do_session {F D : Type} [FloatArith F D] (lib : Library F) :
    Impl F D → List (Request × Int) → List HttpResponse × Impl F D
  | rh, [] => ([], rh)
  | rh, (req, now) :: rest =>
    if (do_session_response req (handle_request lib now rh req).1).need_eof then
      ([do_session_response req (handle_request lib now rh req).1],
        (handle_request lib now rh req).2)
    else
      (do_session_response req (handle_request lib now rh req).1 ::
          (do_session lib (handle_request lib now rh req).2 rest).1,
        (do_session lib (handle_request lib now rh req).2 rest).2)

/-- Example parser of request targets: it knows three targets and reports any
other as malformed. -/
def example_url_view : String → Except String Url := fun target =>
  if target = "/sensors/S/values?to=2024-01-01T00:00:00Z" then
    .ok { segments := ["sensors", "S", "values"], params := [("to", "2024-01-01T00:00:00Z")] }
  else if target = "/sensors/S/values?from=2024-01-01T00:00:00Z" then
    .ok { segments := ["sensors", "S", "values"], params := [("from", "2024-01-01T00:00:00Z")] }
  else if target = "/owner/S" then .ok { segments := ["owner", "S"], params := [] }
  else .error "leftover"

/-- Example library over exact arithmetic. -/
def example_library : Library ℚ :=
  { parse_uuid := example_strict_parse_uuid,
    parse_date := example_parse_date,
    chrono_parse := example_chrono_parse,
    url_view := example_url_view,
    serialize := fun _ => "json" }

/-- A prepared statement on which the driver accepts every bind call. -/
def example_lookup (query : String) (parameter_count : Nat) : CassPrepared ℚ ℚ :=
  { query := query, parameter_count := parameter_count, verdict := fun _ _ _ => .CASS_OK }

/-- A handler whose store answers every statement of the lookups as `respond` says. -/
def example_impl (respond : Except String (CassResult ℚ ℚ)) : Impl ℚ ℚ :=
  { session := { respond := fun _ _ => respond, executed := [] },
    db := example_db [] 19723 [],
    fetch_owner :=
      example_lookup "SELECT owner_id, name, address FROM carepet.owner WHERE owner_id = ?" 1,
    fetch_pets := example_lookup "SELECT ... FROM carepet.pet WHERE owner_id = ?" 1,
    fetch_sensors :=
      example_lookup "SELECT sensor_id, pet_id, type FROM carepet.sensor WHERE pet_id = ?" 1,
    fetch_measurements :=
      example_lookup
        "SELECT ts, value FROM carepet.measurement WHERE sensor_id = ? AND ts >= ? AND ts <= ?" 3 }

/-- A `GET` request for a target, HTTP/1.1 with keep-alive. -/
def example_request (target : String) : Request :=
  { method := .get, target := target, version := 11, keep_alive := true }

/-! ## Lemmas and theorems -/

/-- The key a statement on `carepet.sensor_avg` addresses is the value
`bind_to_statement` binds for its date. -/
theorem bind_to_statement_year_month_day {F D : Type} (statement : CassStatement F D)
    (index : Nat) (date : Int) :
    bind_to_statement statement index (BindArg.year_month_day date : BindArg F) =
      cass_statement_bind statement index (.uint32 (bound_date date)) := rfl

/-- The dates 1969-12-31 and 1970-01-01 are bound to the same key, and from
1970-01-01 on the key is the day number plus `2^31`. -/
theorem bound_date_examples :
    bound_date (-1) = 2147483648 ∧ bound_date 0 = 2147483648 ∧ bound_date 1 = 2147483649 ∧
      bound_date 19723 = 2147503371 := by
  decide



theorem int_of_size_t_of_lt (n : Nat) (h : n < 2147483648) : int_of_size_t n = (n : Int) := by
  unfold int_of_size_t
  split <;> omega

theorem get_hour_from_timestamp_range (ts : Int) :
    0 ≤ get_hour_from_timestamp ts ∧ get_hour_from_timestamp ts < 24 := by
  simp only [get_hour_from_timestamp, ms_per_day, ms_per_hour]; omega

theorem get_hour_from_time_point_range (now : Int) :
    0 ≤ get_hour_from_time_point now ∧ get_hour_from_time_point now < 24 := by
  simp only [get_hour_from_time_point, ns_per_day, ns_per_hour]; omega

theorem fill_averages_eq {F D : Type} [FloatArith F D] (hourly_agg : List (HourlyAvg D))
    (current_hour : Int) (same_date : Bool) (fuel : Nat) :
    ∀ (k : Nat) (data : List F), 24 - k ≤ fuel →
      fill_averages hourly_agg current_hour same_date fuel (k : Int) data =
        data ++ (List.range' k (fill_end current_hour same_date - k)).map
          (fun h => bucket_average (hourly_agg.getD h { value := FloatArith.zero F, total := 0 })) := by
  induction fuel with
  | zero =>
    intro k data hk
    have : fill_end current_hour same_date - k = 0 := by
      unfold fill_end; split <;> omega
    simp [fill_averages, this]
  | succ fuel ih =>
    intro k data hk
    unfold fill_averages
    split
    · rename_i hc
      have hlt : k < fill_end current_hour same_date := by
        unfold fill_end
        rcases hc with ⟨h24, h | h⟩
        · simp [h]; omega
        · split <;> omega
      have hcast : ((k : Int) + 1) = ((k + 1 : Nat) : Int) := by push_cast; rfl
      rw [hcast, ih (k + 1) _ (by omega)]
      have hsplit : fill_end current_hour same_date - k =
          (fill_end current_hour same_date - (k + 1)) + 1 := by omega
      rw [hsplit, List.range'_succ]
      simp
    · rename_i hc
      have : fill_end current_hour same_date - k = 0 := by
        unfold fill_end
        cases same_date with
        | false => simp at hc; simp; omega
        | true => simp at hc; simp; omega
      simp [this]

theorem get_hour_from_timestamp_eq (ts : Int) :
    get_hour_from_timestamp ts = utc_hour_of_day ts := by
  simp only [get_hour_from_timestamp, utc_hour_of_day, ms_per_day, ms_per_hour]; omega

theorem aggregate_measure_length {F D : Type} [FloatArith F D]
    (agg : List (HourlyAvg D)) (m : Measure F) :
    (aggregate_measure agg m).length = agg.length := by
  simp only [aggregate_measure]
  split <;> simp

theorem aggregate_measure_getD {F D : Type} [FloatArith F D]
    (agg : List (HourlyAvg D)) (m : Measure F) (hlen : agg.length = 24) (h : Nat)
    (d : HourlyAvg D) :
    (aggregate_measure agg m).getD h d =
      if get_hour_from_timestamp m.ts = (h : Int) then
        { total := (agg.getD h d).total + 1,
          value := FloatArith.add F (agg.getD h d).value (FloatArith.widen m.value) }
      else agg.getD h d := by
  have hr := get_hour_from_timestamp_range m.ts
  have hlt : (get_hour_from_timestamp m.ts).toNat < agg.length := by omega
  simp only [aggregate_measure, List.getElem?_eq_getElem hlt]
  by_cases hh : get_hour_from_timestamp m.ts = (h : Int)
  · have hn : (get_hour_from_timestamp m.ts).toNat = h := by omega
    subst hn
    rw [if_pos hh]
    simp only [List.getD_eq_getElem?_getD, List.getElem?_set_self hlt,
      List.getElem?_eq_getElem hlt, Option.getD_some]
  · have hn : (get_hour_from_timestamp m.ts).toNat ≠ h := by omega
    rw [if_neg hh]
    simp only [List.getD_eq_getElem?_getD, List.getElem?_set_ne hn]

theorem foldl_aggregate_measure_length {F D : Type} [FloatArith F D] (ms : List (Measure F)) :
    ∀ agg : List (HourlyAvg D), (ms.foldl aggregate_measure agg).length = agg.length := by
  induction ms with
  | nil => intro agg; rfl
  | cons m ms ih => intro agg; rw [List.foldl_cons, ih, aggregate_measure_length]

theorem foldl_aggregate_measure_getD {F D : Type} [FloatArith F D] (ms : List (Measure F))
    (h : Nat) (d : HourlyAvg D) :
    ∀ agg : List (HourlyAvg D), agg.length = 24 →
      (ms.foldl aggregate_measure agg).getD h d =
        (ms.filter (fun m => decide (utc_hour_of_day m.ts = (h : Int)))).foldl
          (fun (a : HourlyAvg D) (m : Measure F) =>
            { total := a.total + 1, value := FloatArith.add F a.value (FloatArith.widen m.value) })
          (agg.getD h d) := by
  induction ms with
  | nil => intro agg _; rfl
  | cons m ms ih =>
    intro agg hlen
    rw [List.foldl_cons, ih _ (by rw [aggregate_measure_length, hlen]),
      aggregate_measure_getD agg m hlen, get_hour_from_timestamp_eq]
    by_cases hh : utc_hour_of_day m.ts = (h : Int)
    · simp [List.filter_cons, hh]
    · simp [List.filter_cons, hh]

theorem foldl_add_measure_eq {F D : Type} [FloatArith F D] (l : List (Measure F)) :
    ∀ a : HourlyAvg D,
      l.foldl (fun (a : HourlyAvg D) (m : Measure F) =>
          { total := a.total + 1, value := FloatArith.add F a.value (FloatArith.widen m.value) }) a =
        { total := a.total + (l.length : Int),
          value := (l.map (fun m => m.value)).foldl
            (fun acc v => FloatArith.add F acc (FloatArith.widen v)) a.value } := by
  induction l with
  | nil => intro a; simp
  | cons m l ih =>
    intro a
    rw [List.foldl_cons, ih]
    simp only [List.length_cons, List.map_cons, List.foldl_cons, Nat.cast_add, Nat.cast_one]
    congr 1
    omega

theorem bucket_average_foldl {F D : Type} [FloatArith F D] (ms : List (Measure F)) (h : Nat) :
    bucket_average ((ms.foldl aggregate_measure (hourly_agg_init F)).getD h
      { value := FloatArith.zero F, total := 0 }) = spec_hour_mean ms h := by
  rw [foldl_aggregate_measure_getD ms h _ _ (by simp [hourly_agg_init]), foldl_add_measure_eq]
  have hinit : (hourly_agg_init F).getD h { value := FloatArith.zero F, total := 0 } =
      ({ value := FloatArith.zero F, total := 0 } : HourlyAvg D) := by
    simp only [hourly_agg_init, List.getD_eq_getElem?_getD, List.getElem?_replicate]
    split <;> rfl
  rw [hinit]
  simp only [bucket_average, spec_hour_mean, List.length_map, zero_add]
  by_cases hz : (ms.filter (fun m => decide (utc_hour_of_day m.ts = (h : Int)))).length = 0
  · simp [hz]
  · have hpos : ((ms.filter (fun m => decide (utc_hour_of_day m.ts = (h : Int)))).length : Int) > 0 := by
      omega
    simp only [hpos, hz, if_true, if_false]

theorem group_by_hour_eq {F D : Type} [FloatArith F D] (data : List F) (measures : List (Measure F))
    (current_hour : Int) (same_date : Bool) (hk : data.length < 2147483648) :
    group_by_hour data measures current_hour same_date =
      data ++ (List.range' data.length (fill_end current_hour same_date - data.length)).map
        (spec_hour_mean measures) := by
  simp only [group_by_hour, int_of_size_t_of_lt _ hk]
  rw [fill_averages_eq _ _ _ _ _ _ (by omega)]
  congr 1
  apply List.map_congr_left
  intro h _
  exact bucket_average_foldl measures h

theorem hours_upto_eq (k : Nat) : hours_upto k = hours_from 0 k := by
  simp [hours_upto, hours_from, List.range_eq_range']

theorem size_t_of_int_natCast (n : Nat) (h : n < 18446744073709551616) :
    size_t_of_int (n : Int) = n := by
  unfold size_t_of_int; omega

theorem read_cached_hours_from {F : Type} (rows : List (Int × F)) :
    ∀ acc : List F, rows.map Prod.fst = hours_from acc.length rows.length →
      acc.length + rows.length < 18446744073709551616 →
      read_cached rows acc = some (acc ++ rows.map Prod.snd) := by
  induction rows with
  | nil => intro acc _ _; simp [read_cached]
  | cons r rows ih =>
    intro acc hh hb
    obtain ⟨hour, avg⟩ := r
    simp only [hours_from, List.length_cons, List.range'_succ, List.map_cons, List.cons.injEq] at hh
    obtain ⟨h1, h2⟩ := hh
    subst h1
    have hb2 : acc.length < 18446744073709551616 := by simp at hb; omega
    simp only [read_cached, size_t_of_int_natCast _ hb2, ne_eq, not_true_eq_false, if_false]
    rw [ih (acc ++ [avg]) (by simpa [hours_from] using h2) (by simp at hb ⊢; omega)]
    simp

theorem read_cached_contiguous {F : Type} (rows : List (Int × F)) (k : Nat)
    (hh : rows.map Prod.fst = hours_upto k) (hk : k < 2147483648) :
    read_cached rows [] = some (rows.map Prod.snd) := by
  have hlen : rows.length = k := by
    have := congrArg List.length hh
    simpa [hours_upto] using this
  have := read_cached_hours_from rows [] (by simpa [hours_upto_eq, hlen] using hh)
    (by simp; omega)
  simpa using this

theorem upsert_row_append {F : Type} (hour : Int) (value : F) (rows : List (Int × F))
    (h : ∀ r ∈ rows, r.1 < hour) : upsert_row hour value rows = rows ++ [(hour, value)] := by
  induction rows with
  | nil => rfl
  | cons r rows ih =>
    obtain ⟨h0, v0⟩ := r
    have h1 : h0 < hour := h (h0, v0) (by simp)
    have h2 : ¬ hour < h0 := by omega
    have h3 : ¬ hour = h0 := by omega
    simp only [upsert_row, h2, h3, if_false, List.cons_append]
    rw [ih (fun r hr => h r (by simp [hr]))]

theorem execute_ok {F : Type} (db : Database F) (stmt : Statement F)
    (h : db.fault db.sent.length = none) :
    db.execute stmt =
      (.ok (({ db with sent := db.sent ++ [stmt] } : Database F).apply stmt).1,
        (({ db with sent := db.sent ++ [stmt] } : Database F).apply stmt).2) := by
  simp [Database.execute, h]

theorem execute_error {F : Type} (db : Database F) (stmt : Statement F) (message : String)
    (h : db.fault db.sent.length = some message) :
    db.execute stmt = (.error message, { db with sent := db.sent ++ [stmt] }) := by
  simp [Database.execute, h]

theorem save_loop_spec {F D : Type} [FloatArith F D] (sensor_id : CassUuid) (date : Int)
    (data : List F) (same_date : Bool) (current_hour : Int) (hlen : data.length < 2147483648)
    (fuel : Nat) :
    ∀ (k : Nat) (db : Database F), data.length - k ≤ fuel →
      (∀ r ∈ db.sensor_avg sensor_id (bound_date date), r.1 < (k : Int)) →
      ∃ n : Nat, k + n ≤ max k (save_end data.length current_hour same_date) ∧
        (save_loop sensor_id date data same_date current_hour fuel (k : Int) db).2.sensor_avg
            sensor_id (bound_date date) = db.sensor_avg sensor_id (bound_date date) ++ inserted_rows data k n ∧
        (∀ s d, ¬ (s = sensor_id ∧ d = bound_date date) →
          (save_loop sensor_id date data same_date current_hour fuel (k : Int) db).2.sensor_avg s d =
            db.sensor_avg s d) ∧
        (save_loop sensor_id date data same_date current_hour fuel (k : Int) db).2.measurement =
          db.measurement ∧
        (save_loop sensor_id date data same_date current_hour fuel (k : Int) db).2.fault = db.fault ∧
        (((save_loop sensor_id date data same_date current_hour fuel (k : Int) db).1 = .ok () ∧
            k + n = max k (save_end data.length current_hour same_date) ∧
            (save_loop sensor_id date data same_date current_hour fuel (k : Int) db).2.sent =
              db.sent ++ insert_statements sensor_id date data k n) ∨
          (∃ message,
            (save_loop sensor_id date data same_date current_hour fuel (k : Int) db).1 =
              .error message ∧
            (save_loop sensor_id date data same_date current_hour fuel (k : Int) db).2.sent =
              db.sent ++ insert_statements sensor_id date data k (n + 1) ∧
            db.fault (db.sent.length + n) = some message)) := by
  induction fuel with
  | zero =>
    intro k db hk _
    refine ⟨0, ?_, ?_, ?_, ?_, ?_, Or.inl ⟨?_, ?_, ?_⟩⟩ <;>
      simp [save_loop, inserted_rows, insert_statements]
    unfold save_end; split <;> omega
  | succ fuel ih =>
    intro k db hk hrows
    have hse : save_end data.length current_hour same_date ≤ data.length := by
      unfold save_end; split <;> omega
    by_cases hlt : (k : Int) < int_of_size_t data.length
    case neg =>
      rw [int_of_size_t_of_lt _ hlen] at hlt
      have hstop : save_loop sensor_id date data same_date current_hour (fuel + 1) (k : Int) db =
          (.ok (), db) := by
        simp [save_loop, int_of_size_t_of_lt _ hlen, hlt]
      rw [hstop]
      refine ⟨0, ?_, ?_, ?_, ?_, ?_, Or.inl ⟨?_, ?_, ?_⟩⟩ <;>
        simp [inserted_rows, insert_statements]
      omega
    case pos =>
      by_cases hbrk : same_date = true ∧ (k : Int) ≥ current_hour
      case pos =>
        have hstop : save_loop sensor_id date data same_date current_hour (fuel + 1) (k : Int) db =
            (.ok (), db) := by
          simp [save_loop, hlt, hbrk]
        rw [hstop]
        refine ⟨0, ?_, ?_, ?_, ?_, ?_, Or.inl ⟨?_, ?_, ?_⟩⟩ <;>
          simp [inserted_rows, insert_statements]
        unfold save_end; simp [hbrk.1]; omega
      case neg =>
        rw [int_of_size_t_of_lt _ hlen] at hlt
        have hklt : k < save_end data.length current_hour same_date := by
          unfold save_end
          cases same_date with
          | false => simp; omega
          | true => simp at hbrk ⊢; omega
        cases hf : db.fault db.sent.length with
        | some message =>
          have hstop : save_loop sensor_id date data same_date current_hour (fuel + 1) (k : Int) db =
              (.error message,
                { db with sent := db.sent ++ [Statement.insert_sensor_avg sensor_id date (k : Int)
                    (data.getD k (FloatArith.narrow (FloatArith.zero F)))] }) := by
            simp only [save_loop, int_of_size_t_of_lt _ hlen, hlt, hbrk, if_true, if_false,
              Int.toNat_ofNat]
            rw [execute_error _ _ message hf]
          rw [hstop]
          refine ⟨0, ?_, ?_, ?_, ?_, ?_, Or.inr ⟨message, ?_, ?_, ?_⟩⟩ <;>
            simp [inserted_rows, insert_statements, hf]
        | none =>
          have hstep : save_loop sensor_id date data same_date current_hour (fuel + 1) (k : Int) db =
              save_loop sensor_id date data same_date current_hour fuel ((k + 1 : Nat) : Int)
                (({ db with sent := db.sent ++ [Statement.insert_sensor_avg sensor_id date (k : Int)
                    (data.getD k (FloatArith.narrow (FloatArith.zero F)))] } : Database F).apply
                  (Statement.insert_sensor_avg sensor_id date (k : Int)
                    (data.getD k (FloatArith.narrow (FloatArith.zero F))))).2 := by
            simp only [save_loop, int_of_size_t_of_lt _ hlen, hlt, hbrk, if_true, if_false,
              Int.toNat_ofNat]
            rw [execute_ok _ _ hf]
            simp only [Nat.cast_add, Nat.cast_one]
          rw [hstep]
          have hpart : ((({ db with sent := db.sent ++ [Statement.insert_sensor_avg sensor_id date
              (k : Int) (data.getD k (FloatArith.narrow (FloatArith.zero F)))] } : Database F).apply
                  (Statement.insert_sensor_avg sensor_id date (k : Int)
                    (data.getD k (FloatArith.narrow (FloatArith.zero F))))).2).sensor_avg
                sensor_id (bound_date date) =
              db.sensor_avg sensor_id (bound_date date) ++
                [((k : Int), data.getD k (FloatArith.narrow (FloatArith.zero F)))] := by
            simp only [Database.apply, and_self, if_true]
            exact upsert_row_append _ _ _ hrows
          obtain ⟨n, hn, h1, h2, h3, h4, h5⟩ := ih (k + 1) _ (by omega) (by
            rw [hpart]
            intro r hr
            rcases List.mem_append.1 hr with hr | hr
            · have := hrows r hr; push_cast; omega
            · simp at hr; subst hr; push_cast; simp)
          refine ⟨n + 1, by omega, ?_, ?_, ?_, ?_, ?_⟩
          · rw [h1, hpart]
            simp [inserted_rows, List.range'_succ]
          · intro s d hsd
            rw [h2 s d hsd]
            simp [Database.apply, hsd]
          · rw [h3]; simp [Database.apply]
          · rw [h4]; simp [Database.apply]
          · rcases h5 with ⟨ha, hb, hc⟩ | ⟨message, ha, hb, hc⟩
            · refine Or.inl ⟨ha, by omega, ?_⟩
              rw [hc]
              simp [Database.apply, insert_statements, List.range'_succ]
            · refine Or.inr ⟨message, ha, ?_, ?_⟩
              · rw [hb]
                simp [Database.apply, insert_statements, List.range'_succ]
              · simp only [Database.apply, List.length_append, List.length_singleton] at hc
                have hidx : db.sent.length + (n + 1) = db.sent.length + 1 + n := by omega
                rw [hidx]; exact hc

theorem fill_end_eq_response_end (now date : Int) :
    fill_end (get_hour_from_time_point now) (decide (floor_days now = date)) =
      response_end now date := by
  have hr := get_hour_from_time_point_range now
  unfold fill_end response_end
  by_cases h : floor_days now = date
  · simp [h]; omega
  · simp [h]

theorem backfilled_eq {F D : Type} [FloatArith F D] (db : Database F) (sensor_id : CassUuid)
    (now : Int) (date : Int) (data : List F) (hk : data.length < 2147483648) :
    backfilled db sensor_id now date data =
      data ++ (List.range' data.length (response_end now date - data.length)).map
        (spec_hour_mean (scan_measures db sensor_id date)) := by
  unfold backfilled
  rw [group_by_hour_eq _ _ _ _ hk, fill_end_eq_response_end]

theorem backfilled_length {F D : Type} [FloatArith F D] (db : Database F) (sensor_id : CassUuid)
    (now : Int) (date : Int) (data : List F) (hk : data.length < 2147483648) :
    (backfilled db sensor_id now date data).length = max data.length (response_end now date) := by
  rw [backfilled_eq _ _ _ _ _ hk]
  simp
  omega

theorem response_end_le (now date : Int) : response_end now date ≤ 24 := by
  have hr := get_hour_from_time_point_range now
  unfold response_end; split <;> omega

theorem save_end_backfilled {F D : Type} [FloatArith F D] (db : Database F) (sensor_id : CassUuid)
    (now : Int) (date : Int) (data : List F) (hk : data.length < 2147483648) :
    max data.length (save_end (backfilled db sensor_id now date data).length
      (get_hour_from_time_point now) (decide (floor_days now = date))) =
      max data.length (closeable_end now date) := by
  have hr := get_hour_from_time_point_range now
  rw [backfilled_length _ _ _ _ _ hk]
  unfold save_end response_end closeable_end
  by_cases h : floor_days now = date
  · simp [h]
  · simp [h]

theorem aggregate_missing_hours_spec {F D : Type} [FloatArith F D] (db : Database F)
    (sensor_id : CassUuid) (now : Int) (date : Int) (data : List F)
    (hlen : data.length < 2147483648)
    (hrows : ∀ r ∈ db.sensor_avg sensor_id (bound_date date), r.1 < (data.length : Int)) :
    ∃ n : Nat, data.length + n ≤ max data.length (closeable_end now date) ∧
      (aggregate_missing_hours db sensor_id now date data).2.sensor_avg sensor_id (bound_date date) =
        db.sensor_avg sensor_id (bound_date date) ++
          inserted_rows (backfilled db sensor_id now date data) data.length n ∧
      (∀ s d, ¬ (s = sensor_id ∧ d = bound_date date) →
        (aggregate_missing_hours db sensor_id now date data).2.sensor_avg s d = db.sensor_avg s d) ∧
      (aggregate_missing_hours db sensor_id now date data).2.measurement = db.measurement ∧
      (aggregate_missing_hours db sensor_id now date data).2.fault = db.fault ∧
      (((aggregate_missing_hours db sensor_id now date data).1 =
            .ok (backfilled db sensor_id now date data) ∧
          data.length + n = max data.length (closeable_end now date) ∧
          (aggregate_missing_hours db sensor_id now date data).2.sent =
            db.sent ++ scan_statement sensor_id date ::
              insert_statements sensor_id date (backfilled db sensor_id now date data)
                data.length n) ∨
        (∃ message, (aggregate_missing_hours db sensor_id now date data).1 = .error message ∧
          n = 0 ∧
          (aggregate_missing_hours db sensor_id now date data).2.sent =
            db.sent ++ [scan_statement sensor_id date] ∧
          db.fault db.sent.length = some message) ∨
        (∃ message, (aggregate_missing_hours db sensor_id now date data).1 = .error message ∧
          (aggregate_missing_hours db sensor_id now date data).2.sent =
            db.sent ++ scan_statement sensor_id date ::
              insert_statements sensor_id date (backfilled db sensor_id now date data)
                data.length (n + 1) ∧
          db.fault (db.sent.length + 1 + n) = some message)) := by
  cases hf : db.fault db.sent.length with
  | some message =>
    have hres : aggregate_missing_hours db sensor_id now date data =
        (.error message, { db with sent := db.sent ++ [scan_statement sensor_id date] }) := by
      simp only [aggregate_missing_hours]
      rw [execute_error _ _ message hf]
      rfl
    rw [hres]
    refine ⟨0, by omega, ?_, ?_, ?_, ?_, Or.inr (Or.inl ⟨message, ?_, ?_, ?_, ?_⟩)⟩ <;>
      simp [inserted_rows]
  | none =>
    have hb := backfilled_length db sensor_id now date data hlen
    have hre := response_end_le now date
    have hlen1 : (backfilled db sensor_id now date data).length < 2147483648 := by omega
    obtain ⟨n, hn, h1, h2, h3, h4, h5⟩ :=
      save_loop_spec sensor_id date (backfilled db sensor_id now date data)
        (decide (floor_days now = date)) (get_hour_from_time_point now) hlen1
        ((backfilled db sensor_id now date data).length - data.length) data.length
        ({ db with sent := db.sent ++ [scan_statement sensor_id date] } : Database F)
        (le_refl _) hrows
    have hres : aggregate_missing_hours db sensor_id now date data =
        (match (save_loop sensor_id date (backfilled db sensor_id now date data)
            (decide (floor_days now = date)) (get_hour_from_time_point now)
            ((backfilled db sensor_id now date data).length - data.length) (data.length : Int)
            ({ db with sent := db.sent ++ [scan_statement sensor_id date] } : Database F)) with
          | (.error message, db2) => (.error message, db2)
          | (.ok _, db2) => (.ok (backfilled db sensor_id now date data), db2)) := by
      simp only [aggregate_missing_hours]
      rw [execute_ok _ _ hf]
      simp only [save_aggregated_data, int_of_size_t_of_lt _ hlen]
      have hfuel : (int_of_size_t (group_by_hour data
          (List.map (fun row => ({ sensor_id := sensor_id, ts := row.1, value := row.2 } : Measure F))
            (({ db with sent := db.sent ++
              [Statement.fetch_measurements sensor_id (get_day_time_range date).1
                (get_day_time_range date).2] } : Database F).apply
              (Statement.fetch_measurements sensor_id (get_day_time_range date).1
                (get_day_time_range date).2)).1)
          (get_hour_from_time_point now) (decide (floor_days now = date))).length -
            (data.length : Int)).toNat =
          (backfilled db sensor_id now date data).length - data.length := by
        have : group_by_hour data
          (List.map (fun row => ({ sensor_id := sensor_id, ts := row.1, value := row.2 } : Measure F))
            (({ db with sent := db.sent ++
              [Statement.fetch_measurements sensor_id (get_day_time_range date).1
                (get_day_time_range date).2] } : Database F).apply
              (Statement.fetch_measurements sensor_id (get_day_time_range date).1
                (get_day_time_range date).2)).1)
          (get_hour_from_time_point now) (decide (floor_days now = date)) =
            backfilled db sensor_id now date data := rfl
        rw [this, int_of_size_t_of_lt _ hlen1]
        omega
      rw [hfuel]
      rfl
    rw [save_end_backfilled _ _ _ _ _ hlen] at hn h5
    rw [hres]
    rcases h5 with ⟨ha, hb5, hc⟩ | ⟨message, ha, hb5, hc⟩
    · refine ⟨n, hn, ?_, ?_, ?_, ?_, Or.inl ⟨?_, hb5, ?_⟩⟩
      all_goals
        generalize save_loop sensor_id date (backfilled db sensor_id now date data)
          (decide (floor_days now = date)) (get_hour_from_time_point now)
          ((backfilled db sensor_id now date data).length - data.length) (data.length : Int)
          ({ db with sent := db.sent ++ [scan_statement sensor_id date] } : Database F) = r
          at h1 h2 h3 h4 ha hc ⊢
        obtain ⟨r1, r2⟩ := r
        simp only at ha
        subst ha
        simp_all
    · refine ⟨n, hn, ?_, ?_, ?_, ?_, Or.inr (Or.inr ⟨message, ?_, ?_, ?_⟩)⟩
      all_goals
        generalize save_loop sensor_id date (backfilled db sensor_id now date data)
          (decide (floor_days now = date)) (get_hour_from_time_point now)
          ((backfilled db sensor_id now date data).length - data.length) (data.length : Int)
          ({ db with sent := db.sent ++ [scan_statement sensor_id date] } : Database F) = r
          at h1 h2 h3 h4 ha hb5 ⊢
        obtain ⟨r1, r2⟩ := r
        simp only at ha
        subst ha
        simp_all

theorem cached_length {F : Type} (db : Database F) (sensor_id : CassUuid) (date : Int) (k : Nat)
    (hc : cached_hours db sensor_id date = hours_upto k) :
    (db.sensor_avg sensor_id (bound_date date)).length = k ∧ (cached_values db sensor_id date).length = k := by
  have := congrArg List.length hc
  simp [cached_hours, hours_upto] at this
  simp [cached_values, this]

theorem cached_rows_lt {F : Type} (db : Database F) (sensor_id : CassUuid) (date : Int) (k : Nat)
    (hc : cached_hours db sensor_id date = hours_upto k) :
    ∀ r ∈ db.sensor_avg sensor_id (bound_date date), r.1 < (k : Int) := by
  intro r hr
  have hm : r.1 ∈ cached_hours db sensor_id date := List.mem_map_of_mem Prod.fst hr
  rw [hc] at hm
  simp only [hours_upto, List.mem_map, List.mem_range] at hm
  obtain ⟨i, hi, hir⟩ := hm
  rw [← hir]
  exact_mod_cast hi

theorem handle_get_sensor_avg_reduce {F D : Type} [FloatArith F D]
    (parse_uuid : String → Option CassUuid) (parse_date : String → Option Int)
    (db : Database F) (now : Int) (sensor_id_str date_str : String)
    (sensor_id : CassUuid) (date : Int) (k : Nat)
    (hu : parse_uuid sensor_id_str = some sensor_id) (hd : parse_date date_str = some date)
    (hnf : date ≤ floor_days now)
    (hc : cached_hours db sensor_id date = hours_upto k) (hk : k < 2147483648)
    (hf : db.fault db.sent.length = none) :
    handle_get_sensor_avg parse_uuid parse_date db now sensor_id_str date_str =
      if k = 24 then
        (.ok (.apiResponse (sensor_avgs sensor_id date_str (cached_values db sensor_id date))),
          { db with sent := db.sent ++ [.fetch_avg sensor_id date] })
      else
        match aggregate_missing_hours
          ({ db with sent := db.sent ++ [.fetch_avg sensor_id date] } : Database F)
          sensor_id now date (cached_values db sensor_id date) with
        | (.error message, db2) => (.error message, db2)
        | (.ok data1, db2) => (.ok (.apiResponse (sensor_avgs sensor_id date_str data1)), db2) := by
  have hlen := cached_length db sensor_id date k hc
  have hread := read_cached_contiguous (db.sensor_avg sensor_id (bound_date date)) k hc hk
  have hgt : ¬ date > floor_days now := by omega
  simp only [handle_get_sensor_avg, hu, hd, hgt, if_false]
  rw [execute_ok _ _ hf]
  simp only [Database.apply, hread]
  have hl : (List.map Prod.snd (db.sensor_avg sensor_id (bound_date date))).length = k := by
    simpa [cached_values] using hlen.2
  by_cases h24 : k = 24
  · simp [hl, h24, sensor_avgs, cached_values]
  · simp only [hl, h24, ne_eq, not_false_eq_true, if_true, if_false]
    rfl

theorem backfilled_eq_served {F D : Type} [FloatArith F D] (db : Database F) (sensor_id : CassUuid)
    (now : Int) (date : Int) (stmts : List (Statement F))
    (hk : (cached_values db sensor_id date).length < 2147483648) :
    backfilled ({ db with sent := stmts } : Database F) sensor_id now date
      (cached_values db sensor_id date) = served_averages db sensor_id now date := by
  rw [backfilled_eq _ _ _ _ _ hk]
  rfl

theorem served_averages_of_full {F D : Type} [FloatArith F D] (db : Database F)
    (sensor_id : CassUuid) (now : Int) (date : Int)
    (h : (cached_values db sensor_id date).length = 24) :
    served_averages db sensor_id now date = cached_values db sensor_id date := by
  have hre := response_end_le now date
  have : response_end now date - 24 = 0 := by omega
  simp [served_averages, h, this]

theorem handle_get_sensor_avg_spec {F D : Type} [FloatArith F D]
    (parse_uuid : String → Option CassUuid) (parse_date : String → Option Int)
    (db : Database F) (now : Int) (sensor_id_str date_str : String)
    (sensor_id : CassUuid) (date : Int) (k : Nat)
    (hu : parse_uuid sensor_id_str = some sensor_id) (hd : parse_date date_str = some date)
    (hnf : date ≤ floor_days now)
    (hc : cached_hours db sensor_id date = hours_upto k) (hk : k < 2147483648) :
    ∃ n : Nat, k + n ≤ max k (closeable_end now date) ∧
      (handle_get_sensor_avg parse_uuid parse_date db now sensor_id_str date_str).2.sensor_avg
          sensor_id (bound_date date) =
        db.sensor_avg sensor_id (bound_date date) ++ inserted_rows (served_averages db sensor_id now date) k n ∧
      (∀ s d, ¬ (s = sensor_id ∧ d = bound_date date) →
        (handle_get_sensor_avg parse_uuid parse_date db now sensor_id_str date_str).2.sensor_avg s d =
          db.sensor_avg s d) ∧
      (handle_get_sensor_avg parse_uuid parse_date db now sensor_id_str date_str).2.measurement =
        db.measurement ∧
      (handle_get_sensor_avg parse_uuid parse_date db now sensor_id_str date_str).2.fault =
        db.fault ∧
      (((handle_get_sensor_avg parse_uuid parse_date db now sensor_id_str date_str).1 =
            .ok (.apiResponse (sensor_avgs sensor_id date_str
              (served_averages db sensor_id now date))) ∧
          k + n = max k (closeable_end now date) ∧
          (handle_get_sensor_avg parse_uuid parse_date db now sensor_id_str date_str).2.sent =
            db.sent ++ Statement.fetch_avg sensor_id date ::
              (if k = 24 then []
               else scan_statement sensor_id date ::
                insert_statements sensor_id date (served_averages db sensor_id now date) k n)) ∨
        (∃ message,
          (handle_get_sensor_avg parse_uuid parse_date db now sensor_id_str date_str).1 =
            .error message ∧ n = 0 ∧
          ((handle_get_sensor_avg parse_uuid parse_date db now sensor_id_str date_str).2.sent =
              db.sent ++ [Statement.fetch_avg sensor_id date] ∨
            (handle_get_sensor_avg parse_uuid parse_date db now sensor_id_str date_str).2.sent =
              db.sent ++ [Statement.fetch_avg sensor_id date, scan_statement sensor_id date]) ∧
          ∃ i, db.fault i = some message) ∨
        (∃ message,
          (handle_get_sensor_avg parse_uuid parse_date db now sensor_id_str date_str).1 =
            .error message ∧
          (handle_get_sensor_avg parse_uuid parse_date db now sensor_id_str date_str).2.sent =
            db.sent ++ Statement.fetch_avg sensor_id date :: scan_statement sensor_id date ::
              insert_statements sensor_id date (served_averages db sensor_id now date) k (n + 1) ∧
          ∃ i, db.fault i = some message)) := by
  have hlen := (cached_length db sensor_id date k hc).2
  have hgt : ¬ date > floor_days now := by omega
  cases hf : db.fault db.sent.length with
  | some message =>
    have hres : handle_get_sensor_avg parse_uuid parse_date db now sensor_id_str date_str =
        (.error message, { db with sent := db.sent ++ [.fetch_avg sensor_id date] }) := by
      simp only [handle_get_sensor_avg, hu, hd, hgt, if_false]
      rw [execute_error _ _ message hf]
    rw [hres]
    refine ⟨0, by omega, ?_, ?_, ?_, ?_, Or.inr (Or.inl ⟨message, rfl, rfl, Or.inl rfl, _, hf⟩)⟩ <;>
      simp [inserted_rows]
  | none =>
    rw [handle_get_sensor_avg_reduce parse_uuid parse_date db now sensor_id_str date_str
      sensor_id date k hu hd hnf hc hk hf]
    by_cases h24 : k = 24
    · have hce : closeable_end now date ≤ 24 := by
        have hr := get_hour_from_time_point_range now
        unfold closeable_end; split <;> omega
      rw [if_pos h24, served_averages_of_full db sensor_id now date (by omega)]
      refine ⟨0, by omega,  ?_, ?_, ?_, ?_, Or.inl ⟨rfl, by omega, ?_⟩⟩ <;>
        simp [inserted_rows, h24]
    · rw [if_neg h24]
      obtain ⟨n, hn, h1, h2, h3, h4, h5⟩ := aggregate_missing_hours_spec
        ({ db with sent := db.sent ++ [.fetch_avg sensor_id date] } : Database F)
        sensor_id now date (cached_values db sensor_id date) (by omega)
        (by rw [hlen]; exact cached_rows_lt db sensor_id date k hc)
      rw [backfilled_eq_served db sensor_id now date _ (by omega), hlen] at h1 h5
      rw [hlen] at hn
      generalize aggregate_missing_hours
        ({ db with sent := db.sent ++ [.fetch_avg sensor_id date] } : Database F)
        sensor_id now date (cached_values db sensor_id date) = r at h1 h2 h3 h4 h5 ⊢
      obtain ⟨r1, r2⟩ := r
      rcases h5 with ⟨ha, hb, hs⟩ | ⟨message, ha, hb, hs, hfm⟩ | ⟨message, ha, hs, hfm⟩
      · simp only at ha hs
        subst ha
        refine ⟨n, hn, h1, h2, h3, h4, Or.inl ⟨rfl, hb, ?_⟩⟩
        simp [hs, h24]
      · simp only at ha hs
        subst ha
        refine ⟨n, hn, h1, h2, h3, h4, Or.inr (Or.inl ⟨message, rfl, hb, Or.inr ?_, _, hfm⟩)⟩
        simp [hs]
      · simp only at ha hs
        subst ha
        refine ⟨n, hn, h1, h2, h3, h4, Or.inr (Or.inr ⟨message, rfl, ?_, _, hfm⟩)⟩
        simp [hs]

theorem handle_get_sensor_avg_healthy {F D : Type} [FloatArith F D]
    (parse_uuid : String → Option CassUuid) (parse_date : String → Option Int)
    (db : Database F) (now : Int) (sensor_id_str date_str : String)
    (sensor_id : CassUuid) (date : Int) (k : Nat)
    (hu : parse_uuid sensor_id_str = some sensor_id) (hd : parse_date date_str = some date)
    (hnf : date ≤ floor_days now)
    (hc : cached_hours db sensor_id date = hours_upto k) (hk : k < 2147483648)
    (hno : ∀ i, db.fault i = none) :
    (handle_get_sensor_avg parse_uuid parse_date db now sensor_id_str date_str).1 =
        .ok (.apiResponse (sensor_avgs sensor_id date_str
          (served_averages db sensor_id now date))) ∧
      (handle_get_sensor_avg parse_uuid parse_date db now sensor_id_str date_str).2.sent =
        db.sent ++ Statement.fetch_avg sensor_id date ::
          (if k = 24 then []
           else scan_statement sensor_id date ::
            insert_statements sensor_id date (served_averages db sensor_id now date) k
              (closeable_end now date - k)) ∧
      (handle_get_sensor_avg parse_uuid parse_date db now sensor_id_str date_str).2.sensor_avg
          sensor_id (bound_date date) =
        db.sensor_avg sensor_id (bound_date date) ++
          inserted_rows (served_averages db sensor_id now date) k (closeable_end now date - k) ∧
      (handle_get_sensor_avg parse_uuid parse_date db now sensor_id_str date_str).2.measurement =
        db.measurement ∧
      (handle_get_sensor_avg parse_uuid parse_date db now sensor_id_str date_str).2.fault =
        db.fault := by
  obtain ⟨n, _, h1, _, h3, h4, h5⟩ := handle_get_sensor_avg_spec parse_uuid parse_date db now
    sensor_id_str date_str sensor_id date k hu hd hnf hc hk
  rcases h5 with ⟨ha, hb, hs⟩ | ⟨message, _, _, _, i, hi⟩ | ⟨message, _, _, i, hi⟩
  · have hn : n = closeable_end now date - k := by omega
    subst hn
    exact ⟨ha, hs, h1, h3, h4⟩
  · rw [hno i] at hi; cases hi
  · rw [hno i] at hi; cases hi

theorem sensor_avgs_averages {F : Type} (sensor_id : CassUuid) (date_str : String)
    (data : List F) :
    Response.averages (Response.apiResponse (sensor_avgs sensor_id date_str data)) = data := by
  induction data with
  | nil => rfl
  | cons v data ih =>
    simp only [Response.averages, sensor_avgs, List.map_cons, List.cons.injEq, true_and] at ih ⊢
    exact ih

theorem served_averages_length {F D : Type} [FloatArith F D] (db : Database F)
    (sensor_id : CassUuid) (now : Int) (date : Int) :
    (served_averages db sensor_id now date : List F).length =
      max (cached_values db sensor_id date).length (response_end now date) := by
  simp only [served_averages, List.length_append, List.length_map, List.length_range']
  omega

/-- C1 (amended): for a request for today's date with `k` contiguous cached
rows and a healthy store, the handler answers with an API response whose
sequence of averages has `max k (current_hour_of(now) + 1)` entries: the hours
up to and including the in-progress hour. -/
theorem today_response_length {F D : Type} [FloatArith F D]
    (parse_uuid : String → Option CassUuid) (parse_date : String → Option Int)
    (db : Database F) (now : Int) (sensor_id_str date_str : String)
    (sensor_id : CassUuid) (k : Nat)
    (hu : parse_uuid sensor_id_str = some sensor_id)
    (hd : parse_date date_str = some (floor_days now))
    (hc : cached_hours db sensor_id (floor_days now) = hours_upto k) (hk : k < 2147483648)
    (hno : ∀ i, db.fault i = none) :
    ∃ r : Response (List (SensorAvg F)),
      (handle_get_sensor_avg parse_uuid parse_date db now sensor_id_str date_str).1 = .ok r ∧
      ((Response.averages r).length : Int) = max (k : Int) (get_hour_from_time_point now + 1) := by
  obtain ⟨h1, -⟩ := handle_get_sensor_avg_healthy parse_uuid parse_date db now sensor_id_str
    date_str sensor_id (floor_days now) k hu hd (le_refl _) hc hk hno
  refine ⟨_, h1, ?_⟩
  have hr := get_hour_from_time_point_range now
  rw [sensor_avgs_averages, served_averages_length,
    (cached_length db sensor_id (floor_days now) k hc).2]
  simp only [response_end, if_true]
  omega

/-- Witness for `today_response_length`: 05:30Z, empty cache, no measurements. -/
theorem today_response_length_witness :
    ∃ r : Response (List (SensorAvg ℚ)),
      (handle_get_sensor_avg example_parse_uuid example_parse_date (example_db [] 19724 [])
        example_now "S" "2024-01-02").1 = .ok r ∧
      ((Response.averages r).length : Int) =
        max ((0 : Nat) : Int) (get_hour_from_time_point example_now + 1) :=
  today_response_length example_parse_uuid example_parse_date (example_db [] 19724 [])
    example_now "S" "2024-01-02" example_sensor 0 rfl (by decide) (by decide) (by decide)
    (fun _ => rfl)

/-- C1 (counterexample): at 2024-01-02T05:30Z, for today's date, with no cached
rows and no measurements, the handler returns 6 averages (hours 0..5), which is
more than `current_hour_of(now) = 5`. -/
theorem today_bound_counterexample :
    floor_days example_now = 19724 ∧ get_hour_from_time_point example_now = 5 ∧
    (handle_get_sensor_avg example_parse_uuid example_parse_date (example_db [] 19724 [])
        example_now "S" "2024-01-02").1 =
      .ok (.apiResponse (sensor_avgs example_sensor "2024-01-02" [0, 0, 0, 0, 0, 0])) ∧
    ¬ ((Response.averages (Response.apiResponse
        (sensor_avgs example_sensor "2024-01-02" [(0 : ℚ), 0, 0, 0, 0, 0]))).length : Int) ≤
      get_hour_from_time_point example_now := by
  decide

theorem foldl_add_eq_sum (l : List ℚ) (a : ℚ) :
    l.foldl (fun acc v => FloatArith.add ℚ acc (FloatArith.widen v)) a = a + l.sum := by
  induction l generalizing a with
  | nil => simp
  | cons v l ih =>
    simp only [List.foldl_cons, List.sum_cons]
    rw [ih]
    show a + v + l.sum = a + (v + l.sum)
    ring

theorem spec_hour_mean_rat (measures : List (Measure ℚ)) (h : Nat) :
    spec_hour_mean measures h =
      ((measures.filter (fun m => decide (utc_hour_of_day m.ts = (h : Int)))).map
          (fun m => m.value)).sum /
        (((measures.filter (fun m => decide (utc_hour_of_day m.ts = (h : Int)))).length : Nat) : ℚ) := by
  simp only [spec_hour_mean, List.length_map]
  split
  · rename_i hz
    rw [hz]
    show (0 : ℚ) = _
    simp
  · rw [foldl_add_eq_sum]
    show (0 + _) / ((_ : Int) : ℚ) = _
    simp

/-- C2 (code as written): `get_day_time_range d` is the pair
`(d, d * 86400000 + 86399999)`: the end is in milliseconds, the start is the
day number `d` itself, not `d * 86400000`; for 1970-01-02 the start is `1`. -/
theorem get_day_time_range_start_counts_days :
    (∀ d : Int, get_day_time_range d = (d, d * 86400000 + 86399999)) ∧
      (get_day_time_range 1).1 = 1 ∧ (get_day_time_range 1).1 ≠ 1 * 86400000 ∧
      (get_day_time_range 1).2 = 1 * 86400000 + 86399999 := by
  refine ⟨fun d => ?_, by decide, by decide, by decide⟩
  simp only [get_day_time_range, ms_per_day, ms_per_hour, Prod.mk.injEq, true_and]
  omega

/-- C3: for a past date (`same_date = false`) and `k <= 24` cached values,
`group_by_hour` appends exactly one entry for each hour `h` from `k` to 23 in
ascending order, the entry for `h` being the mean (sum divided by count) of
the values of the measurements whose UTC hour of day is `h`, and `0.0` when
there is none; over exact arithmetic that mean is `sum / count`, and for the
values 10, 20 in hour 0 and 5 in hour 2 with `k = 0` the result is
`[15, 0, 5, 0, ..., 0]` with 24 entries. -/
theorem group_by_hour_past_date {F D : Type} [FloatArith F D] (data : List F)
    (measures : List (Measure F)) (current_hour : Int) (hk : data.length ≤ 24) :
    group_by_hour data measures current_hour false =
        data ++ (List.range' data.length (24 - data.length)).map (spec_hour_mean measures) ∧
      (∀ (ms : List (Measure ℚ)) (h : Nat),
        spec_hour_mean ms h =
          ((ms.filter (fun m => decide (utc_hour_of_day m.ts = (h : Int)))).map
              (fun m => m.value)).sum /
            (((ms.filter (fun m => decide (utc_hour_of_day m.ts = (h : Int)))).length : Nat) : ℚ)) ∧
      group_by_hour ([] : List ℚ) example_measures current_hour false =
        [15, 0, 5, 0, 0, 0, 0, 0, 0, 0, 0, 0, 0, 0, 0, 0, 0, 0, 0, 0, 0, 0, 0, 0] := by
  refine ⟨?_, spec_hour_mean_rat, ?_⟩
  · rw [group_by_hour_eq data measures current_hour false (by omega)]
    rfl
  · have h : ([] : List ℚ) ++ (List.range' 0 24).map (spec_hour_mean example_measures) =
        [15, 0, 5, 0, 0, 0, 0, 0, 0, 0, 0, 0, 0, 0, 0, 0, 0, 0, 0, 0, 0, 0, 0, 0] := by
      decide!
    exact (group_by_hour_eq _ _ _ _ (by decide)).trans h

/-- Witness for `group_by_hour_past_date`: two cached values and the example
measurements. -/
theorem group_by_hour_past_date_witness :
    ([7, 8] : List ℚ).length ≤ 24 ∧
      group_by_hour ([7, 8] : List ℚ) example_measures 3 false =
        [7, 8, 5, 0, 0, 0, 0, 0, 0, 0, 0, 0, 0, 0, 0, 0, 0, 0, 0, 0, 0, 0, 0, 0] :=
  ⟨by decide,
    (group_by_hour_past_date ([7, 8] : List ℚ) example_measures 3 (by decide)).1.trans
      (by decide!)⟩

theorem size_t_of_int_eq_iff (hour : Int) (n : Nat)
    (hint : -2147483648 ≤ hour ∧ hour < 2147483648) (hn : n ≤ 2147483648) :
    size_t_of_int hour = n ↔ hour = (n : Int) := by
  unfold size_t_of_int
  constructor
  · intro h; omega
  · intro h; omega

theorem read_cached_eq_none_iff {F : Type} (rows : List (Int × F)) :
    ∀ acc : List F, acc.length ≤ 2147483648 →
      (∀ r ∈ rows, -2147483648 ≤ r.1 ∧ r.1 < 2147483648) →
      (read_cached rows acc = none ↔
        ∃ (i : Nat) (r : Int × F), rows[i]? = some r ∧ r.1 ≠ ((acc.length + i : Nat) : Int)) := by
  induction rows with
  | nil => intro acc _ _; simp [read_cached]
  | cons row rows ih =>
    intro acc hacc hint
    obtain ⟨hour, avg⟩ := row
    have hrange := hint (hour, avg) (by simp)
    have hiff := size_t_of_int_eq_iff hour acc.length hrange hacc
    by_cases hh : size_t_of_int hour = acc.length
    · have hhour : hour = (acc.length : Int) := hiff.1 hh
      have hacc1 : (acc ++ [avg]).length ≤ 2147483648 := by
        simp only [List.length_append, List.length_singleton]; omega
      simp only [read_cached, hh, ne_eq, not_true_eq_false, if_false]
      rw [ih (acc ++ [avg]) hacc1 (fun r hr => hint r (by simp [hr]))]
      constructor
      · rintro ⟨i, r, hi, hne⟩
        refine ⟨i + 1, r, by simpa using hi, ?_⟩
        simp only [List.length_append, List.length_singleton] at hne
        intro hcontra
        apply hne
        rw [hcontra]; push_cast; omega
      · rintro ⟨i, r, hi, hne⟩
        cases i with
        | zero =>
          simp only [List.getElem?_cons_zero, Option.some.injEq] at hi
          subst hi
          exact absurd (by simpa using hhour) hne
        | succ i =>
          refine ⟨i, r, by simpa using hi, ?_⟩
          simp only [List.length_append, List.length_singleton]
          intro hcontra
          apply hne
          rw [hcontra]; push_cast; omega
    · simp only [read_cached, hh, ne_eq, not_false_eq_true, if_true, true_iff]
      refine ⟨0, (hour, avg), by simp, ?_⟩
      intro hcontra
      exact hh (hiff.2 (by simpa using hcontra))

theorem invalid_cached_message_eq :
    ("Invalid cached averages data. Please drop avg data for this " ++
      "date in order to recalculate") = invalid_cached_message := by
  decide

/-- C4 (code as written): for the past date 2024-01-01 with no cached rows, the
scan is bounded below by the day number 19723 read as a millisecond timestamp,
so a measurement of 2023-12-31 (hour 1, value 7) is scanned as well: with it
the average returned for hour 1 is 7, without it 0. -/
theorem scan_reads_earlier_dates :
    ((handle_get_sensor_avg example_parse_uuid example_parse_date
        (example_db example_measures 19723 []) example_now "S" "2024-01-01").1 =
      .ok (.apiResponse (sensor_avgs example_sensor "2024-01-01"
        [15, 0, 5, 0, 0, 0, 0, 0, 0, 0, 0, 0, 0, 0, 0, 0, 0, 0, 0, 0, 0, 0, 0, 0]))) ∧
    ((handle_get_sensor_avg example_parse_uuid example_parse_date
        (example_db (example_measures ++ [example_earlier_measure]) 19723 [])
        example_now "S" "2024-01-01").1 =
      .ok (.apiResponse (sensor_avgs example_sensor "2024-01-01"
        [15, 7, 5, 0, 0, 0, 0, 0, 0, 0, 0, 0, 0, 0, 0, 0, 0, 0, 0, 0, 0, 0, 0, 0]))) ∧
    example_earlier_measure.ts / ms_per_day = 19722 ∧
    (scan_statement example_sensor 19723 : Statement ℚ) =
      .fetch_measurements example_sensor 19723 1704153599999 := by
  decide!

/-- C5: for a valid, non-future request whose cached rows are read (the read
itself succeeds) and hold 32-bit hours, the handler answers with the server
error of the integrity check if and only if some row `i` (0-based) reports an
hour different from `i`. -/
theorem integrity_error_iff {F D : Type} [FloatArith F D]
    (parse_uuid : String → Option CassUuid) (parse_date : String → Option Int)
    (db : Database F) (now : Int) (sensor_id_str date_str : String)
    (sensor_id : CassUuid) (date : Int)
    (hu : parse_uuid sensor_id_str = some sensor_id) (hd : parse_date date_str = some date)
    (hnf : date ≤ floor_days now) (hf : db.fault db.sent.length = none)
    (hint : ∀ r ∈ db.sensor_avg sensor_id (bound_date date), -2147483648 ≤ r.1 ∧ r.1 < 2147483648) :
    (handle_get_sensor_avg parse_uuid parse_date db now sensor_id_str date_str).1 =
        .ok (.serverError invalid_cached_message) ↔
      ∃ (i : Nat) (r : Int × F), (db.sensor_avg sensor_id (bound_date date))[i]? = some r ∧ r.1 ≠ (i : Int) := by
  have hgt : ¬ date > floor_days now := by omega
  have hiff := read_cached_eq_none_iff (db.sensor_avg sensor_id (bound_date date)) ([] : List F)
    (by simp) hint
  simp only [List.length_nil, Nat.zero_add] at hiff
  rw [← hiff]
  simp only [handle_get_sensor_avg, hu, hd, hgt, if_false]
  rw [execute_ok _ _ hf]
  simp only [Database.apply, invalid_cached_message_eq]
  cases hread : read_cached (db.sensor_avg sensor_id (bound_date date)) ([] : List F) with
  | none => simp
  | some data =>
    simp only [false_iff, reduceCtorEq]
    split
    · generalize aggregate_missing_hours _ sensor_id now date data = r
      obtain ⟨r1, r2⟩ := r
      cases r1 <;> simp
    · simp

/-- Witness for `integrity_error_iff`: the cached rows report the hours 0 and 2. -/
theorem integrity_error_iff_witness :
    (handle_get_sensor_avg example_parse_uuid example_parse_date
        (example_db [] 19723 [(0, 1), (2, 1)]) example_now "S" "2024-01-01").1 =
        .ok (.serverError invalid_cached_message) ↔
      ∃ (i : Nat) (r : Int × ℚ),
        ((example_db [] 19723 [(0, 1), (2, 1)]).sensor_avg example_sensor (bound_date 19723))[i]? = some r ∧
          r.1 ≠ (i : Int) :=
  integrity_error_iff example_parse_uuid example_parse_date
    (example_db [] 19723 [(0, 1), (2, 1)]) example_now "S" "2024-01-01" example_sensor 19723
    rfl (by decide) (by decide) rfl (by decide)

theorem closeable_end_le_response_end (now date : Int) :
    closeable_end now date ≤ response_end now date := by
  unfold closeable_end response_end; split <;> omega

/-- C6: for a valid, non-future request with `k < 24` contiguous cached hours
and a healthy store, the statements sent are the read of the cache, the scan,
and then exactly one insert for each hour from `k` to `last_closeable_hour`
(`closeable_end - 1`: 23 for a past date, `current_hour_of(now) - 1` for
today) in ascending order, each with the value the response carries for that
hour. -/
theorem backfill_inserts_closeable_hours {F D : Type} [FloatArith F D]
    (parse_uuid : String → Option CassUuid) (parse_date : String → Option Int)
    (db : Database F) (now : Int) (sensor_id_str date_str : String)
    (sensor_id : CassUuid) (date : Int) (k : Nat)
    (hu : parse_uuid sensor_id_str = some sensor_id) (hd : parse_date date_str = some date)
    (hnf : date ≤ floor_days now)
    (hc : cached_hours db sensor_id date = hours_upto k) (hk : k < 24)
    (hno : ∀ i, db.fault i = none) :
    ∃ averages : List F,
      (handle_get_sensor_avg parse_uuid parse_date db now sensor_id_str date_str).1 =
        .ok (.apiResponse (sensor_avgs sensor_id date_str averages)) ∧
      closeable_end now date ≤ averages.length ∧
      (handle_get_sensor_avg parse_uuid parse_date db now sensor_id_str date_str).2.sent =
        db.sent ++
          [Statement.fetch_avg sensor_id date,
            Statement.fetch_measurements sensor_id (get_day_time_range date).1
              (get_day_time_range date).2] ++
          (List.range' k (closeable_end now date - k)).map (fun (h : Nat) =>
            Statement.insert_sensor_avg sensor_id date (h : Int)
              (averages.getD h (FloatArith.narrow (FloatArith.zero F)))) := by
  obtain ⟨h1, h2, -⟩ := handle_get_sensor_avg_healthy parse_uuid parse_date db now sensor_id_str
    date_str sensor_id date k hu hd hnf hc (by omega) hno
  refine ⟨served_averages db sensor_id now date, h1, ?_, ?_⟩
  · rw [served_averages_length]
    have := closeable_end_le_response_end now date
    omega
  · rw [h2, if_neg (by omega)]
    simp [scan_statement, insert_statements]

/-- Witness for `backfill_inserts_closeable_hours`: today at 05:30Z, empty cache. -/
theorem backfill_inserts_closeable_hours_witness :
    ∃ averages : List ℚ,
      (handle_get_sensor_avg example_parse_uuid example_parse_date (example_db [] 19724 [])
        example_now "S" "2024-01-02").1 =
        .ok (.apiResponse (sensor_avgs example_sensor "2024-01-02" averages)) ∧
      closeable_end example_now 19724 ≤ averages.length ∧
      (handle_get_sensor_avg example_parse_uuid example_parse_date (example_db [] 19724 [])
        example_now "S" "2024-01-02").2.sent =
        (example_db [] 19724 []).sent ++
          [Statement.fetch_avg example_sensor 19724,
            Statement.fetch_measurements example_sensor (get_day_time_range 19724).1
              (get_day_time_range 19724).2] ++
          (List.range' 0 (closeable_end example_now 19724 - 0)).map (fun (h : Nat) =>
            Statement.insert_sensor_avg example_sensor 19724 (h : Int)
              (averages.getD h (FloatArith.narrow (FloatArith.zero ℚ)))) :=
  backfill_inserts_closeable_hours example_parse_uuid example_parse_date (example_db [] 19724 [])
    example_now "S" "2024-01-02" example_sensor 19724 0 rfl (by decide) (by decide) (by decide)
    (by decide) (fun _ => rfl)

/-- C9: when the cache of a valid, non-future request holds exactly the hours
0..23 and the read of the cache succeeds, the handler returns exactly the 24
cached values in hour order, the only statement it sends is that read (no
scan, no insert), the tables are left as they are, and the response is the
same whatever the measurement table holds. -/
theorem full_cache_served_unchanged {F D : Type} [FloatArith F D]
    (parse_uuid : String → Option CassUuid) (parse_date : String → Option Int)
    (db : Database F) (now : Int) (sensor_id_str date_str : String)
    (sensor_id : CassUuid) (date : Int)
    (hu : parse_uuid sensor_id_str = some sensor_id) (hd : parse_date date_str = some date)
    (hnf : date ≤ floor_days now)
    (hc : cached_hours db sensor_id date = hours_upto 24)
    (hf : db.fault db.sent.length = none) :
    handle_get_sensor_avg parse_uuid parse_date db now sensor_id_str date_str =
        (.ok (.apiResponse (sensor_avgs sensor_id date_str (cached_values db sensor_id date))),
          { db with sent := db.sent ++ [.fetch_avg sensor_id date] }) ∧
      (cached_values db sensor_id date).length = 24 ∧
      ∀ measurement : List (Measure F),
        (handle_get_sensor_avg parse_uuid parse_date { db with measurement := measurement } now
          sensor_id_str date_str).1 =
        (handle_get_sensor_avg parse_uuid parse_date db now sensor_id_str date_str).1 := by
  have h := handle_get_sensor_avg_reduce parse_uuid parse_date db now sensor_id_str date_str
    sensor_id date 24 hu hd hnf hc (by omega) hf
  rw [if_pos rfl] at h
  refine ⟨h, (cached_length db sensor_id date 24 hc).2, fun measurement => ?_⟩
  have h2 := handle_get_sensor_avg_reduce parse_uuid parse_date
    ({ db with measurement := measurement } : Database F) now sensor_id_str date_str
    sensor_id date 24 hu hd hnf hc (by omega) hf
  rw [if_pos rfl] at h2
  rw [h, h2]
  rfl

/-- Witness for `full_cache_served_unchanged`: a past date with 24 cached rows. -/
theorem full_cache_served_unchanged_witness :
    (handle_get_sensor_avg example_parse_uuid example_parse_date
        (example_db example_measures 19723 example_rows_full) example_now "S" "2024-01-01").1 =
      .ok (.apiResponse (sensor_avgs example_sensor "2024-01-01"
        (cached_values (example_db example_measures 19723 example_rows_full)
          example_sensor 19723))) :=
  congrArg Prod.fst
    (full_cache_served_unchanged example_parse_uuid example_parse_date
      (example_db example_measures 19723 example_rows_full) example_now "S" "2024-01-01"
      example_sensor 19723 rfl (by decide) (by decide) (by decide) rfl).1

theorem inserted_rows_hours {F D : Type} [FloatArith F D] (data : List F) (k n : Nat) :
    (inserted_rows data k n).map Prod.fst = hours_from k n := by
  simp [inserted_rows, hours_from]

theorem hours_upto_append (k n : Nat) : hours_upto k ++ hours_from k n = hours_upto (k + n) := by
  simp only [hours_upto_eq, hours_from, ← List.map_append]
  congr 1
  have := List.range'_append 0 k n 1
  rw [Nat.add_comm k n]
  simpa using this

theorem insert_statements_getLast {F D : Type} [FloatArith F D] (sensor_id : CassUuid)
    (date : Int) (data : List F) (k n : Nat) (pre : List (Statement F)) :
    (pre ++ insert_statements sensor_id date data k (n + 1)).getLast? =
      some (Statement.insert_sensor_avg sensor_id date ((k + n : Nat) : Int)
        (data.getD (k + n) (FloatArith.narrow (FloatArith.zero F)))) := by
  simp only [insert_statements, List.range'_concat, List.map_append, List.map_cons,
    List.map_nil, ← List.append_assoc, List.getLast?_concat, Nat.one_mul]

/-- C7: contiguity is an invariant of the cache.  If the cached hours of the
partition a call of `handle_get_sensor_avg` addresses (the sensor and the date
as `bind_to_statement` binds it) are `0..k-1` before the call, they are
`0..k'-1` for some `k' >= k` after it, whatever the store answers; every
partition with another key is untouched, so every partition of the store whose
hours were `0..j-1` has the hours `0..j'-1` with `j' >= j` afterwards; and when
the call aborts on an insert for hour `h` (the last statement sent), then
`k' = h`: the hours persisted by the call are exactly `k..h-1`. -/
theorem contiguity_preserved {F D : Type} [FloatArith F D]
    (parse_uuid : String → Option CassUuid) (parse_date : String → Option Int)
    (db : Database F) (now : Int) (sensor_id_str date_str : String)
    (sensor_id : CassUuid) (date : Int) (k : Nat)
    (hu : parse_uuid sensor_id_str = some sensor_id) (hd : parse_date date_str = some date)
    (hc : cached_hours db sensor_id date = hours_upto k) (hk : k < 2147483648) :
    ∃ k2 : Nat, k ≤ k2 ∧
      cached_hours (handle_get_sensor_avg parse_uuid parse_date db now sensor_id_str date_str).2
        sensor_id date = hours_upto k2 ∧
      (∀ s d, ¬ (s = sensor_id ∧ d = bound_date date) →
        (handle_get_sensor_avg parse_uuid parse_date db now sensor_id_str date_str).2.sensor_avg s d =
          db.sensor_avg s d) ∧
      (∀ s d j, (db.sensor_avg s d).map Prod.fst = hours_upto j →
        ∃ j2 : Nat, j ≤ j2 ∧
          ((handle_get_sensor_avg parse_uuid parse_date db now sensor_id_str
            date_str).2.sensor_avg s d).map Prod.fst = hours_upto j2) ∧
      (∀ message hour value,
        (handle_get_sensor_avg parse_uuid parse_date db now sensor_id_str date_str).1 =
          .error message →
        (handle_get_sensor_avg parse_uuid parse_date db now sensor_id_str date_str).2.sent.getLast? =
          some (Statement.insert_sensor_avg sensor_id date hour value) →
        hour = (k2 : Int)) := by
  by_cases hnf : date ≤ floor_days now
  · obtain ⟨n, -, h1, h2, -, -, h5⟩ := handle_get_sensor_avg_spec parse_uuid parse_date db now
      sensor_id_str date_str sensor_id date k hu hd hnf hc hk
    have hafter : cached_hours
        (handle_get_sensor_avg parse_uuid parse_date db now sensor_id_str date_str).2
        sensor_id date = hours_upto (k + n) := by
      unfold cached_hours at hc ⊢
      rw [h1, List.map_append, inserted_rows_hours, hc, hours_upto_append]
    refine ⟨k + n, by omega, hafter, h2, ?_, ?_⟩
    · intro s d j hj
      by_cases hsd : s = sensor_id ∧ d = bound_date date
      · obtain ⟨hs, hd2⟩ := hsd
        rw [hs, hd2] at hj ⊢
        have hjk : j = k := by
          unfold cached_hours at hc
          rw [hc] at hj
          have := congrArg List.length hj
          simpa [hours_upto] using this.symm
        exact ⟨k + n, by omega, hafter⟩
      · rw [h2 s d hsd]
        exact ⟨j, le_refl j, hj⟩
    · intro message hour value herr hlast
      rcases h5 with ⟨ha, -, -⟩ | ⟨m, -, -, hs | hs, -⟩ | ⟨m, -, hs, -⟩
      · rw [ha] at herr; cases herr
      · rw [hs] at hlast; simp at hlast
      · rw [hs] at hlast
        simp [scan_statement] at hlast
      · have hlist : db.sent ++ Statement.fetch_avg sensor_id date ::
            scan_statement sensor_id date ::
              insert_statements sensor_id date (served_averages db sensor_id now date) k (n + 1) =
            (db.sent ++ [Statement.fetch_avg sensor_id date, scan_statement sensor_id date]) ++
              insert_statements sensor_id date (served_averages db sensor_id now date) k (n + 1) := by
          simp
        rw [hs, hlist, insert_statements_getLast] at hlast
        simp only [Option.some.injEq, Statement.insert_sensor_avg.injEq, true_and] at hlast
        exact hlast.1.symm
  · have hgt : date > floor_days now := by omega
    have hres : handle_get_sensor_avg parse_uuid parse_date db now sensor_id_str date_str =
        (.ok (.badRequest "Can't get avearges for date in the future"), db) := by
      simp only [handle_get_sensor_avg, hu, hd, hgt, if_true]
    rw [hres]
    refine ⟨k, le_refl k, hc, fun _ _ _ => rfl, fun _ _ j hj => ⟨j, le_refl j, hj⟩, ?_⟩
    intro message hour value herr
    cases herr

/-- Witness for `contiguity_preserved`: a past date with two cached hours on a
store whose second insert fails. -/
theorem contiguity_preserved_witness :
    cached_hours (example_faulty_db [(0, 1), (1, 1)]) example_sensor 19723 = hours_upto 2 ∧
    ∃ k2 : Nat, 2 ≤ k2 ∧
      cached_hours (handle_get_sensor_avg example_parse_uuid example_parse_date
        (example_faulty_db [(0, 1), (1, 1)]) example_now "S" "2024-01-01").2
        example_sensor 19723 = hours_upto k2 ∧
      (∀ s d, ¬ (s = example_sensor ∧ d = bound_date 19723) →
        (handle_get_sensor_avg example_parse_uuid example_parse_date
          (example_faulty_db [(0, 1), (1, 1)]) example_now "S" "2024-01-01").2.sensor_avg s d =
          (example_faulty_db [(0, 1), (1, 1)]).sensor_avg s d) ∧
      (∀ s d j, ((example_faulty_db [(0, 1), (1, 1)]).sensor_avg s d).map Prod.fst =
          hours_upto j →
        ∃ j2 : Nat, j ≤ j2 ∧
          ((handle_get_sensor_avg example_parse_uuid example_parse_date
            (example_faulty_db [(0, 1), (1, 1)]) example_now "S"
            "2024-01-01").2.sensor_avg s d).map Prod.fst = hours_upto j2) ∧
      (∀ message hour value,
        (handle_get_sensor_avg example_parse_uuid example_parse_date
          (example_faulty_db [(0, 1), (1, 1)]) example_now "S" "2024-01-01").1 =
          .error message →
        (handle_get_sensor_avg example_parse_uuid example_parse_date
          (example_faulty_db [(0, 1), (1, 1)]) example_now "S" "2024-01-01").2.sent.getLast? =
          some (Statement.insert_sensor_avg example_sensor 19723 hour value) →
        hour = (k2 : Int)) :=
  ⟨by decide,
    contiguity_preserved example_parse_uuid example_parse_date
      (example_faulty_db [(0, 1), (1, 1)]) example_now "S" "2024-01-01" example_sensor 19723 2
      rfl (by decide) (by decide) (by decide)⟩

theorem scan_measures_congr {F : Type} (db db2 : Database F) (sensor_id : CassUuid) (date : Int)
    (h : db2.measurement = db.measurement) :
    scan_measures db2 sensor_id date = scan_measures db sensor_id date := by
  simp only [scan_measures, scan_statement, Database.apply, h]

theorem getD_append_map_range' {F : Type} (cached : List F) (f : Nat → F) (k m h : Nat) (d : F)
    (hlen : cached.length = k) (h1 : k ≤ h) (h2 : h < k + m) :
    (cached ++ (List.range' k m).map f).getD h d = f h := by
  have hidx : h - k < ((List.range' k m).map f).length := by simp; omega
  rw [List.getD_eq_getElem?_getD, List.getElem?_append_right (by omega), hlen,
    List.getElem?_eq_getElem hidx]
  simp only [List.getElem_map, List.getElem_range', Nat.one_mul, Option.getD_some]
  congr 1
  omega

theorem inserted_rows_served_values {F D : Type} [FloatArith F D] (db : Database F)
    (sensor_id : CassUuid) (now : Int) (date : Int) (k n : Nat)
    (hlen : (cached_values db sensor_id date).length = k)
    (hn : n = 0 ∨ k + n ≤ response_end now date) :
    (inserted_rows (served_averages db sensor_id now date) k n).map Prod.snd =
      (List.range' k n).map (spec_hour_mean (scan_measures db sensor_id date)) := by
  simp only [inserted_rows, List.map_map]
  apply List.map_congr_left
  intro h hh
  simp only [List.mem_range', Nat.one_mul] at hh
  obtain ⟨i, hi, rfl⟩ := hh
  simp only [Function.comp_apply, served_averages, hlen]
  exact getD_append_map_range' _ _ k _ (k + i) _ hlen (by omega) (by omega)

/-- C8: idempotence.  For a valid, non-future request on a contiguous cache
and a healthy store, a second call with the same sensor, date and `now`, made
on the database the first call left behind (no measurement written in
between), returns the same API response as the first. -/
theorem second_call_returns_same {F D : Type} [FloatArith F D]
    (parse_uuid : String → Option CassUuid) (parse_date : String → Option Int)
    (db : Database F) (now : Int) (sensor_id_str date_str : String)
    (sensor_id : CassUuid) (date : Int) (k : Nat)
    (hu : parse_uuid sensor_id_str = some sensor_id) (hd : parse_date date_str = some date)
    (hnf : date ≤ floor_days now)
    (hc : cached_hours db sensor_id date = hours_upto k) (hk : k < 2147483648)
    (hno : ∀ i, db.fault i = none) :
    ∃ averages : List F,
      (handle_get_sensor_avg parse_uuid parse_date db now sensor_id_str date_str).1 =
        .ok (.apiResponse (sensor_avgs sensor_id date_str averages)) ∧
      (handle_get_sensor_avg parse_uuid parse_date
        (handle_get_sensor_avg parse_uuid parse_date db now sensor_id_str date_str).2
        now sensor_id_str date_str).1 =
        .ok (.apiResponse (sensor_avgs sensor_id date_str averages)) := by
  obtain ⟨h1, -, h3, h4, h5⟩ := handle_get_sensor_avg_healthy parse_uuid parse_date db now
    sensor_id_str date_str sensor_id date k hu hd hnf hc hk hno
  have hlen := (cached_length db sensor_id date k hc).2
  have hce := closeable_end_le_response_end now date
  have hre := response_end_le now date
  have hc2 : cached_hours (handle_get_sensor_avg parse_uuid parse_date db now sensor_id_str
      date_str).2 sensor_id date = hours_upto (k + (closeable_end now date - k)) := by
    unfold cached_hours at hc ⊢
    rw [h3, List.map_append, inserted_rows_hours, hc, hours_upto_append]
  obtain ⟨g1, -⟩ := handle_get_sensor_avg_healthy parse_uuid parse_date
    (handle_get_sensor_avg parse_uuid parse_date db now sensor_id_str date_str).2 now
    sensor_id_str date_str sensor_id date (k + (closeable_end now date - k)) hu hd hnf hc2
    (by omega) (by rw [h5]; exact hno)
  refine ⟨served_averages db sensor_id now date, h1, ?_⟩
  rw [g1]
  congr 3
  have hcv : cached_values (handle_get_sensor_avg parse_uuid parse_date db now sensor_id_str
      date_str).2 sensor_id date =
      cached_values db sensor_id date ++
        (List.range' k (closeable_end now date - k)).map
          (spec_hour_mean (scan_measures db sensor_id date)) := by
    unfold cached_values
    rw [h3, List.map_append]
    congr 1
    exact inserted_rows_served_values db sensor_id now date k _ hlen (by omega)
  have hlen2 : (cached_values (handle_get_sensor_avg parse_uuid parse_date db now sensor_id_str
      date_str).2 sensor_id date).length = k + (closeable_end now date - k) := by
    rw [hcv]; simp [hlen]
  have hrange : List.range' k (closeable_end now date - k) ++
      List.range' (k + (closeable_end now date - k))
        (response_end now date - (k + (closeable_end now date - k))) =
      List.range' k (response_end now date - k) := by
    have := List.range'_append k (closeable_end now date - k)
      (response_end now date - (k + (closeable_end now date - k))) 1
    simp only [Nat.one_mul] at this
    rw [this]
    congr 1
    omega
  conv_lhs => unfold served_averages
  rw [hlen2, scan_measures_congr db _ sensor_id date h4, hcv, List.append_assoc,
    ← List.map_append, hrange]
  simp only [served_averages, hlen]

/-- Witness for `second_call_returns_same`: today at 05:30Z with two cached hours. -/
theorem second_call_returns_same_witness :
    ∃ averages : List ℚ,
      (handle_get_sensor_avg example_parse_uuid example_parse_date
        (example_db example_measures 19724 [(0, 1), (1, 1)]) example_now "S" "2024-01-02").1 =
        .ok (.apiResponse (sensor_avgs example_sensor "2024-01-02" averages)) ∧
      (handle_get_sensor_avg example_parse_uuid example_parse_date
        (handle_get_sensor_avg example_parse_uuid example_parse_date
          (example_db example_measures 19724 [(0, 1), (1, 1)]) example_now "S" "2024-01-02").2
        example_now "S" "2024-01-02").1 =
        .ok (.apiResponse (sensor_avgs example_sensor "2024-01-02" averages)) :=
  second_call_returns_same example_parse_uuid example_parse_date
    (example_db example_measures 19724 [(0, 1), (1, 1)]) example_now "S" "2024-01-02"
    example_sensor 19724 2 rfl (by decide) (by decide) (by decide) (by decide) (fun _ => rfl)

/-- Outside the data model (a cached row with hour 24): the integrity check
compares each hour with its row index only, so for the past date 2024-01-01
with 25 cached rows that report the hours 0..24 the handler returns 25
averages. -/
theorem rows_beyond_day_are_served :
    (19723 : Int) < floor_days example_now ∧
    read_cached example_rows_twenty_five ([] : List ℚ) =
      some (example_rows_twenty_five.map Prod.snd) ∧
    ((handle_get_sensor_avg example_parse_uuid example_parse_date
        (example_db [] 19723 example_rows_twenty_five) example_now "S"
        "2024-01-01").1.toOption.map (fun r => (Response.averages r).length)) = some 25 := by
  decide!

theorem apply_sent {F : Type} (db : Database F) (stmt : Statement F) :
    (db.apply stmt).2.sent = db.sent := by
  cases stmt <;> rfl

theorem execute_sent {F : Type} (db : Database F) (stmt : Statement F) :
    (db.execute stmt).2.sent = db.sent ++ [stmt] := by
  unfold Database.execute
  cases db.fault db.sent.length with
  | none => simp only [apply_sent]
  | some message => rfl

theorem save_loop_sent {F D : Type} [FloatArith F D] (sensor_id : CassUuid) (date : Int)
    (data : List F) (same_date : Bool) (current_hour : Int) (fuel : Nat) :
    ∀ (hour : Int) (db : Database F), ∃ extra : List (Statement F),
      (save_loop sensor_id date data same_date current_hour fuel hour db).2.sent =
        db.sent ++ extra := by
  induction fuel with
  | zero => intro hour db; exact ⟨[], by simp [save_loop]⟩
  | succ fuel ih =>
    intro hour db
    unfold save_loop
    split
    · split
      · exact ⟨[], by simp⟩
      · have hs := execute_sent db (Statement.insert_sensor_avg sensor_id date hour
          (data.getD hour.toNat (FloatArith.narrow (FloatArith.zero F))))
        simp only
        generalize db.execute (Statement.insert_sensor_avg sensor_id date hour
          (data.getD hour.toNat (FloatArith.narrow (FloatArith.zero F)))) = r at hs ⊢
        obtain ⟨r1, r2⟩ := r
        cases r1 with
        | error e => exact ⟨_, hs⟩
        | ok v =>
          obtain ⟨extra, he⟩ := ih (hour + 1) r2
          refine ⟨Statement.insert_sensor_avg sensor_id date hour
            (data.getD hour.toNat (FloatArith.narrow (FloatArith.zero F))) :: extra, ?_⟩
          simp only at hs ⊢
          rw [he, hs]
          simp
    · exact ⟨[], by simp⟩

theorem aggregate_missing_hours_sent {F D : Type} [FloatArith F D] (db : Database F)
    (sensor_id : CassUuid) (now : Int) (date : Int) (data : List F) :
    ∃ extra : List (Statement F),
      (aggregate_missing_hours db sensor_id now date data).2.sent = db.sent ++ extra := by
  simp only [aggregate_missing_hours]
  have hs := execute_sent db (Statement.fetch_measurements sensor_id (get_day_time_range date).1
    (get_day_time_range date).2)
  generalize db.execute (Statement.fetch_measurements sensor_id (get_day_time_range date).1
    (get_day_time_range date).2) = r at hs ⊢
  obtain ⟨r1, r2⟩ := r
  cases r1 with
  | error e => exact ⟨_, hs⟩
  | ok rows =>
    simp only [save_aggregated_data]
    generalize hg : group_by_hour data _ (get_hour_from_time_point now)
      (decide (floor_days now = date)) = data1
    obtain ⟨extra, he⟩ := save_loop_sent sensor_id date data1 (decide (floor_days now = date))
      (get_hour_from_time_point now) (int_of_size_t data1.length - int_of_size_t data.length).toNat
      (int_of_size_t data.length) r2
    generalize save_loop sensor_id date data1 (decide (floor_days now = date))
      (get_hour_from_time_point now) (int_of_size_t data1.length - int_of_size_t data.length).toNat
      (int_of_size_t data.length) r2 = q at he ⊢
    obtain ⟨q1, q2⟩ := q
    simp only at hs he
    cases q1 with
    | error e =>
      exact ⟨Statement.fetch_measurements sensor_id (get_day_time_range date).1
        (get_day_time_range date).2 :: extra, by simp [he, hs]⟩
    | ok v =>
      exact ⟨Statement.fetch_measurements sensor_id (get_day_time_range date).1
        (get_day_time_range date).2 :: extra, by simp [he, hs]⟩

/-- C12: for a valid sensor id and a parsed date, the handler answers with a
bad request if and only if the requested date is strictly later than the UTC
date of `now`, and it sends no statement to the store if and only if that is
so; the rejected request leaves the database as it is, and a request for
today's date is not rejected. -/
theorem future_date_rejected_iff {F D : Type} [FloatArith F D]
    (parse_uuid : String → Option CassUuid) (parse_date : String → Option Int)
    (db : Database F) (now : Int) (sensor_id_str date_str : String)
    (sensor_id : CassUuid) (date : Int)
    (hu : parse_uuid sensor_id_str = some sensor_id) (hd : parse_date date_str = some date) :
    ((∃ why, (handle_get_sensor_avg parse_uuid parse_date db now sensor_id_str date_str).1 =
        .ok (.badRequest why)) ↔ date > floor_days now) ∧
      ((handle_get_sensor_avg parse_uuid parse_date db now sensor_id_str date_str).2.sent =
        db.sent ↔ date > floor_days now) ∧
      (date > floor_days now →
        handle_get_sensor_avg parse_uuid parse_date db now sensor_id_str date_str =
          (.ok (.badRequest "Can't get avearges for date in the future"), db)) ∧
      (date = floor_days now →
        ∀ why, (handle_get_sensor_avg parse_uuid parse_date db now sensor_id_str date_str).1 ≠
          .ok (.badRequest why)) := by
  have hfuture : date > floor_days now →
      handle_get_sensor_avg parse_uuid parse_date db now sensor_id_str date_str =
        (.ok (.badRequest "Can't get avearges for date in the future"), db) := by
    intro hgt
    simp only [handle_get_sensor_avg, hu, hd, hgt, if_true]
  have hpast : ¬ date > floor_days now →
      (∀ why, (handle_get_sensor_avg parse_uuid parse_date db now sensor_id_str date_str).1 ≠
        .ok (.badRequest why)) ∧
      (handle_get_sensor_avg parse_uuid parse_date db now sensor_id_str date_str).2.sent ≠
        db.sent := by
    intro hgt
    simp only [handle_get_sensor_avg, hu, hd, hgt, if_false]
    have hs := execute_sent db (Statement.fetch_avg sensor_id date)
    generalize db.execute (Statement.fetch_avg sensor_id date) = r at hs ⊢
    obtain ⟨r1, r2⟩ := r
    simp only at hs
    have hne : ∀ extra : List (Statement F), r2.sent ++ extra ≠ db.sent := by
      intro extra h
      have := congrArg List.length h
      rw [hs] at this
      simp at this
    cases r1 with
    | error e => exact ⟨(fun why h => nomatch h), by simpa using hne []⟩
    | ok rows =>
      simp only
      cases read_cached rows ([] : List F) with
      | none => exact ⟨(fun why h => nomatch h), by simpa using hne []⟩
      | some data =>
        simp only
        split
        · obtain ⟨extra, he⟩ := aggregate_missing_hours_sent r2 sensor_id now date data
          generalize aggregate_missing_hours r2 sensor_id now date data = q at he ⊢
          obtain ⟨q1, q2⟩ := q
          simp only at he
          cases q1 with
          | error e => exact ⟨(fun why h => nomatch h), by simpa [he] using hne extra⟩
          | ok v => exact ⟨(fun why h => nomatch h), by simpa [he] using hne extra⟩
        · exact ⟨(fun why h => nomatch h), by simpa using hne []⟩
  refine ⟨⟨?_, ?_⟩, ⟨?_, ?_⟩, hfuture, ?_⟩
  · rintro ⟨why, h⟩
    by_contra hgt
    exact (hpast hgt).1 why h
  · intro hgt
    exact ⟨_, by rw [hfuture hgt]⟩
  · intro h
    by_contra hgt
    exact (hpast hgt).2 h
  · intro hgt
    rw [hfuture hgt]
  · intro heq
    exact (hpast (by omega)).1

/-- Witness for `future_date_rejected_iff`: the request for 2024-01-02 made at
2024-01-02T05:30Z. -/
theorem future_date_rejected_iff_witness :
    (handle_get_sensor_avg example_parse_uuid example_parse_date (example_db [] 19724 [])
      example_now "S" "2024-01-02").1 ≠
      .ok (.badRequest "Can't get avearges for date in the future") :=
  (future_date_rejected_iff example_parse_uuid example_parse_date (example_db [] 19724 [])
    example_now "S" "2024-01-02" example_sensor 19724 rfl (by decide)).2.2.2 (by decide)
    "Can't get avearges for date in the future"

theorem bind_to_statement_eq {F D : Type} (statement : CassStatement F D) (index : Nat)
    (arg : BindArg F) :
    bind_to_statement statement index arg = cass_statement_bind statement index (arg.wire D) := by
  cases arg <;> rfl

theorem bind_args_accept {F D : Type} (args : List (BindArg F)) :
    ∀ (idx : Nat) (st : CassStatement F D),
      (∀ j b, args[j]? = some b →
        st.verdict st.parameter_count (idx + j) (b.wire D) = .CASS_OK) →
      bind_args args idx st =
        (.ok (), { st with
          bound := st.bound ++ bind_calls_of D idx args,
          bind_calls := st.bind_calls ++ bind_calls_of D idx args }) := by
  induction args with
  | nil => intro idx st _; simp [bind_args, bind_calls_of]
  | cons a args ih =>
    intro idx st hacc
    have h0 : st.verdict st.parameter_count idx (a.wire D) = .CASS_OK := by
      simpa using hacc 0 a (by simp)
    simp only [bind_args, bind_to_statement_eq, cass_statement_bind, h0, assert_ser_success]
    rw [ih (idx + 1) _ (fun j b hj => by
      have := hacc (j + 1) b (by simpa using hj)
      simpa [Nat.add_assoc, Nat.add_comm 1 j] using this)]
    simp [bind_calls_of, List.enumFrom_cons]

theorem bind_args_reject {F D : Type} (pre : List (BindArg F)) (a : BindArg F)
    (post : List (BindArg F)) (desc : String) :
    ∀ (idx : Nat) (st : CassStatement F D),
      (∀ j b, pre[j]? = some b →
        st.verdict st.parameter_count (idx + j) (b.wire D) = .CASS_OK) →
      st.verdict st.parameter_count (idx + pre.length) (a.wire D) = .failure desc →
      bind_args (pre ++ a :: post) idx st =
        (.error (.serialize a.type_name desc), { st with
          bound := st.bound ++ bind_calls_of D idx pre,
          bind_calls := st.bind_calls ++ bind_calls_of D idx (pre ++ [a]) }) := by
  induction pre with
  | nil =>
    intro idx st _ hrej
    have h0 : st.verdict st.parameter_count idx (a.wire D) = .failure desc := by
      simpa using hrej
    simp [bind_args, bind_to_statement_eq, cass_statement_bind, h0, assert_ser_success,
      bind_calls_of, List.enumFrom_cons]
  | cons p pre ih =>
    intro idx st hacc hrej
    have h0 : st.verdict st.parameter_count idx (p.wire D) = .CASS_OK := by
      simpa using hacc 0 p (by simp)
    simp only [List.cons_append, bind_args, bind_to_statement_eq, cass_statement_bind, h0,
      assert_ser_success, List.append_eq]
    rw [ih (idx + 1) _ (fun j b hj => by
      have := hacc (j + 1) b (by simpa using hj)
      simpa [Nat.add_assoc, Nat.add_comm 1 j] using this) (by
      simpa [Nat.add_assoc, Nat.add_comm 1 pre.length] using hrej)]
    simp [bind_calls_of, List.enumFrom_cons]

/-- C15: `Database::execute`, on a prepared statement and on an ad-hoc
statement, binds the arguments at the positions 0, 1, ... in that order.  When
the driver accepts the arguments `pre`, the bind calls are exactly those and
the statement is sent with them; when it then rejects the next argument `a`,
the call throws the serialisation error of `a`, no argument after `a` is bound,
and nothing is sent. -/
theorem execute_binds_left_to_right {F D : Type} (session : CassSession F D)
    (prepared : CassPrepared F D) (statement : CassStatement F D) (pre : List (BindArg F))
    (hpre : ∀ j b, pre[j]? = some b →
      prepared.verdict prepared.parameter_count j (b.wire D) = .CASS_OK)
    (hst : ∀ count j b, pre[j]? = some b → statement.verdict count j (b.wire D) = .CASS_OK) :
    ((session.execute_prepared prepared pre).2.2.bind_calls = bind_calls_of D 0 pre ∧
      (session.execute_prepared prepared pre).2.1.executed =
        session.executed ++ [(prepared.query, bind_calls_of D 0 pre)]) ∧
    (∀ (a : BindArg F) (post : List (BindArg F)) (desc : String),
      prepared.verdict prepared.parameter_count pre.length (a.wire D) = .failure desc →
      (session.execute_prepared prepared (pre ++ a :: post)).1 =
          .error (.serialize a.type_name desc) ∧
        (session.execute_prepared prepared (pre ++ a :: post)).2.1.executed = session.executed ∧
        (session.execute_prepared prepared (pre ++ a :: post)).2.2.bind_calls =
          bind_calls_of D 0 (pre ++ [a])) ∧
    ((session.execute statement pre).2.2.bind_calls =
        statement.bind_calls ++ bind_calls_of D 0 pre ∧
      (session.execute statement pre).2.1.executed =
        session.executed ++ [(statement.query, bind_calls_of D 0 pre)]) ∧
    (∀ (a : BindArg F) (post : List (BindArg F)) (desc : String),
      statement.verdict (pre ++ a :: post).length pre.length (a.wire D) = .failure desc →
      (session.execute statement (pre ++ a :: post)).1 = .error (.serialize a.type_name desc) ∧
        (session.execute statement (pre ++ a :: post)).2.1.executed = session.executed ∧
        (session.execute statement (pre ++ a :: post)).2.2.bind_calls =
          statement.bind_calls ++ bind_calls_of D 0 (pre ++ [a])) := by
  refine ⟨?_, ?_, ?_, ?_⟩
  · have h := bind_args_accept pre 0 (cass_prepared_bind prepared)
      (fun j b hj => by simpa [cass_prepared_bind] using hpre j b hj)
    simp only [CassSession.execute_prepared, h, CassSession.execute_raw]
    refine ⟨by simp [cass_prepared_bind], ?_⟩
    cases session.respond (cass_prepared_bind prepared).query
      ((cass_prepared_bind prepared).bound ++ bind_calls_of D 0 pre) <;>
      simp [cass_prepared_bind]
  · intro a post desc hrej
    have h := bind_args_reject pre a post desc 0 (cass_prepared_bind prepared)
      (fun j b hj => by simpa [cass_prepared_bind] using hpre j b hj)
      (by simpa [cass_prepared_bind] using hrej)
    simp only [CassSession.execute_prepared, h]
    simp [cass_prepared_bind]
  · have h := bind_args_accept pre 0 (cass_statement_reset_parameters statement pre.length)
      (fun j b hj => by simpa [cass_statement_reset_parameters] using hst pre.length j b hj)
    simp only [CassSession.execute, h, CassSession.execute_raw]
    refine ⟨by simp [cass_statement_reset_parameters], ?_⟩
    cases session.respond (cass_statement_reset_parameters statement pre.length).query
      ((cass_statement_reset_parameters statement pre.length).bound ++ bind_calls_of D 0 pre) <;>
      simp [cass_statement_reset_parameters]
  · intro a post desc hrej
    have h := bind_args_reject pre a post desc 0
      (cass_statement_reset_parameters statement (pre ++ a :: post).length)
      (fun j b hj => by simpa [cass_statement_reset_parameters] using hst _ j b hj)
      (by simpa [cass_statement_reset_parameters] using hrej)
    simp only [CassSession.execute, h]
    simp [cass_statement_reset_parameters]

/-- Witness for `execute_binds_left_to_right`: a sensor id and a date are
accepted, a third argument is rejected. -/
theorem execute_binds_left_to_right_witness :
    (example_session.execute_prepared example_prepared
        [.uuid example_sensor, .year_month_day 19723, .int32 7]).1 =
      .error (.serialize "int" "Index out of bounds") ∧
    (example_session.execute_prepared example_prepared
        [.uuid example_sensor, .year_month_day 19723, .int32 7]).2.1.executed =
      example_session.executed ∧
    (example_session.execute_prepared example_prepared
        [.uuid example_sensor, .year_month_day 19723, .int32 7]).2.2.bind_calls =
      bind_calls_of ℚ 0 [.uuid example_sensor, .year_month_day 19723, .int32 7] :=
  (execute_binds_left_to_right example_session example_prepared
    example_statement [.uuid example_sensor, .year_month_day 19723]
    (fun j b hj => by
      rcases j with _ | _ | j
      · simp only [List.getElem?_cons_zero, Option.some.injEq] at hj
        subst hj; decide
      · simp only [List.getElem?_cons_succ, List.getElem?_cons_zero, Option.some.injEq] at hj
        subst hj; decide
      · simp at hj)
    (fun _ _ _ _ => rfl)).2.1 (.int32 7) []
    "Index out of bounds" (by decide)

/-- C16: constructing `Rows<Types...>` throws if and only if the column count of
the result differs from the number of expected types; the exception is the
'Invalid column count' error with both numbers, and then there is no `Rows`
object (no iterator is created); otherwise the iterator is created over the
rows of the result. -/
theorem rows_construct_error_iff {F D : Type} (result : CassResult F D)
    (types : List ColumnType) :
    ((∃ e, Rows.construct result types = .error e) ↔ result.column_count ≠ types.length) ∧
    (Rows.construct result types =
        .error (.invalid_column_count types.length result.column_count) ↔
      result.column_count ≠ types.length) ∧
    ((∃ rows, Rows.construct result types = .ok rows) ↔ result.column_count = types.length) ∧
    (Rows.construct result types = .ok { types := types, iterator := result.rows } ↔
      result.column_count = types.length) ∧
    (Thrown.invalid_column_count types.length result.column_count).what =
      "Invalid column count in response expected " ++ toString types.length ++ " found " ++
        toString result.column_count := by
  by_cases h : result.column_count = types.length
  · simp [Rows.construct, h, Thrown.what]
  · simp [Rows.construct, h, Thrown.what]

/-- C17 (code as written): for 1969-12-31 (`d = -1`) the noon timestamp is
`-43200`, whose quotient by 86400 rounds towards zero, so the value bound is
`2^31`, the store date of 1970-01-01; the same value is bound for 1970-01-01
(`d = 0`), and for 2024-01-01 (`d = 19723`) the value is `2^31 + 19723`. -/
theorem date_binding_before_epoch :
    (bind_to_statement example_statement 0 (.year_month_day (-1))).2.bind_calls =
      [(0, .uint32 2147483648)] ∧
    (bind_to_statement example_statement 0 (.year_month_day 0)).2.bind_calls =
      [(0, .uint32 2147483648)] ∧
    (bind_to_statement example_statement 0 (.year_month_day 19723)).2.bind_calls =
      [(0, .uint32 (2147483648 + 19723))] ∧
    cass_date_from_epoch (-1 * 86400 + 43200) = 2147483648 ∧
    cass_date_from_epoch (-1 * 86400 + 43200) ≠ 2147483647 := by
  decide

/-- C18 (counterexample): no specialisation of `bind_to_statement` encodes a
64-bit float, and no specialisation of `deserialize_cass_value` decodes a
calendar date. -/
theorem codec_pairs_counterexample :
    (∀ a : BindArg ℚ, a.sem_type ≠ SemType.double) ∧
      (∀ T : ColumnType, T.sem_type ≠ SemType.date) := by
  constructor
  · intro a; cases a <;> simp [BindArg.sem_type]
  · intro T; cases T <;> simp [ColumnType.sem_type]

/-- C18 (amended): for 32-bit integers, 64-bit integers, 32-bit floats, strings
and UUIDs both an encoder and a decoder exist, and decoding the value that a
successful `bind_to_statement` stores in the statement returns the value
encoded. -/
theorem codec_round_trip {F D : Type} (statement : CassStatement F D) (index : Nat)
    (hok : ∀ w, statement.verdict statement.parameter_count index w = .CASS_OK) :
    (∀ v : Int, ∃ w,
      (bind_to_statement statement index (.int32 v)).2.bound =
          statement.bound ++ [(index, w)] ∧
        deserialize_cass_value ColumnType.int32 (some w) = .ok (Decoded.int32 v)) ∧
    (∀ v : Int, ∃ w,
      (bind_to_statement statement index (.int64 v)).2.bound =
          statement.bound ++ [(index, w)] ∧
        deserialize_cass_value ColumnType.int64 (some w) = .ok (Decoded.int64 v)) ∧
    (∀ v : F, ∃ w,
      (bind_to_statement statement index (.float v)).2.bound =
          statement.bound ++ [(index, w)] ∧
        deserialize_cass_value ColumnType.float (some w) = .ok (Decoded.float v)) ∧
    (∀ v : String, ∃ w,
      (bind_to_statement statement index (.string v)).2.bound =
          statement.bound ++ [(index, w)] ∧
        deserialize_cass_value ColumnType.string (some w) = .ok (Decoded.string v)) ∧
    (∀ v : CassUuid, ∃ w,
      (bind_to_statement statement index (.uuid v)).2.bound =
          statement.bound ++ [(index, w)] ∧
        deserialize_cass_value ColumnType.uuid (some w) = .ok (Decoded.uuid v)) := by
  refine ⟨fun v => ?_, fun v => ?_, fun v => ?_, fun v => ?_, fun v => ?_⟩
  · exact ⟨.int32 v, by simp [bind_to_statement, cass_statement_bind, hok], rfl⟩
  · exact ⟨.int64 v, by simp [bind_to_statement, cass_statement_bind, hok], rfl⟩
  · exact ⟨.float v, by simp [bind_to_statement, cass_statement_bind, hok], rfl⟩
  · exact ⟨.string v, by simp [bind_to_statement, cass_statement_bind, hok], rfl⟩
  · exact ⟨.uuid v, by simp [bind_to_statement, cass_statement_bind, hok], rfl⟩

/-- Witness for `codec_round_trip`: the empty string on a statement that accepts
every bind call. -/
theorem codec_round_trip_witness :
    ∃ w : CassValue ℚ ℚ,
      (bind_to_statement example_statement 0 (.string "")).2.bound =
          example_statement.bound ++ [(0, w)] ∧
        deserialize_cass_value ColumnType.string (some w) = .ok (Decoded.string "") :=
  (codec_round_trip example_statement 0 (fun _ => rfl)).2.2.2.1 ""

theorem next_row_impl_components {F D : Type} (row : List (CassValue F D))
    (types : List ColumnType) :
    ∀ (index : Nat) (tuple : List (Decoded F D)), next_row_impl row types index = .ok tuple →
      tuple.length = types.length ∧
      ∀ j T, types[j]? = some T →
        ∃ v, tuple[j]? = some v ∧
          deserialize_cass_value T (cass_row_get_column row (index + j)) = .ok v := by
  induction types with
  | nil =>
    intro index tuple h
    simp only [next_row_impl, Except.ok.injEq] at h
    subst h
    simp
  | cons T0 types ih =>
    intro index tuple h
    simp only [next_row_impl] at h
    cases hd : deserialize_cass_value T0 (cass_row_get_column row index) with
    | error e => rw [hd] at h; cases h
    | ok v =>
      rw [hd] at h
      simp only at h
      cases hr : next_row_impl row types (index + 1) with
      | error e => rw [hr] at h; cases h
      | ok vs =>
        rw [hr] at h
        simp only [Except.ok.injEq] at h
        subst h
        obtain ⟨hlen, hcomp⟩ := ih (index + 1) vs hr
        refine ⟨by simp [hlen], ?_⟩
        intro j T hj
        cases j with
        | zero =>
          simp only [List.getElem?_cons_zero, Option.some.injEq] at hj
          subst hj
          exact ⟨v, by simp, by simpa using hd⟩
        | succ j =>
          obtain ⟨w, hw, hdw⟩ := hcomp j T (by simpa using hj)
          refine ⟨w, by simpa using hw, ?_⟩
          have hidx : index + (j + 1) = index + 1 + j := by omega
          rw [hidx]; exact hdw

theorem next_rows_all {F D : Type} (types : List ColumnType) (rs : List (List (CassValue F D))) :
    ∀ tuples : List (List (Decoded F D)),
      rs.map (fun row => next_row_impl row types 0) = tuples.map Except.ok →
      Rows.next_rows (rs.length + 1) { types := types, iterator := rs } =
        tuples.map (fun t => Except.ok (some t)) ++ [Except.ok none] := by
  induction rs with
  | nil =>
    intro tuples h
    cases tuples with
    | nil => simp [Rows.next_rows, Rows.next_row]
    | cons t ts => simp at h
  | cons r rs ih =>
    intro tuples h
    cases tuples with
    | nil => simp at h
    | cons t ts =>
      simp only [List.map_cons, List.cons.injEq] at h
      obtain ⟨h1, h2⟩ := h
      simp only [List.length_cons, Rows.next_rows, Rows.next_row, h1, List.map_cons,
        List.cons_append, List.cons.injEq]
      exact ⟨rfl, ih ts h2⟩

theorem deserialize_some_ne_out_of_bounds {F D : Type} (T : ColumnType) (value : CassValue F D) :
    deserialize_cass_value T (some value) ≠ .error .column_out_of_bounds := by
  cases T <;> cases value <;>
    simp [deserialize_cass_value, assert_deser_success, cass_value_get_int32,
      cass_value_get_int64, cass_value_get_float, cass_value_get_double, cass_value_get_uuid,
      cass_value_get_string, Except.map]

theorem next_row_impl_ne_out_of_bounds {F D : Type} (row : List (CassValue F D))
    (types : List ColumnType) :
    ∀ index : Nat, index + types.length ≤ row.length →
      next_row_impl row types index ≠ .error .column_out_of_bounds := by
  induction types with
  | nil => intro index _; simp [next_row_impl]
  | cons T types ih =>
    intro index hlen
    simp only [List.length_cons] at hlen
    have hidx : index < row.length := by omega
    have hcol : cass_row_get_column row index = some row[index] := by
      simp [cass_row_get_column, List.getElem?_eq_getElem hidx]
    simp only [next_row_impl, hcol]
    have hd := deserialize_some_ne_out_of_bounds T row[index]
    cases hv : deserialize_cass_value T (some row[index]) with
    | error e =>
      rw [hv] at hd
      simpa using hd
    | ok v =>
      have hrest := ih (index + 1) (by omega)
      cases hr : next_row_impl row types (index + 1) with
      | error e =>
        rw [hr] at hrest
        simpa using hrest
      | ok vs => simp

theorem next_rows_ne_out_of_bounds {F D : Type} (types : List ColumnType) (n : Nat) :
    ∀ rs : List (List (CassValue F D)), (∀ row ∈ rs, row.length = types.length) →
      ∀ r ∈ Rows.next_rows n ({ types := types, iterator := rs } : Rows F D),
        r ≠ .error .column_out_of_bounds := by
  induction n with
  | zero => intro rs _ r hr; simp [Rows.next_rows] at hr
  | succ n ih =>
    intro rs hrs r hr
    cases rs with
    | nil =>
      simp only [Rows.next_rows, Rows.next_row, List.mem_cons] at hr
      rcases hr with hr | hr
      · rw [hr]; simp
      · exact ih [] (by simp) r hr
    | cons row rest =>
      simp only [Rows.next_rows, Rows.next_row, List.mem_cons] at hr
      rcases hr with hr | hr
      · rw [hr]
        have h := next_row_impl_ne_out_of_bounds row types 0
          (by rw [hrs row (by simp)]; omega)
        cases hv : next_row_impl row types 0 with
        | error e => rw [hv] at h; simpa [Except.map] using h
        | ok v => simp [Except.map]
      · exact ih rest (fun x hx => hrs x (by simp [hx])) r hr

/-- C20: when `Rows<Types...>` has been constructed over a result whose rows
all have the column count of the result, every column index `j` that
`next_row_impl` requests (`j` below the number of expected types) is below the
length of the row, `cass_row_get_column` does not return the null pointer for
it, and no call of `next_row` throws the out-of-bounds error of
`assert_deser_column_non_null`. -/
theorem constructed_rows_columns_in_bounds {F D : Type} (result : CassResult F D)
    (types : List ColumnType) (rows0 : Rows F D)
    (hwf : ∀ row ∈ result.rows, row.length = result.column_count)
    (hc : Rows.construct result types = .ok rows0) :
    (∀ row ∈ rows0.iterator, ∀ j, j < rows0.types.length →
      j < row.length ∧ cass_row_get_column row j ≠ none) ∧
    (∀ n, ∀ r ∈ Rows.next_rows n rows0, r ≠ .error .column_out_of_bounds) := by
  unfold Rows.construct at hc
  split at hc
  · cases hc
  · rename_i hcount
    simp only [ne_eq, not_not] at hcount
    simp only [Except.ok.injEq] at hc
    subst hc
    have hlen : ∀ row ∈ result.rows, row.length = types.length := fun row hrow => by
      rw [hwf row hrow, hcount]
    refine ⟨?_, fun n => next_rows_ne_out_of_bounds types n result.rows hlen⟩
    intro row hrow j hj
    have hj2 : j < row.length := by rw [hlen row hrow]; exact hj
    exact ⟨hj2, by simp [cass_row_get_column, List.getElem?_eq_getElem hj2]⟩

/-- Witness for `constructed_rows_columns_in_bounds`: the two-column example result. -/
theorem constructed_rows_columns_in_bounds_witness :
    (∀ row ∈ example_rows.iterator, ∀ j, j < example_rows.types.length →
      j < row.length ∧ cass_row_get_column row j ≠ none) ∧
    (∀ n, ∀ r ∈ Rows.next_rows n example_rows, r ≠ .error .column_out_of_bounds) :=
  constructed_rows_columns_in_bounds example_result [.int32, .float] example_rows
    (by decide) rfl

/-- C13: when `parse_uuid` rejects the id string, each of the five lookups
answers with its 'Invalid ... id' bad request and sends no statement: the
session, respectively the database, is returned unchanged. -/
theorem invalid_id_rejected {F D : Type} [FloatArith F D]
    (parse_uuid : String → Option CassUuid) (id_str : String)
    (hrej : parse_uuid id_str = none)
    (session : CassSession F D)
    (fetch_owner fetch_pets fetch_sensors fetch_measurements : CassPrepared F D)
    (chrono_parse : String → String → Option Int) (from_str to_str : String)
    (parse_date : String → Option Int) (db : Database F) (now : Int) (date_str : String) :
    handle_get_owner parse_uuid session fetch_owner id_str =
        (.ok (.badRequest "Invalid owner id"), session) ∧
      handle_get_pets parse_uuid session fetch_pets id_str =
        (.ok (.badRequest "Invalid owner id"), session) ∧
      handle_get_sensors parse_uuid session fetch_sensors id_str =
        (.ok (.badRequest "Invalid pet id"), session) ∧
      handle_get_measurements parse_uuid chrono_parse session fetch_measurements id_str
          from_str to_str =
        (.ok (.badRequest "Invalid sensor id"), session) ∧
      handle_get_sensor_avg parse_uuid parse_date db now id_str date_str =
        (.ok (.badRequest "Invalid sensor id"), db) := by
  refine ⟨?_, ?_, ?_, ?_, ?_⟩
  · simp only [handle_get_owner, hrej]
  · simp only [handle_get_pets, hrej]
  · simp only [handle_get_sensors, hrej]
  · simp only [handle_get_measurements, hrej]
  · simp only [handle_get_sensor_avg, hrej]

/-- Witness for `invalid_id_rejected`: the id string `not-a-uuid`. -/
theorem invalid_id_rejected_witness :
    handle_get_owner example_strict_parse_uuid example_session example_prepared "not-a-uuid" =
        (.ok (.badRequest "Invalid owner id"), example_session) ∧
      handle_get_sensor_avg example_strict_parse_uuid example_parse_date (example_db [] 19724 [])
          example_now "not-a-uuid" "2024-01-02" =
        (.ok (.badRequest "Invalid sensor id"), example_db [] 19724 []) :=
  have h := invalid_id_rejected example_strict_parse_uuid "not-a-uuid" rfl example_session
    example_prepared example_prepared example_prepared example_prepared example_chrono_parse
    "" "" example_parse_date (example_db [] 19724 []) example_now "2024-01-02"
  ⟨h.1, h.2.2.2.2⟩

/-- C14 (code as written): `parse_iso_datetime` never returns the empty
optional.  For a string that matches neither format the second extraction runs
with `failbit` in the exception mask and throws `std::ios_base::failure`; so
for `from = yesterday` the handler `handle_get_measurements` does not answer
with the bad request but lets the exception out, before any statement is
sent. -/
theorem malformed_timestamp_throws :
    (∀ (chrono_parse : String → String → Option Int) (iso_date : String),
      parse_iso_datetime chrono_parse iso_date ≠ .ok none) ∧
    parse_iso_datetime example_chrono_parse "yesterday" = .error .ios_failure ∧
    parse_iso_datetime example_chrono_parse "2024-01-01T00:00:00Z" = .ok (some 1704067200000) ∧
    handle_get_measurements example_parse_uuid example_chrono_parse example_session
        example_prepared "S" "yesterday" "2024-01-01T00:00:00Z" =
      (.error .ios_failure, example_session) ∧
    handle_get_measurements example_parse_uuid example_chrono_parse example_session
        example_prepared "S" "2024-01-01T00:00:00Z" "tomorrow" =
      (.error .ios_failure, example_session) := by
  refine ⟨?_, by decide, by decide, ?_, ?_⟩
  · intro chrono_parse iso_date
    simp only [parse_iso_datetime, IStream.extract]
    cases h1 : chrono_parse "%FT%TZ" iso_date with
    | some tp => simp
    | none =>
      cases h2 : chrono_parse "%FT%T%Ez" iso_date with
      | some tp => simp
      | none => simp
  · simp only [handle_get_measurements]
    rfl
  · simp only [handle_get_measurements]
    rfl

theorem fill_averages_appends {F D : Type} [FloatArith F D] (hourly_agg : List (HourlyAvg D))
    (current_hour : Int) (same_date : Bool) (fuel : Nat) :
    ∀ (hour : Int) (data : List F), ∃ extra : List F,
      fill_averages hourly_agg current_hour same_date fuel hour data = data ++ extra := by
  induction fuel with
  | zero => intro hour data; exact ⟨[], by simp [fill_averages]⟩
  | succ fuel ih =>
    intro hour data
    unfold fill_averages
    split
    · obtain ⟨extra, he⟩ := ih (hour + 1)
        (data ++ [bucket_average (hourly_agg.getD hour.toNat
          { value := FloatArith.zero F, total := 0 })])
      exact ⟨bucket_average (hourly_agg.getD hour.toNat
          { value := FloatArith.zero F, total := 0 }) :: extra, by simp only [he]; simp⟩
    · exact ⟨[], by simp⟩

/-- C22: for every millisecond timestamp `t`, negative ones included,
`get_hour_from_timestamp t` is `(t mod 86400000) / 3600000` with the
non-negative remainder and lies in 0..23; for a 64-bit `t` the computation
reduced to 64 bits gives the same hour; and the index into the 24-element
array `hourly_agg` is in bounds at every iteration of the aggregation loop of
`group_by_hour`. -/
theorem get_hour_from_timestamp_in_day {F D : Type} [FloatArith F D] (t : Int) :
    get_hour_from_timestamp t = (t % 86400000) / 3600000 ∧
      0 ≤ get_hour_from_timestamp t ∧ get_hour_from_timestamp t < 24 ∧
      (-9223372036854775808 ≤ t → t < 9223372036854775808 →
        get_hour_from_timestamp_int64 t = get_hour_from_timestamp t) ∧
      ∀ measures : List (Measure F),
        (get_hour_from_timestamp t).toNat <
            (measures.foldl aggregate_measure (hourly_agg_init F)).length ∧
          (measures.foldl aggregate_measure (hourly_agg_init F)).length = 24 := by
  have hr := get_hour_from_timestamp_range t
  refine ⟨get_hour_from_timestamp_eq t, hr.1, hr.2, ?_, ?_⟩
  · intro hlo hhi
    simp only [get_hour_from_timestamp_int64, get_hour_from_timestamp, wrap_int64, ms_per_day,
      ms_per_hour]
    split <;> split <;> omega
  · intro measures
    have hlen : (measures.foldl aggregate_measure (hourly_agg_init F)).length = 24 := by
      rw [foldl_aggregate_measure_length]; simp [hourly_agg_init]
    exact ⟨by rw [hlen]; omega, hlen⟩

/-- C23: `group_by_hour` only appends to `data`: the vector after the call is
`data` followed by new entries, so its first `k = data.size()` entries are the
cached values in their order, whatever the measurements, the current hour and
`same_date` are. -/
theorem group_by_hour_keeps_cached {F D : Type} [FloatArith F D] (data : List F)
    (measures : List (Measure F)) (current_hour : Int) (same_date : Bool) :
    (∃ extra : List F, group_by_hour data measures current_hour same_date = data ++ extra) ∧
      (group_by_hour data measures current_hour same_date).take data.length = data ∧
      ∀ other : List (Measure F),
        (group_by_hour data other current_hour same_date).take data.length =
          (group_by_hour data measures current_hour same_date).take data.length := by
  have happ : ∀ ms : List (Measure F),
      ∃ extra : List F, group_by_hour data ms current_hour same_date = data ++ extra := by
    intro ms
    obtain ⟨extra, he⟩ := fill_averages_appends (ms.foldl aggregate_measure (hourly_agg_init F))
      current_hour same_date (24 - int_of_size_t data.length).toNat (int_of_size_t data.length)
      data
    exact ⟨extra, he⟩
  have htake : ∀ ms : List (Measure F),
      (group_by_hour data ms current_hour same_date).take data.length = data := by
    intro ms
    obtain ⟨extra, he⟩ := happ ms
    rw [he]; simp
  exact ⟨happ measures, htake measures, fun other => by rw [htake other, htake measures]⟩

/-- C21: when `handle_get_sensor_avg` answers with a server error (the only one
it has is that of the integrity check), the two tables of the store are as
before the call and the only statement sent is the read of the cached rows: no
measurement scan, no insert, no repair or deletion. -/
theorem integrity_failure_leaves_store {F D : Type} [FloatArith F D]
    (parse_uuid : String → Option CassUuid) (parse_date : String → Option Int)
    (db : Database F) (now : Int) (sensor_id_str date_str : String) (why : String)
    (hfail : (handle_get_sensor_avg parse_uuid parse_date db now sensor_id_str date_str).1 =
      .ok (.serverError why)) :
    why = invalid_cached_message ∧
      (handle_get_sensor_avg parse_uuid parse_date db now sensor_id_str date_str).2.measurement =
        db.measurement ∧
      (handle_get_sensor_avg parse_uuid parse_date db now sensor_id_str date_str).2.sensor_avg =
        db.sensor_avg ∧
      ∃ sensor_id date,
        parse_uuid sensor_id_str = some sensor_id ∧ parse_date date_str = some date ∧
        read_cached (db.sensor_avg sensor_id (bound_date date)) ([] : List F) = none ∧
        (handle_get_sensor_avg parse_uuid parse_date db now sensor_id_str date_str).2.sent =
          db.sent ++ [Statement.fetch_avg sensor_id date] := by
  cases hpu : parse_uuid sensor_id_str with
  | none => simp [handle_get_sensor_avg, hpu] at hfail
  | some sensor_id =>
    cases hpd : parse_date date_str with
    | none => simp [handle_get_sensor_avg, hpu, hpd] at hfail
    | some date =>
      by_cases hgt : date > floor_days now
      · simp [handle_get_sensor_avg, hpu, hpd, hgt] at hfail
      · cases hf : db.fault db.sent.length with
        | some message =>
          simp only [handle_get_sensor_avg, hpu, hpd, hgt, if_false] at hfail
          rw [execute_error _ _ message hf] at hfail
          simp at hfail
        | none =>
          simp only [handle_get_sensor_avg, hpu, hpd, hgt, if_false] at hfail ⊢
          rw [execute_ok _ _ hf] at hfail ⊢
          simp only [Database.apply] at hfail ⊢
          cases hread : read_cached (db.sensor_avg sensor_id (bound_date date)) ([] : List F) with
          | none =>
            rw [hread] at hfail
            simp only [invalid_cached_message_eq, Except.ok.injEq,
              Response.serverError.injEq] at hfail
            exact ⟨hfail.symm, rfl, rfl, sensor_id, date, rfl, rfl, hread, rfl⟩
          | some data =>
            rw [hread] at hfail
            simp only at hfail
            split at hfail
            · generalize aggregate_missing_hours _ sensor_id now date data = r at hfail
              obtain ⟨r1, r2⟩ := r
              cases r1 <;> simp at hfail
            · simp at hfail

/-- Witness for `integrity_failure_leaves_store`: the cached rows report the
hours 0 and 2. -/
theorem integrity_failure_leaves_store_witness :
    (handle_get_sensor_avg example_parse_uuid example_parse_date
        (example_db example_measures 19723 [(0, 1), (2, 1)]) example_now "S"
        "2024-01-01").1 = .ok (.serverError invalid_cached_message) ∧
      invalid_cached_message = invalid_cached_message ∧
      (handle_get_sensor_avg example_parse_uuid example_parse_date
        (example_db example_measures 19723 [(0, 1), (2, 1)]) example_now "S"
        "2024-01-01").2.measurement =
        (example_db example_measures 19723 [(0, 1), (2, 1)]).measurement ∧
      (handle_get_sensor_avg example_parse_uuid example_parse_date
        (example_db example_measures 19723 [(0, 1), (2, 1)]) example_now "S"
        "2024-01-01").2.sensor_avg =
        (example_db example_measures 19723 [(0, 1), (2, 1)]).sensor_avg ∧
      ∃ sensor_id date,
        example_parse_uuid "S" = some sensor_id ∧ example_parse_date "2024-01-01" = some date ∧
        read_cached ((example_db example_measures 19723 [(0, 1), (2, 1)]).sensor_avg
          sensor_id (bound_date date)) ([] : List ℚ) = none ∧
        (handle_get_sensor_avg example_parse_uuid example_parse_date
          (example_db example_measures 19723 [(0, 1), (2, 1)]) example_now "S"
          "2024-01-01").2.sent =
          (example_db example_measures 19723 [(0, 1), (2, 1)]).sent ++
            [Statement.fetch_avg sensor_id date] :=
  ⟨by decide,
    integrity_failure_leaves_store example_parse_uuid example_parse_date
      (example_db example_measures 19723 [(0, 1), (2, 1)]) example_now "S" "2024-01-01"
      invalid_cached_message (by decide)⟩

/-- C24: for a `GET` request to `/sensors/{sensor_id}/values`, `handle_request`
answers with a bad request and leaves the handler state untouched when `from`
or `to` is absent, but the message names the other parameter: `to` when `from`
is absent, `from` when only `to` is absent. -/
theorem missing_parameter_message_names_other {F D : Type} [FloatArith F D]
    (lib : Library F) (now : Int) (rh : Impl F D) (req : Request) (url : Url)
    (sensor_id : String)
    (hget : req.method = Verb.get)
    (hurl : lib.url_view req.target = .ok url)
    (hseg : url.segments = ["sensors", sensor_id, "values"]) :
    (url.find "from" = none →
      handle_request lib now rh req =
        (.ok (ResponseFactory.badRequest req "No value for \"to\" parameter"), rh)) ∧
    (url.find "from" ≠ none → url.find "to" = none →
      handle_request lib now rh req =
        (.ok (ResponseFactory.badRequest req "No value for \"from\" parameter"), rh)) := by
  constructor
  · intro hfrom
    simp [handle_request, hget, hurl, hseg, hfrom]
  · intro hfrom hto
    cases hf : url.find "from" with
    | none => exact absurd hf hfrom
    | some from_param => simp [handle_request, hget, hurl, hseg, hf, hto]

theorem missing_parameter_message_names_other_witness :
    (example_request "/sensors/S/values?to=2024-01-01T00:00:00Z").method = Verb.get ∧
    example_library.url_view (example_request "/sensors/S/values?to=2024-01-01T00:00:00Z").target =
      .ok { segments := ["sensors", "S", "values"], params := [("to", "2024-01-01T00:00:00Z")] } ∧
    (handle_request example_library example_now (example_impl (.error "unavailable"))
        (example_request "/sensors/S/values?to=2024-01-01T00:00:00Z")).1 =
      .ok { status := 400, version := 11, content_type := "text/html", keep_alive := true,
            body := "No value for \"to\" parameter" } :=
  ⟨rfl, by decide,
    by
      rw [(missing_parameter_message_names_other example_library example_now
        (example_impl (.error "unavailable"))
        (example_request "/sensors/S/values?to=2024-01-01T00:00:00Z")
        { segments := ["sensors", "S", "values"], params := [("to", "2024-01-01T00:00:00Z")] }
        "S" rfl (by decide) rfl).1 (by decide)]
      rfl⟩

/-- An exception that leaves a handler reaches the caller as one derived from `std::exception`. -/
theorem leave_handler_raises_std {β : Type} (req : Request) (to_json : β → String)
    (result : Except Thrown (Response β)) (raised : Raised)
    (h : leave_handler req to_json result = .error raised) :
    ∃ what, raised = .std_exception what := by
  cases result with
  | error e => simp [leave_handler] at h; exact ⟨_, h.symm⟩
  | ok response => simp [leave_handler] at h

/-- Every exception that leaves `handle_request` derives from `std::exception`. -/
theorem handle_request_raises_std {F D : Type} [FloatArith F D] (lib : Library F) (now : Int)
    (rh : Impl F D) (req : Request) (raised : Raised)
    (h : (handle_request lib now rh req).1 = .error raised) :
    ∃ what, raised = .std_exception what := by
  unfold handle_request at h
  split at h
  · simp at h
  · split at h
    · simp at h; exact ⟨_, h.symm⟩
    · split at h
      · exact leave_handler_raises_std _ _ _ _ h
      · split at h
        · exact leave_handler_raises_std _ _ _ _ h
        · split at h
          · exact leave_handler_raises_std _ _ _ _ h
          · split at h
            · split at h
              · simp at h
              · split at h
                · simp at h
                · exact leave_handler_raises_std _ _ _ _ h
            · split at h
              · split at h
                · simp at h; exact ⟨_, h.symm⟩
                · simp at h
              · simp at h

/-- C25 (as stated, refuted): the same request handled over two stores that fail
with different messages raises both times, and the bodies `do_session` sends
differ: each carries the message of the store. -/
theorem unhandled_body_carries_message :
    (handle_request example_library example_now (example_impl (.error "connection refused"))
        (example_request "/owner/S")).1 = .error (.std_exception "connection refused") ∧
    (handle_request example_library example_now (example_impl (.error "unavailable"))
        (example_request "/owner/S")).1 = .error (.std_exception "unavailable") ∧
    (do_session example_library (example_impl (.error "connection refused"))
        [(example_request "/owner/S", example_now)]).1.map HttpResponse.body =
      ["Internal error (unhandled exception thrown): connection refused"] ∧
    (do_session example_library (example_impl (.error "unavailable"))
        [(example_request "/owner/S", example_now)]).1.map HttpResponse.body =
      ["Internal error (unhandled exception thrown): unavailable"] ∧
    (do_session example_library (example_impl (.error "connection refused"))
        [(example_request "/owner/S", example_now)]).1.map HttpResponse.body ≠
      (do_session example_library (example_impl (.error "unavailable"))
        [(example_request "/owner/S", example_now)]).1.map HttpResponse.body := by
  refine ⟨by decide, by decide, by decide, by decide, by decide⟩

/-- C25 (amended): when the handling of a request raises an exception, the
message `do_session` sends for it has status 500 and content type `text/html`,
the exception derives from `std::exception`, and the body is the text
`Internal error (unhandled exception thrown): ` followed by the message of the
exception: the body is fixed by the message and carries it. -/
theorem do_session_unhandled_response {F D : Type} [FloatArith F D] (lib : Library F)
    (rh : Impl F D) (req : Request) (now : Int) (rest : List (Request × Int)) (raised : Raised)
    (hraise : (handle_request lib now rh req).1 = .error raised) :
    ∃ what response,
      raised = .std_exception what ∧
      (do_session lib rh ((req, now) :: rest)).1.head? = some response ∧
      response.status = 500 ∧ response.content_type = "text/html" ∧
      response.body = "Internal error (unhandled exception thrown): " ++ what := by
  obtain ⟨what, hwhat⟩ := handle_request_raises_std lib now rh req raised hraise
  subst hwhat
  refine ⟨what, do_session_response req (.error (.std_exception what)), rfl, ?_, rfl, rfl, rfl⟩
  unfold do_session
  rw [hraise]
  split <;> rfl

theorem do_session_unhandled_response_witness :
    (handle_request example_library example_now (example_impl (.error "unavailable"))
        (example_request "/owner/S")).1 = .error (.std_exception "unavailable") ∧
    ∃ what response,
      Raised.std_exception "unavailable" = .std_exception what ∧
      (do_session example_library (example_impl (.error "unavailable"))
        ((example_request "/owner/S", example_now) :: [])).1.head? = some response ∧
      response.status = 500 ∧ response.content_type = "text/html" ∧
      response.body = "Internal error (unhandled exception thrown): " ++ what :=
  ⟨by decide,
    do_session_unhandled_response example_library (example_impl (.error "unavailable"))
      (example_request "/owner/S") example_now [] (.std_exception "unavailable") (by decide)⟩

theorem hours_upto_length (k : Nat) : (hours_upto k).length = k := by
  simp [hours_upto]

theorem hours_upto_getElem? (k i : Nat) (h : i < k) : (hours_upto k)[i]? = some (i : Int) := by
  simp [hours_upto, List.getElem?_range h]

/-- Rows that pass the integrity check report the hours `0, 1, ...` in order. -/
theorem contiguous_of_read_cached {F : Type} (rows : List (Int × F)) (data : List F)
    (hint : ∀ r ∈ rows, -2147483648 ≤ r.1 ∧ r.1 < 2147483648)
    (h : read_cached rows ([] : List F) = some data) :
    rows.map Prod.fst = hours_upto rows.length := by
  have hiff := read_cached_eq_none_iff rows ([] : List F) (by simp) hint
  have hall : ∀ (i : Nat) (r : Int × F), rows[i]? = some r → r.1 = (i : Int) := by
    intro i r hi
    by_contra hne
    have : read_cached rows ([] : List F) = none :=
      hiff.2 ⟨i, r, hi, by simpa using hne⟩
    rw [this] at h
    cases h
  apply List.ext_getElem?
  intro i
  by_cases hi : i < rows.length
  · rw [hours_upto_getElem? _ _ hi, List.getElem?_map, List.getElem?_eq_getElem hi]
    simp only [Option.map_some', Option.some.injEq]
    exact hall i rows[i] (List.getElem?_eq_getElem hi)
  · rw [List.getElem?_eq_none (by simpa using hi),
      List.getElem?_eq_none (by rw [hours_upto_length]; omega)]

/-- A contiguous partition whose hours stay below 24 has at most 24 rows. -/
theorem contiguous_le_day {F : Type} (rows : List (Int × F)) (k : Nat)
    (hc : rows.map Prod.fst = hours_upto k) (hrange : ∀ r ∈ rows, r.1 < 24) : k ≤ 24 := by
  by_contra hgt
  have hlen : rows.length = k := by
    have := congrArg List.length hc
    simpa [hours_upto_length] using this
  have h24 : 24 < rows.length := by omega
  have hmem : rows[24] ∈ rows := List.getElem_mem h24
  have hval : (rows.map Prod.fst)[24]? = some (24 : Int) := by
    rw [hc]; exact hours_upto_getElem? k 24 (by omega)
  rw [List.getElem?_map, List.getElem?_eq_getElem h24] at hval
  simp only [Option.map_some', Option.some.injEq] at hval
  have := hrange _ hmem
  omega

/-- C11: on a store whose cached hours lie in the range 0..23 of the data model,
for every past date and every cached row sequence that passes the integrity
check (row `i` reports hour `i`) the handler returns exactly 24 averages (it
does return them when the store reports no error, and whatever the store
answers a returned sequence has 24 entries); and for no request at all does the
returned sequence have more than 24 entries. -/
theorem response_length_at_most_day {F D : Type} [FloatArith F D]
    (parse_uuid : String → Option CassUuid) (parse_date : String → Option Int)
    (db : Database F) (now : Int) (sensor_id_str date_str : String)
    (hrange : ∀ s d, ∀ r ∈ db.sensor_avg s d, 0 ≤ r.1 ∧ r.1 < 24) :
    (∀ sensor_id date k,
      parse_uuid sensor_id_str = some sensor_id → parse_date date_str = some date →
      date < floor_days now → cached_hours db sensor_id date = hours_upto k →
      ((∀ i, db.fault i = none) →
        ∃ r : Response (List (SensorAvg F)),
          (handle_get_sensor_avg parse_uuid parse_date db now sensor_id_str date_str).1 = .ok r ∧
          (Response.averages r).length = 24) ∧
      ∀ r : Response (List (SensorAvg F)),
        (handle_get_sensor_avg parse_uuid parse_date db now sensor_id_str date_str).1 = .ok r →
        (Response.averages r).length = 24) ∧
    ∀ r : Response (List (SensorAvg F)),
      (handle_get_sensor_avg parse_uuid parse_date db now sensor_id_str date_str).1 = .ok r →
      (Response.averages r).length ≤ 24 := by
  have hserved : ∀ sensor_id date k,
      parse_uuid sensor_id_str = some sensor_id → parse_date date_str = some date →
      date ≤ floor_days now → cached_hours db sensor_id date = hours_upto k →
      k ≤ 24 ∧
      ∀ r : Response (List (SensorAvg F)),
        (handle_get_sensor_avg parse_uuid parse_date db now sensor_id_str date_str).1 = .ok r →
        (Response.averages r).length = max k (response_end now date) := by
    intro sensor_id date k hu hd hnf hc
    have hk24 : k ≤ 24 :=
      contiguous_le_day _ k hc (fun r hr => (hrange sensor_id (bound_date date) r hr).2)
    refine ⟨hk24, ?_⟩
    intro r hr
    obtain ⟨n, -, -, -, -, -, h5⟩ := handle_get_sensor_avg_spec parse_uuid parse_date db now
      sensor_id_str date_str sensor_id date k hu hd hnf hc (by omega)
    rcases h5 with ⟨ha, -, -⟩ | ⟨m, ha, -⟩ | ⟨m, ha, -⟩
    · rw [ha] at hr
      simp only [Except.ok.injEq] at hr
      rw [← hr, sensor_avgs_averages, served_averages_length,
        (cached_length db sensor_id date k hc).2]
    · rw [ha] at hr; cases hr
    · rw [ha] at hr; cases hr
  refine ⟨?_, ?_⟩
  · intro sensor_id date k hu hd hpast hc
    obtain ⟨hk24, hlen⟩ := hserved sensor_id date k hu hd (by omega) hc
    have hend : response_end now date = 24 := by
      unfold response_end; rw [if_neg (by omega)]
    refine ⟨?_, ?_⟩
    · intro hno
      obtain ⟨h1, -⟩ := handle_get_sensor_avg_healthy parse_uuid parse_date db now sensor_id_str
        date_str sensor_id date k hu hd (by omega) hc (by omega) hno
      refine ⟨_, h1, ?_⟩
      rw [hlen _ h1, hend]; omega
    · intro r hr
      rw [hlen r hr, hend]; omega
  · intro r hr
    cases hpu : parse_uuid sensor_id_str with
    | none =>
      simp only [handle_get_sensor_avg, hpu, Except.ok.injEq] at hr
      rw [← hr]; simp [Response.averages]
    | some sensor_id =>
      cases hpd : parse_date date_str with
      | none =>
        simp only [handle_get_sensor_avg, hpu, hpd, Except.ok.injEq] at hr
        rw [← hr]; simp [Response.averages]
      | some date =>
        by_cases hgt : date > floor_days now
        · simp only [handle_get_sensor_avg, hpu, hpd, hgt, if_true, Except.ok.injEq] at hr
          rw [← hr]; simp [Response.averages]
        · cases hread : read_cached (db.sensor_avg sensor_id (bound_date date)) ([] : List F) with
          | none =>
            cases hf : db.fault db.sent.length with
            | some message =>
              simp only [handle_get_sensor_avg, hpu, hpd, hgt, if_false] at hr
              rw [execute_error _ _ message hf] at hr
              simp at hr
            | none =>
              simp only [handle_get_sensor_avg, hpu, hpd, hgt, if_false] at hr
              rw [execute_ok _ _ hf] at hr
              simp only [Database.apply, hread, Except.ok.injEq] at hr
              rw [← hr]; simp [Response.averages]
          | some data =>
            have hc : cached_hours db sensor_id date =
                hours_upto (db.sensor_avg sensor_id (bound_date date)).length :=
              contiguous_of_read_cached _ data
                (fun r hr => by have := hrange sensor_id (bound_date date) r hr; omega) hread
            obtain ⟨hk24, hlen⟩ := hserved sensor_id date _ hpu hpd (by omega) hc
            rw [hlen r hr]
            have := response_end_le now date
            omega

/-- Witness for `response_length_at_most_day`: the past date 2024-01-01 with two
cached hours and the example measurements. -/
theorem response_length_at_most_day_witness :
    (∀ s d, ∀ r ∈ (example_db example_measures 19723 [(0, 1), (1, 1)]).sensor_avg s d,
      0 ≤ r.1 ∧ r.1 < 24) ∧
    (19723 : Int) < floor_days example_now ∧
    cached_hours (example_db example_measures 19723 [(0, 1), (1, 1)]) example_sensor 19723 =
      hours_upto 2 ∧
    ∃ r : Response (List (SensorAvg ℚ)),
      (handle_get_sensor_avg example_parse_uuid example_parse_date
        (example_db example_measures 19723 [(0, 1), (1, 1)]) example_now "S" "2024-01-01").1 =
        .ok r ∧
      (Response.averages r).length = 24 :=
  have hrange : ∀ s d, ∀ r ∈ (example_db example_measures 19723 [(0, 1), (1, 1)]).sensor_avg s d,
      0 ≤ r.1 ∧ r.1 < 24 := by
    intro s d r hr
    simp only [example_db] at hr
    split at hr
    · simp only [List.mem_cons, List.mem_singleton, List.not_mem_nil, or_false] at hr
      rcases hr with rfl | rfl <;> decide
    · simp at hr
  ⟨hrange, by decide, by decide,
    ((response_length_at_most_day example_parse_uuid example_parse_date
      (example_db example_measures 19723 [(0, 1), (1, 1)]) example_now "S" "2024-01-01"
      hrange).1 example_sensor 19723 2 rfl (by decide) (by decide) (by decide)).1
      (fun _ => rfl)⟩

/-- When every column of a row decodes at its expected type, `next_row_impl`
returns a tuple for the row. -/
theorem next_row_impl_of_decodable {F D : Type} (row : List (CassValue F D))
    (types : List ColumnType) :
    ∀ index : Nat,
      (∀ j T, types[j]? = some T →
        ∃ v, deserialize_cass_value T (cass_row_get_column row (index + j)) = .ok v) →
      ∃ tuple, next_row_impl row types index = .ok tuple := by
  induction types with
  | nil => intro index _; exact ⟨[], rfl⟩
  | cons T0 types ih =>
    intro index h
    obtain ⟨v, hv⟩ := h 0 T0 (by simp)
    obtain ⟨vs, hvs⟩ := ih (index + 1) (fun j T hj => by
      have hj1 := h (j + 1) T (by simpa using hj)
      have hidx : index + (j + 1) = index + 1 + j := by omega
      rwa [hidx] at hj1)
    rw [Nat.add_zero] at hv
    exact ⟨v :: vs, by simp only [next_row_impl, hv, hvs]⟩

/-- When every column of every row decodes, `next_row_impl` returns a tuple for each row. -/
theorem next_row_impl_all_of_decodable {F D : Type} (types : List ColumnType)
    (rs : List (List (CassValue F D)))
    (hdec : ∀ row ∈ rs, ∀ j T, types[j]? = some T →
      ∃ v, deserialize_cass_value T (cass_row_get_column row j) = .ok v) :
    ∃ tuples : List (List (Decoded F D)),
      rs.map (fun row => next_row_impl row types 0) = tuples.map Except.ok := by
  induction rs with
  | nil => exact ⟨[], rfl⟩
  | cons r rs ih =>
    obtain ⟨ts, hts⟩ := ih (fun row hrow => hdec row (List.mem_cons_of_mem _ hrow))
    obtain ⟨t, ht⟩ := next_row_impl_of_decodable r types 0 (fun j T hj => by
      simpa using hdec r (List.mem_cons_self _ _) j T hj)
    exact ⟨t :: ts, by simp only [List.map_cons, ht, hts]⟩

/-- C19: for a result of `n` rows whose column count is the number of expected
types and whose columns all decode (column `j` of every row at expected type
`j`), the first `n` calls of `Rows::next_row` return `n` tuples in the row order
of the result and call `n + 1` returns the empty optional; component `j` of
tuple `i` is column `j` of row `i` decoded at expected type `j`. -/
theorem next_row_yields_rows_in_order {F D : Type} (result : CassResult F D)
    (types : List ColumnType)
    (hcount : result.column_count = types.length)
    (hdec : ∀ row ∈ result.rows, ∀ j T, types[j]? = some T →
      ∃ v, deserialize_cass_value T (cass_row_get_column row j) = .ok v) :
    ∃ (rows0 : Rows F D) (tuples : List (List (Decoded F D))),
      Rows.construct result types = .ok rows0 ∧
      Rows.next_rows (result.rows.length + 1) rows0 =
        tuples.map (fun t => Except.ok (some t)) ++ [Except.ok none] ∧
      tuples.length = result.rows.length ∧
      ∀ (i : Nat) (row : List (CassValue F D)) (tuple : List (Decoded F D)),
        result.rows[i]? = some row → tuples[i]? = some tuple →
        tuple.length = types.length ∧
        ∀ j T, types[j]? = some T →
          ∃ v, tuple[j]? = some v ∧
            deserialize_cass_value T (cass_row_get_column row j) = .ok v := by
  obtain ⟨tuples, htuples⟩ := next_row_impl_all_of_decodable types result.rows hdec
  refine ⟨{ types := types, iterator := result.rows }, tuples, by simp [Rows.construct, hcount],
    next_rows_all types result.rows tuples htuples, ?_, ?_⟩
  · have := congrArg List.length htuples
    simpa using this.symm
  · intro i row tuple hrow htuple
    have hi := congrArg (fun l => l[i]?) htuples
    simp only [List.getElem?_map, hrow, htuple, Option.map_some', Option.some.injEq] at hi
    have := next_row_impl_components row types 0 tuple hi
    simpa using this

/-- Witness for `next_row_yields_rows_in_order`: two rows of an hour and a value,
with the three calls evaluated. -/
theorem next_row_yields_rows_in_order_witness :
    example_result.column_count = [ColumnType.int32, ColumnType.float].length ∧
    (∀ row ∈ example_result.rows, ∀ j T, [ColumnType.int32, ColumnType.float][j]? = some T →
      ∃ v : Decoded ℚ ℚ, deserialize_cass_value T (cass_row_get_column row j) = .ok v) ∧
    (∃ (rows0 : Rows ℚ ℚ) (tuples : List (List (Decoded ℚ ℚ))),
      Rows.construct example_result [.int32, .float] = .ok rows0 ∧
      Rows.next_rows (example_result.rows.length + 1) rows0 =
        tuples.map (fun t => Except.ok (some t)) ++ [Except.ok none] ∧
      tuples.length = example_result.rows.length) ∧
    Rows.next_rows 3 example_rows =
      [.ok (some [.int32 0, .float 15]), .ok (some [.int32 1, .float 0]), .ok none] :=
  have hdec : ∀ row ∈ example_result.rows, ∀ j T,
      [ColumnType.int32, ColumnType.float][j]? = some T →
      ∃ v : Decoded ℚ ℚ, deserialize_cass_value T (cass_row_get_column row j) = .ok v := by
    intro row hrow j T hj
    simp only [example_result, List.mem_cons, List.mem_singleton, List.not_mem_nil,
      or_false] at hrow
    rcases j with _ | _ | j
    · simp only [List.getElem?_cons_zero, Option.some.injEq] at hj
      subst hj
      rcases hrow with rfl | rfl <;> exact ⟨_, rfl⟩
    · simp only [List.getElem?_cons_succ, List.getElem?_cons_zero, Option.some.injEq] at hj
      subst hj
      rcases hrow with rfl | rfl <;> exact ⟨_, rfl⟩
    · simp at hj
  ⟨rfl, hdec,
    match next_row_yields_rows_in_order example_result [.int32, .float] rfl hdec with
    | ⟨rows0, tuples, h1, h2, h3, _⟩ => ⟨rows0, tuples, h1, h2, h3⟩,
    by decide⟩

end CarePet
